import Mathlib

/-!
# AimGL player controller: physics step, collision resolution, jump and walking sound

A shallow embedding of `src/AimGL/src/Player/Player.cpp` and of the fixed-update
scheduler declared in `src/AimGL/src/Game.h`.

Numbers are taken in an arbitrary linearly ordered field `K` (exact arithmetic): every
definition is executable at `K := ℚ`, and the same theorems hold at `K := ℝ`.
Mutable members of the C++ object become fields of a `Player` record that each member
function takes and returns.  What the translation unit only uses but does not define
(the `PLAYER_*` constants of `Player.h`, `exp`, `glm::length`, `glm::normalize`, the
collider register, the SFML sound and keyboard) is passed in explicitly.
-/

namespace AimGL

/-! ## Vectors -/

/-- A `glm::vec3` with components in `K`. -/
structure Vec3 (K : Type) where
  x : K
  y : K
  z : K
deriving DecidableEq, Repr

/-- The three components a `float&` into a `glm::vec3` can refer to. -/
inductive Axis where
  | x
  | y
  | z
deriving DecidableEq, Repr

namespace Vec3

variable {K : Type}

/-- Read the component selected by `a`. -/
def get (v : Vec3 K) : Axis → K
  | Axis.x => v.x
  | Axis.y => v.y
  | Axis.z => v.z

/-- Write the component selected by `a`, leaving the two others. -/
def set (v : Vec3 K) (a : Axis) (k : K) : Vec3 K :=
  match a with
  | Axis.x => { v with x := k }
  | Axis.y => { v with y := k }
  | Axis.z => { v with z := k }

/-- Componentwise `operator+`. -/
def add [Add K] (a b : Vec3 K) : Vec3 K := ⟨a.x + b.x, a.y + b.y, a.z + b.z⟩

/-- Componentwise `operator-`. -/
def sub [Sub K] (a b : Vec3 K) : Vec3 K := ⟨a.x - b.x, a.y - b.y, a.z - b.z⟩

/-- Scalar times vector, `s * v`. -/
def smul [Mul K] (s : K) (v : Vec3 K) : Vec3 K := ⟨s * v.x, s * v.y, s * v.z⟩

/-- Vector divided by a scalar, `v / s`. -/
def divScalar [Div K] (v : Vec3 K) (s : K) : Vec3 K := ⟨v.x / s, v.y / s, v.z / s⟩

end Vec3

/-! ## Colliders and the collider register -/

/-- Modelled from the spec: the enumeration `ColliderTag` (its header is not among the
sources).  The code names only `ColliderTag::Solid`; every further tag is `Other n`. -/
inductive ColliderTag where
  | Solid
  | Other (n : Nat)
deriving DecidableEq, Repr

/-- Modelled from the spec: an axis-aligned box collider with a position (its minimum
corner), its dimensions and a classification tag. -/
structure Collider (K : Type) where
  position : Vec3 K
  dimensions : Vec3 K
  tag : ColliderTag
deriving DecidableEq, Repr

/-- The accessor `colliderTag()` used by the filter of the collision pass. -/
def Collider.colliderTag {K : Type} (c : Collider K) : ColliderTag := c.tag

/-- The register as the physics step sees it: `findCollisions` maps the queried collider to
the registered colliders overlapping it.  Any register content induces such a map. -/
structure ColliderRegister (K : Type) where
  findCollisions : Collider K → List (Collider K)

/-- Modelled from the spec: the overlap test of the register (axis-aligned box
intersection: the intervals overlap on all three axes). -/
def Collider.overlaps {K : Type} [LinearOrderedField K] (a b : Collider K) : Bool :=
  decide (a.position.x < b.position.x + b.dimensions.x) &&
  decide (b.position.x < a.position.x + a.dimensions.x) &&
  decide (a.position.y < b.position.y + b.dimensions.y) &&
  decide (b.position.y < a.position.y + a.dimensions.y) &&
  decide (a.position.z < b.position.z + b.dimensions.z) &&
  decide (b.position.z < a.position.z + a.dimensions.z)

/-- Modelled from the spec: a register holding the colliders `cs` of the level, whose
query returns every held collider that overlaps the queried volume. -/
def ColliderRegister.ofColliders {K : Type} [LinearOrderedField K]
    (cs : List (Collider K)) : ColliderRegister K :=
  ⟨fun q => cs.filter (fun c => q.overlaps c)⟩

/-- The algorithm `std::erase_if`: drop every element on which `pred` holds. -/
def erase_if {α : Type} (l : List α) (pred : α → Bool) : List α :=
  l.filter (fun a => !pred a)

/-! ## External collaborators of the player -/

/-- The status of an `sf::Sound`. -/
inductive SoundStatus where
  | Stopped
  | Paused
  | Playing
deriving DecidableEq, Repr

/-- A call made on the audio sink. -/
inductive SoundCall where
  | play
  | stop
deriving DecidableEq, Repr

/-- The audio sink: its status and the calls it has received, oldest first. -/
structure Sound where
  status : SoundStatus
  calls : List SoundCall
deriving DecidableEq, Repr

/-- The call `play()`: the sink is Playing afterwards. -/
def Sound.play (s : Sound) : Sound := ⟨SoundStatus.Playing, s.calls ++ [SoundCall.play]⟩

/-- The call `stop()`: the sink is Stopped afterwards. -/
def Sound.stop (s : Sound) : Sound := ⟨SoundStatus.Stopped, s.calls ++ [SoundCall.stop]⟩

/-- The accessor `getStatus()`. -/
def Sound.getStatus (s : Sound) : SoundStatus := s.status

/-- The answers of `sf::Keyboard::isKeyPressed` for the four movement keys. -/
structure Keyboard where
  W : Bool
  S : Bool
  A : Bool
  D : Bool
deriving DecidableEq, Repr

/-- Key codes of `sf::Keyboard`; the code distinguishes only `Space`. -/
inductive Key where
  | Space
  | Other (code : Int)
deriving DecidableEq, Repr

/-- Event types of `sf::Event`. -/
inductive EventType where
  | Closed
  | KeyPressed
  | KeyReleased
  | MouseMoved
  | MouseButtonPressed
  | Other (n : Nat)
deriving DecidableEq, Repr

/-- The member `key` of the event union. -/
structure KeyEvent where
  code : Key
deriving DecidableEq, Repr

/-- An `sf::Event`: its type, and what the expression `event.key.code` reads from it. -/
structure Event where
  type : EventType
  key : KeyEvent
deriving DecidableEq, Repr

/-- The weapon sub-object as far as the player drives it: the events handed to its
`handleEvent`, oldest first. -/
structure Rifle where
  handled : List Event
deriving DecidableEq, Repr

/-- The call `mRifle.handleEvent(event)`. -/
def Rifle.handleEvent (r : Rifle) (event : Event) : Rifle := ⟨r.handled ++ [event]⟩

/-- The camera as far as the physics step reads it: the two pitch-free direction vectors. -/
structure Camera (K : Type) where
  directionWithoutPitch : Vec3 K
  rightDirectionWithoutPitch : Vec3 K
deriving DecidableEq, Repr

/-- What `Player.cpp` takes from `Player.h` and from the math libraries: the `PLAYER_*`
constants and the functions `exp`, `glm::length` and `glm::normalize`. -/
structure Env (K : Type) where
  PLAYER_HEGIHT : K
  PLAYER_WALKING_SPEED : K
  PLAYER_MAX_HORIZONTAL_SPEED : K
  PLAYER_MAX_FALLING_SPEED : K
  PLAYER_JUMP_FORCE : K
  PLAYER_WALKING_DECELERATE_RATIO : K
  exp : K → K
  length : Vec3 K → K
  normalize : Vec3 K → Vec3 K

/-! ## The player -/

/-- The mutable members of `Player` that the physics step, the jump and the event handler
read or write. -/
structure Player (K : Type) where
  mPosition : Vec3 K
  mVelocity : Vec3 K
  doesPlayerStandOnCollider : Bool
  mCollider : Collider K
  mCamera : Camera K
  mWalkingSound : Sound
  mRifle : Rifle
deriving DecidableEq, Repr

section Code

variable {K : Type} [LinearOrderedField K]

/-- The member function `Player::updateColliderPosition`: the collider is centred on the player horizontally
and starts at the player's feet vertically. -/
def updateColliderPosition (p : Player K) : Player K :=
  let colliderPosition := Vec3.sub p.mPosition (Vec3.divScalar p.mCollider.dimensions 2)
  let colliderPosition := { colliderPosition with y := p.mPosition.y }
  { p with mCollider := { p.mCollider with position := colliderPosition } }

/-- The member function `Player::tryUpdatePositionByApplyingVelocityIfCollisionAllows(position, velocity)`, the
two references being the components `axis` of `mPosition` and of `mVelocity` (as at its
three call sites).  Returns the `bool` result and the player afterwards. -/
def tryUpdatePositionByApplyingVelocityIfCollisionAllows (reg : ColliderRegister K)
    (axis : Axis) (p : Player K) : Bool × Player K :=
  let p := { p with mPosition := p.mPosition.set axis (p.mPosition.get axis + p.mVelocity.get axis) }
  let p := updateColliderPosition p
  let collisions := reg.findCollisions p.mCollider
  let collisions := erase_if collisions (fun collision => collision.colliderTag != ColliderTag.Solid)
  if !collisions.isEmpty then
    let p := { p with mPosition := p.mPosition.set axis (p.mPosition.get axis - p.mVelocity.get axis) }
    let p := { p with mVelocity := p.mVelocity.set axis 0 }
    let p := updateColliderPosition p
    (false, p)
  else
    (true, p)

/-- The member function `Player::isOnGround`. -/
def isOnGround (p : Player K) : Bool :=
  decide (p.mPosition.y ≤ 0) || p.doesPlayerStandOnCollider

/-- The member function `Player::decelerateVelocity`. -/
def decelerateVelocity (env : Env K) (deltaTime : K) (p : Player K) : Player K :=
  let decayFactor := env.exp (-(Env.PLAYER_WALKING_DECELERATE_RATIO env) * deltaTime)
  let p := { p with mVelocity := { p.mVelocity with x := p.mVelocity.x * decayFactor } }
  { p with mVelocity := { p.mVelocity with z := p.mVelocity.z * decayFactor } }

/-- The constant `G` of `Player::manageVerticalVelocity`, `-9.81f * 0.01f`. -/
def G : K := -(981 / 100) * (1 / 100)

/-- The member function `Player::manageVerticalVelocity`. -/
def manageVerticalVelocity (deltaTime : K) (p : Player K) : Player K :=
  { p with mVelocity := { p.mVelocity with y := p.mVelocity.y + G * deltaTime } }

/-- The lambda `limitVelocitySpeed` of `Player::limitVelocity`, returning the new value of
the velocity component it is handed by reference. -/
def limitVelocitySpeed (velocity maxVelocity : K) : K :=
  if velocity > maxVelocity then maxVelocity
  else if -velocity > maxVelocity then -maxVelocity
  else velocity

/-- The member function `Player::limitVelocity`. -/
def limitVelocity (env : Env K) (deltaTime : K) (p : Player K) : Player K :=
  let playerVelocity := env.PLAYER_MAX_HORIZONTAL_SPEED * deltaTime
  let p := { p with mVelocity := { p.mVelocity with x := limitVelocitySpeed p.mVelocity.x playerVelocity } }
  let p := { p with mVelocity := { p.mVelocity with z := limitVelocitySpeed p.mVelocity.z playerVelocity } }
  if -p.mVelocity.y > env.PLAYER_MAX_FALLING_SPEED then
    { p with mVelocity := { p.mVelocity with y := -env.PLAYER_MAX_FALLING_SPEED } }
  else
    p

/-- The member function `Player::manageWalkingSounds`. -/
def manageWalkingSounds (playerWalkingVector : Vec3 K) (p : Player K) : Player K :=
  let noDirection : Vec3 K := ⟨0, 0, 0⟩
  match p.mWalkingSound.getStatus with
  | SoundStatus.Playing =>
    if decide (playerWalkingVector = noDirection) || !isOnGround p then
      { p with mWalkingSound := p.mWalkingSound.stop }
    else
      p
  | SoundStatus.Paused | SoundStatus.Stopped =>
    if decide (playerWalkingVector ≠ noDirection) && isOnGround p then
      { p with mWalkingSound := p.mWalkingSound.play }
    else
      p

/-- The member function `Player::handleMovementKeyboardInputs`. -/
def handleMovementKeyboardInputs (env : Env K) (keys : Keyboard) (deltaTime : K)
    (p : Player K) : Player K :=
  let ACCELERATION_RATIO : K := 1 / 10
  let direction : Vec3 K := ⟨0, 0, 0⟩
  let direction := if keys.W then Vec3.add direction p.mCamera.directionWithoutPitch else direction
  let direction := if keys.S then Vec3.sub direction p.mCamera.directionWithoutPitch else direction
  let direction := if keys.D then Vec3.add direction p.mCamera.rightDirectionWithoutPitch else direction
  let direction := if keys.A then Vec3.sub direction p.mCamera.rightDirectionWithoutPitch else direction
  let p := manageWalkingSounds direction p
  if env.length direction > 0 then
    let direction := env.normalize direction
    let finalSpeed := env.PLAYER_WALKING_SPEED * ACCELERATION_RATIO * deltaTime
    { p with mVelocity := Vec3.add p.mVelocity (Vec3.smul finalSpeed direction) }
  else
    p

/-- The member function `Player::updatePhysics`. -/
def updatePhysics (env : Env K) (reg : ColliderRegister K) (keys : Keyboard) (deltaTime : K)
    (p : Player K) : Player K :=
  let p := handleMovementKeyboardInputs env keys deltaTime p
  let p := decelerateVelocity env deltaTime p
  let p := manageVerticalVelocity deltaTime p
  let p := limitVelocity env deltaTime p
  let p := (tryUpdatePositionByApplyingVelocityIfCollisionAllows reg Axis.x p).2
  let r := tryUpdatePositionByApplyingVelocityIfCollisionAllows reg Axis.y p
  let p : Player K := { r.2 with doesPlayerStandOnCollider := !r.1 }
  let p := if p.mPosition.y < 0 then { p with mPosition := { p.mPosition with y := 0 } } else p
  (tryUpdatePositionByApplyingVelocityIfCollisionAllows reg Axis.z p).2

/-- The member function `Player::fixedUpdate`. -/
def fixedUpdate (env : Env K) (reg : ColliderRegister K) (keys : Keyboard) (deltaTime : K)
    (p : Player K) : Player K :=
  updatePhysics env reg keys deltaTime (updateColliderPosition p)

/-- The member function `Player::tryJump`. -/
def tryJump (env : Env K) (p : Player K) : Player K :=
  if isOnGround p then
    { p with mVelocity := { p.mVelocity with y := env.PLAYER_JUMP_FORCE } }
  else
    p

/-- The member function `Player::handleEvent`. -/
def handleEvent (env : Env K) (event : Event) (p : Player K) : Player K :=
  let p :=
    match event.key.code with
    | Key.Space => tryJump env p
    | _ => p
  { p with mRifle := p.mRifle.handleEvent event }

/-- The direction vector that `handleMovementKeyboardInputs` sums from the keys held
(lines 150-167) and hands to `manageWalkingSounds`. -/
def summedDirection (keys : Keyboard) (camera : Camera K) : Vec3 K :=
  let direction : Vec3 K := ⟨0, 0, 0⟩
  let direction := if keys.W then Vec3.add direction camera.directionWithoutPitch else direction
  let direction := if keys.S then Vec3.sub direction camera.directionWithoutPitch else direction
  let direction := if keys.D then Vec3.add direction camera.rightDirectionWithoutPitch else direction
  let direction := if keys.A then Vec3.sub direction camera.rightDirectionWithoutPitch else direction
  direction

/-- The player's collider as the registry is asked about it in the collision pass on `axis`:
the collider recomputed after the velocity component was added to the position component. -/
def tentativeCollider (axis : Axis) (p : Player K) : Collider K :=
  (updateColliderPosition
    { p with mPosition := p.mPosition.set axis (p.mPosition.get axis + p.mVelocity.get axis) }).mCollider

end Code

/-! ## Intermediate states of `updatePhysics` -/

section Stages

variable {K : Type} [LinearOrderedField K]

/-- The player after the four velocity phases of `updatePhysics` (lines 67-70), before the
first collision pass. -/
def afterVelocityPhases (env : Env K) (keys : Keyboard) (deltaTime : K) (p : Player K) :
    Player K :=
  limitVelocity env deltaTime (manageVerticalVelocity deltaTime
    (decelerateVelocity env deltaTime (handleMovementKeyboardInputs env keys deltaTime p)))

/-- The player after the X pass of `updatePhysics` (line 72). -/
def afterXPass (env : Env K) (reg : ColliderRegister K) (keys : Keyboard) (deltaTime : K)
    (p : Player K) : Player K :=
  (tryUpdatePositionByApplyingVelocityIfCollisionAllows reg Axis.x
    (afterVelocityPhases env keys deltaTime p)).2

/-- The result of the Y pass of `updatePhysics` (the call on line 74). -/
def yPass (env : Env K) (reg : ColliderRegister K) (keys : Keyboard) (deltaTime : K)
    (p : Player K) : Bool × Player K :=
  tryUpdatePositionByApplyingVelocityIfCollisionAllows reg Axis.y
    (afterXPass env reg keys deltaTime p)

/-- The player after the Y pass and the assignment of the ground-contact flag
(lines 73-74). -/
def afterYPass (env : Env K) (reg : ColliderRegister K) (keys : Keyboard) (deltaTime : K)
    (p : Player K) : Player K :=
  { (yPass env reg keys deltaTime p).2 with
    doesPlayerStandOnCollider := !(yPass env reg keys deltaTime p).1 }

/-- The player after the floor clamp (lines 75-78), before the Z pass. -/
def afterFloorClamp (env : Env K) (reg : ColliderRegister K) (keys : Keyboard) (deltaTime : K)
    (p : Player K) : Player K :=
  if (afterYPass env reg keys deltaTime p).mPosition.y < 0 then
    { afterYPass env reg keys deltaTime p with
      mPosition := { (afterYPass env reg keys deltaTime p).mPosition with y := 0 } }
  else
    afterYPass env reg keys deltaTime p

end Stages

/-! ## The fixed-update scheduler -/

/-- Modelled from the spec: the members of `Game` the scheduler works on (`Game.cpp` is not
among the sources): the accumulator `mTimeSinceLastFixedUpdate`, the simulated state behind
`mAppStack`, and the `deltaTime` arguments of the fixed updates made so far, oldest first. -/
structure Game (σ : Type) where
  mTimeSinceLastFixedUpdate : ℚ
  mAppStack : σ
  fixedUpdateCalls : List ℚ

/-- Modelled from the spec: `Game::fixedUpdate`, one physics step `step` with the given
`deltaTime`. -/
def Game.fixedUpdate {σ : Type} (step : ℚ → σ → σ) (deltaTime : ℚ) (g : Game σ) : Game σ :=
  { g with mAppStack := step deltaTime g.mAppStack,
           fixedUpdateCalls := g.fixedUpdateCalls ++ [deltaTime] }

/-- Modelled from the spec: the loop of `Game::fixedUpdateAtEqualIntervals`: as long as the
accumulator holds at least one full interval `T`, subtract `T` and make one fixed update
with the constant argument `T`.  (`T` is the positive constant
`TIME_PER_FIXED_UPDATE_CALLS`.) -/
def Game.fixedUpdateLoop {σ : Type} (T : ℚ) (hT : 0 < T) (step : ℚ → σ → σ) (g : Game σ) :
    Game σ :=
  if T ≤ g.mTimeSinceLastFixedUpdate then
    Game.fixedUpdateLoop T hT step
      (Game.fixedUpdate step T
        { g with mTimeSinceLastFixedUpdate := g.mTimeSinceLastFixedUpdate - T })
  else
    g
termination_by (⌊g.mTimeSinceLastFixedUpdate / T⌋).toNat
decreasing_by
  simp only [Game.fixedUpdate]
  rename_i h
  have h1 : (g.mTimeSinceLastFixedUpdate - T) / T = g.mTimeSinceLastFixedUpdate / T - 1 := by
    field_simp
  have h2 : (1 : ℚ) ≤ g.mTimeSinceLastFixedUpdate / T := by
    rw [le_div_iff₀ hT]; simpa using h
  have h3 : (1 : ℤ) ≤ ⌊g.mTimeSinceLastFixedUpdate / T⌋ := by
    rw [Int.le_floor]; simpa using h2
  rw [h1, Int.floor_sub_one]
  omega

/-- Modelled from the spec: `Game::fixedUpdateAtEqualIntervals`: add the frame's elapsed
time to the accumulator, then run the loop. -/
def Game.fixedUpdateAtEqualIntervals {σ : Type} (T : ℚ) (hT : 0 < T) (step : ℚ → σ → σ)
    (elapsed : ℚ) (g : Game σ) : Game σ :=
  Game.fixedUpdateLoop T hT step
    { g with mTimeSinceLastFixedUpdate := g.mTimeSinceLastFixedUpdate + elapsed }

/-! ## Concrete data over `ℚ` used to run the definitions -/

/-- A configuration over `ℚ`.  `exp`, `length` and `normalize` are rational stand-ins:
`exp t = 1 / (1 - t)` lies in `(0, 1]` for `t ≤ 0`, and `length` (the largest absolute
component) and `normalize` are exact on axis-parallel vectors. -/
def exampleEnv : Env ℚ where
  PLAYER_HEGIHT := 4 / 5
  PLAYER_WALKING_SPEED := 5 / 2
  PLAYER_MAX_HORIZONTAL_SPEED := 5
  PLAYER_MAX_FALLING_SPEED := 15
  PLAYER_JUMP_FORCE := 1 / 5
  PLAYER_WALKING_DECELERATE_RATIO := 10
  exp := fun t => 1 / (1 - t)
  length := fun v => max (max |v.x| |v.y|) |v.z|
  normalize := fun v =>
    ⟨v.x / max (max |v.x| |v.y|) |v.z|, v.y / max (max |v.x| |v.y|) |v.z|,
      v.z / max (max |v.x| |v.y|) |v.z|⟩

/-- No movement key held. -/
def noKeys : Keyboard := ⟨false, false, false, false⟩

/-- The player as constructed (collider of dimensions `0.35 × 0.8 × 0.35`, sound stopped),
placed at `position` with velocity `velocity`, camera looking along `-z`. -/
def playerAt (position velocity : Vec3 ℚ) : Player ℚ where
  mPosition := position
  mVelocity := velocity
  doesPlayerStandOnCollider := false
  mCollider := ⟨⟨0, 0, 0⟩, ⟨7 / 20, 4 / 5, 7 / 20⟩, ColliderTag.Solid⟩
  mCamera := ⟨⟨0, 0, -1⟩, ⟨1, 0, 0⟩⟩
  mWalkingSound := ⟨SoundStatus.Stopped, []⟩
  mRifle := ⟨[]⟩

/-- A box occupying `1/4 ≤ x ≤ 5/4`, `0 ≤ y ≤ 2`, `-1 ≤ z ≤ 1`, with the given tag. -/
def boxAhead (tag : ColliderTag) : Collider ℚ := ⟨⟨1 / 4, 0, -1⟩, ⟨1, 2, 2⟩, tag⟩

/-- A level holding one solid wall ahead of the origin on the x axis. -/
def wallRegister : ColliderRegister ℚ := ColliderRegister.ofColliders [boxAhead ColliderTag.Solid]

/-- A level holding one non-solid (trigger) volume in the same place. -/
def triggerRegister : ColliderRegister ℚ :=
  ColliderRegister.ofColliders [boxAhead (ColliderTag.Other 0)]

/-- A level without colliders. -/
def emptyRegister : ColliderRegister ℚ := ColliderRegister.ofColliders []

/-- A level holding one solid slab overhead, occupying `2 ≤ y ≤ 3` above the origin. -/
def ceilingRegister : ColliderRegister ℚ :=
  ColliderRegister.ofColliders [⟨⟨-1, 2, -1⟩, ⟨2, 1, 2⟩, ColliderTag.Solid⟩]

/-- A key-release event carrying the Space key code. -/
def spaceReleased : Event := ⟨EventType.KeyReleased, ⟨Key.Space⟩⟩

/-- A stub physics step that only counts its invocations. -/
def countingStep : ℚ → Nat → Nat := fun _ n => n + 1

/-- The player standing at the origin whose walking sound has the given status. -/
def standingPlayer (status : SoundStatus) : Player ℚ :=
  { playerAt ⟨0, 0, 0⟩ ⟨0, 0, 0⟩ with mWalkingSound := ⟨status, []⟩ }

/-! ## Exact mathematics and generic concrete data -/

/-- The sum of products `glm::dot(a, b)`. -/
def Vec3.dot {K : Type} [Add K] [Mul K] (a b : Vec3 K) : K := a.x * b.x + a.y * b.y + a.z * b.z

/-- A configuration over any field, given the walking speed, the maximum horizontal speed,
the exponential and the square root: `length v` is `sqrt (dot v v)` and `normalize v` is
`v * (1 / sqrt (dot v v))`, as GLM computes them. -/
def mathEnv {K : Type} [LinearOrderedField K] (walkingSpeed maxHorizontalSpeed : K)
    (exp sqrt : K → K) : Env K where
  PLAYER_HEGIHT := 4 / 5
  PLAYER_WALKING_SPEED := walkingSpeed
  PLAYER_MAX_HORIZONTAL_SPEED := maxHorizontalSpeed
  PLAYER_MAX_FALLING_SPEED := 15
  PLAYER_JUMP_FORCE := 1 / 5
  PLAYER_WALKING_DECELERATE_RATIO := 10
  exp := exp
  length := fun v => sqrt (Vec3.dot v v)
  normalize := fun v => Vec3.smul (1 / sqrt (Vec3.dot v v)) v

/-- The math functions of a configuration over `ℝ` are the exact ones: `exp` is the real
exponential, `glm::length` the Euclidean norm and `glm::normalize` the division by it. -/
def Env.ExactMath (env : Env ℝ) : Prop :=
  env.exp = Real.exp ∧
  (∀ v, env.length v = Real.sqrt (Vec3.dot v v)) ∧
  (∀ v, env.normalize v = Vec3.smul (1 / Real.sqrt (Vec3.dot v v)) v)

/-- The player as constructed (collider of dimensions `0.35 × 0.8 × 0.35`, sound stopped),
over any field, placed at `position` with velocity `velocity`, the camera looking along
`forward` with `right` to its right. -/
def playerWith {K : Type} [LinearOrderedField K] (position velocity forward right : Vec3 K) :
    Player K where
  mPosition := position
  mVelocity := velocity
  doesPlayerStandOnCollider := false
  mCollider := ⟨⟨0, 0, 0⟩, ⟨7 / 20, 4 / 5, 7 / 20⟩, ColliderTag.Solid⟩
  mCamera := ⟨forward, right⟩
  mWalkingSound := ⟨SoundStatus.Stopped, []⟩
  mRifle := ⟨[]⟩

/-- Only the forward key `W` held. -/
def onlyForward : Keyboard := ⟨true, false, false, false⟩

/-- Modelled from the spec: the camera (its class is not among the sources) hands out
pitch-free direction vectors, whose vertical component is `0`, and normalising a vector
without vertical component gives a vector without vertical component. -/
def HorizontalLook {K : Type} [LinearOrderedField K] (env : Env K) (camera : Camera K) : Prop :=
  camera.directionWithoutPitch.y = 0 ∧ camera.rightDirectionWithoutPitch.y = 0 ∧
  ∀ v : Vec3 K, v.y = 0 → (env.normalize v).y = 0

/-- The registry never reports a Solid collider (in particular: the level is empty). -/
def NoSolid {K : Type} (reg : ColliderRegister K) : Prop :=
  ∀ q : Collider K, ∀ c ∈ reg.findCollisions q, c.tag ≠ ColliderTag.Solid

/-- The collider position as the spec derives it from the authoritative position:
horizontally centred on the player, vertically anchored at the feet. -/
def derivedColliderPosition {K : Type} [LinearOrderedField K] (p : Player K) : Vec3 K :=
  ⟨p.mPosition.x - p.mCollider.dimensions.x / 2, p.mPosition.y,
    p.mPosition.z - p.mCollider.dimensions.z / 2⟩

/-- The player's collider, placed where the current position puts it, overlaps a collider
that the registry reports as Solid. -/
def overlapsSolid {K : Type} [LinearOrderedField K] (reg : ColliderRegister K) (p : Player K) :
    Prop :=
  ∃ c ∈ reg.findCollisions (updateColliderPosition p).mCollider, c.tag = ColliderTag.Solid

/-- A level holding one thin solid platform just above the floor plane, occupying
`1/20 ≤ y ≤ 3/20` around the origin. -/
def platformRegister : ColliderRegister ℚ :=
  ColliderRegister.ofColliders [⟨⟨-1, 1 / 20, -1⟩, ⟨2, 1 / 10, 2⟩, ColliderTag.Solid⟩]

/-- The displacement of the player during tick `n + 1` of a run of physics steps `step`
started at `p`, measured along the camera's forward vector. -/
def forwardDisplacement {K : Type} [LinearOrderedField K] (step : Player K → Player K)
    (p : Player K) (n : ℕ) : K :=
  Vec3.dot (Vec3.sub (step^[n + 1] p).mPosition (step^[n] p).mPosition)
    p.mCamera.directionWithoutPitch

/-! ## Basic facts about the embedding -/

section VecLemmas

variable {K : Type}

@[simp] theorem Vec3.get_set_same (v : Vec3 K) (a : Axis) (k : K) : (v.set a k).get a = k := by
  cases a <;> rfl

@[simp] theorem Vec3.set_set_same (v : Vec3 K) (a : Axis) (k k2 : K) :
    (v.set a k).set a k2 = v.set a k2 := by
  cases a <;> rfl

@[simp] theorem Vec3.set_get_same (v : Vec3 K) (a : Axis) : v.set a (v.get a) = v := by
  cases a <;> rfl

theorem Vec3.get_set_of_ne (v : Vec3 K) {a b : Axis} (h : a ≠ b) (k : K) :
    (v.set a k).get b = v.get b := by
  cases a <;> cases b <;> first | rfl | exact absurd rfl h

/-- The filtered collision list is non-empty exactly when the query holds a Solid collider. -/
theorem erase_if_nonSolid_isEmpty (l : List (Collider K)) :
    (erase_if l (fun collision => collision.colliderTag != ColliderTag.Solid)).isEmpty = true ↔
      ∀ c ∈ l, c.tag ≠ ColliderTag.Solid := by
  simp [erase_if, List.isEmpty_iff, List.filter_eq_nil_iff, Collider.colliderTag]

end VecLemmas

section Lemmas

variable {K : Type} [LinearOrderedField K]

@[simp] theorem updateColliderPosition_mPosition (p : Player K) :
    (updateColliderPosition p).mPosition = p.mPosition := rfl

@[simp] theorem updateColliderPosition_mVelocity (p : Player K) :
    (updateColliderPosition p).mVelocity = p.mVelocity := rfl

@[simp] theorem updateColliderPosition_flag (p : Player K) :
    (updateColliderPosition p).doesPlayerStandOnCollider = p.doesPlayerStandOnCollider := rfl

/-- The blocked branch of the collision pass. -/
theorem tryUpdate_blocked (reg : ColliderRegister K) (axis : Axis) (p : Player K)
    (h : ∃ c ∈ reg.findCollisions (tentativeCollider axis p), c.tag = ColliderTag.Solid) :
    tryUpdatePositionByApplyingVelocityIfCollisionAllows reg axis p =
      (false, updateColliderPosition { p with mVelocity := p.mVelocity.set axis 0 }) := by
  have hne : (erase_if (reg.findCollisions (tentativeCollider axis p))
      (fun collision => collision.colliderTag != ColliderTag.Solid)).isEmpty = false := by
    rw [Bool.eq_false_iff, Ne, erase_if_nonSolid_isEmpty]
    push_neg
    exact h
  unfold tentativeCollider at hne
  simp only [tryUpdatePositionByApplyingVelocityIfCollisionAllows, hne]
  simp [updateColliderPosition]

/-- The clear branch of the collision pass. -/
theorem tryUpdate_clear (reg : ColliderRegister K) (axis : Axis) (p : Player K)
    (h : ∀ c ∈ reg.findCollisions (tentativeCollider axis p), c.tag ≠ ColliderTag.Solid) :
    tryUpdatePositionByApplyingVelocityIfCollisionAllows reg axis p =
      (true, updateColliderPosition
        { p with mPosition := p.mPosition.set axis (p.mPosition.get axis + p.mVelocity.get axis) }) := by
  have hempty := (erase_if_nonSolid_isEmpty _).mpr h
  unfold tentativeCollider at hempty
  simp only [tryUpdatePositionByApplyingVelocityIfCollisionAllows, hempty]
  simp [updateColliderPosition]

/-- The collision pass takes one of its two branches. -/
theorem tryUpdate_cases (reg : ColliderRegister K) (axis : Axis) (p : Player K) :
    tryUpdatePositionByApplyingVelocityIfCollisionAllows reg axis p =
      (false, updateColliderPosition { p with mVelocity := p.mVelocity.set axis 0 }) ∨
    tryUpdatePositionByApplyingVelocityIfCollisionAllows reg axis p =
      (true, updateColliderPosition
        { p with mPosition := p.mPosition.set axis (p.mPosition.get axis + p.mVelocity.get axis) }) := by
  by_cases h : ∃ c ∈ reg.findCollisions (tentativeCollider axis p), c.tag = ColliderTag.Solid
  · exact Or.inl (tryUpdate_blocked reg axis p h)
  · push_neg at h
    exact Or.inr (tryUpdate_clear reg axis p h)

/-- The collision pass on `a` leaves the position components on the other axes alone. -/
theorem tryUpdate_mPosition_other (reg : ColliderRegister K) {a b : Axis} (hab : a ≠ b)
    (p : Player K) :
    (tryUpdatePositionByApplyingVelocityIfCollisionAllows reg a p).2.mPosition.get b =
      p.mPosition.get b := by
  rcases tryUpdate_cases reg a p with h | h <;> rw [h] <;> simp [Vec3.get_set_of_ne _ hab]

/-- The collision pass on `a` leaves the velocity components on the other axes alone. -/
theorem tryUpdate_mVelocity_other (reg : ColliderRegister K) {a b : Axis} (hab : a ≠ b)
    (p : Player K) :
    (tryUpdatePositionByApplyingVelocityIfCollisionAllows reg a p).2.mVelocity.get b =
      p.mVelocity.get b := by
  rcases tryUpdate_cases reg a p with h | h <;> rw [h] <;> simp [Vec3.get_set_of_ne _ hab]

/-- The collision pass on `a` keeps the velocity component on `a` or sets it to `0`. -/
theorem tryUpdate_mVelocity_same (reg : ColliderRegister K) (a : Axis) (p : Player K) :
    (tryUpdatePositionByApplyingVelocityIfCollisionAllows reg a p).2.mVelocity.get a =
      p.mVelocity.get a ∨
    (tryUpdatePositionByApplyingVelocityIfCollisionAllows reg a p).2.mVelocity.get a = 0 := by
  rcases tryUpdate_cases reg a p with h | h <;> rw [h] <;> simp

/-- The collision pass never writes the ground-contact flag itself. -/
theorem tryUpdate_flag (reg : ColliderRegister K) (a : Axis) (p : Player K) :
    (tryUpdatePositionByApplyingVelocityIfCollisionAllows reg a p).2.doesPlayerStandOnCollider =
      p.doesPlayerStandOnCollider := by
  rcases tryUpdate_cases reg a p with h | h <;> rw [h] <;> simp

theorem updatePhysics_eq (env : Env K) (reg : ColliderRegister K) (keys : Keyboard)
    (deltaTime : K) (p : Player K) :
    updatePhysics env reg keys deltaTime p =
      (tryUpdatePositionByApplyingVelocityIfCollisionAllows reg Axis.z
        (afterFloorClamp env reg keys deltaTime p)).2 := rfl

theorem afterFloorClamp_y_nonneg (env : Env K) (reg : ColliderRegister K) (keys : Keyboard)
    (deltaTime : K) (p : Player K) :
    0 ≤ (afterFloorClamp env reg keys deltaTime p).mPosition.y := by
  unfold afterFloorClamp
  split_ifs with h
  · exact le_refl _
  · exact not_lt.mp h

/-- The clamp lambda returns a value of magnitude at most a non-negative maximum. -/
theorem limitVelocitySpeed_abs_le (v M : K) (hM : 0 ≤ M) : |limitVelocitySpeed v M| ≤ M := by
  unfold limitVelocitySpeed
  split_ifs with h1 h2
  · rw [abs_of_nonneg hM]
  · rw [abs_neg, abs_of_nonneg hM]
  · rw [abs_le]
    constructor <;> linarith [not_lt.mp h1, not_lt.mp h2]

/-- The clamp lambda by cases: symmetric clamping, identity inside the range. -/
theorem limitVelocitySpeed_spec (v M : K) (hM : 0 ≤ M) :
    (M < v → limitVelocitySpeed v M = M) ∧
    (v < -M → limitVelocitySpeed v M = -M) ∧
    (|v| ≤ M → limitVelocitySpeed v M = v) := by
  unfold limitVelocitySpeed
  refine ⟨fun h => by simp [h], fun h => ?_, fun h => ?_⟩
  · have h1 : ¬ v > M := by linarith
    have h2 : -v > M := by linarith
    simp [h1, h2]
  · rw [abs_le] at h
    have h1 : ¬ v > M := by linarith [h.2]
    have h2 : ¬ -v > M := by linarith [h.1]
    simp [h1, h2]

theorem limitVelocity_x (env : Env K) (deltaTime : K) (p : Player K) :
    (limitVelocity env deltaTime p).mVelocity.x =
      limitVelocitySpeed p.mVelocity.x (env.PLAYER_MAX_HORIZONTAL_SPEED * deltaTime) := by
  unfold limitVelocity
  dsimp only
  split_ifs <;> rfl

theorem limitVelocity_z (env : Env K) (deltaTime : K) (p : Player K) :
    (limitVelocity env deltaTime p).mVelocity.z =
      limitVelocitySpeed p.mVelocity.z (env.PLAYER_MAX_HORIZONTAL_SPEED * deltaTime) := by
  unfold limitVelocity
  dsimp only
  split_ifs <;> rfl

theorem limitVelocity_y (env : Env K) (deltaTime : K) (p : Player K) :
    (limitVelocity env deltaTime p).mVelocity.y =
      if -p.mVelocity.y > env.PLAYER_MAX_FALLING_SPEED then -env.PLAYER_MAX_FALLING_SPEED
      else p.mVelocity.y := by
  unfold limitVelocity
  dsimp only
  split_ifs <;> rfl

theorem limitVelocity_y_ge (env : Env K) (deltaTime : K) (p : Player K) :
    -env.PLAYER_MAX_FALLING_SPEED ≤ (limitVelocity env deltaTime p).mVelocity.y := by
  rw [limitVelocity_y]
  split_ifs with h
  · exact le_refl _
  · linarith [not_lt.mp h]

theorem afterFloorClamp_mVelocity (env : Env K) (reg : ColliderRegister K) (keys : Keyboard)
    (deltaTime : K) (p : Player K) :
    (afterFloorClamp env reg keys deltaTime p).mVelocity =
      (yPass env reg keys deltaTime p).2.mVelocity := by
  unfold afterFloorClamp
  split_ifs <;> rfl

/-- Each velocity component after `updatePhysics` is the clamped one or `0`. -/
theorem updatePhysics_mVelocity_x (env : Env K) (reg : ColliderRegister K) (keys : Keyboard)
    (deltaTime : K) (p : Player K) :
    (updatePhysics env reg keys deltaTime p).mVelocity.x =
      (afterVelocityPhases env keys deltaTime p).mVelocity.x ∨
    (updatePhysics env reg keys deltaTime p).mVelocity.x = 0 := by
  have hz := tryUpdate_mVelocity_other reg (a := Axis.z) (b := Axis.x) (by decide)
    (afterFloorClamp env reg keys deltaTime p)
  have hy := tryUpdate_mVelocity_other reg (a := Axis.y) (b := Axis.x) (by decide)
    (afterXPass env reg keys deltaTime p)
  have hx := tryUpdate_mVelocity_same reg Axis.x (afterVelocityPhases env keys deltaTime p)
  simp only [Vec3.get] at hz hy hx
  rw [updatePhysics_eq, hz, afterFloorClamp_mVelocity, yPass, hy]
  exact hx

theorem updatePhysics_mVelocity_y (env : Env K) (reg : ColliderRegister K) (keys : Keyboard)
    (deltaTime : K) (p : Player K) :
    (updatePhysics env reg keys deltaTime p).mVelocity.y =
      (afterVelocityPhases env keys deltaTime p).mVelocity.y ∨
    (updatePhysics env reg keys deltaTime p).mVelocity.y = 0 := by
  have hz := tryUpdate_mVelocity_other reg (a := Axis.z) (b := Axis.y) (by decide)
    (afterFloorClamp env reg keys deltaTime p)
  have hy := tryUpdate_mVelocity_same reg Axis.y (afterXPass env reg keys deltaTime p)
  have hx := tryUpdate_mVelocity_other reg (a := Axis.x) (b := Axis.y) (by decide)
    (afterVelocityPhases env keys deltaTime p)
  simp only [Vec3.get] at hz hy hx
  rw [updatePhysics_eq, hz, afterFloorClamp_mVelocity, yPass]
  rw [← hx]
  exact hy

theorem updatePhysics_mVelocity_z (env : Env K) (reg : ColliderRegister K) (keys : Keyboard)
    (deltaTime : K) (p : Player K) :
    (updatePhysics env reg keys deltaTime p).mVelocity.z =
      (afterVelocityPhases env keys deltaTime p).mVelocity.z ∨
    (updatePhysics env reg keys deltaTime p).mVelocity.z = 0 := by
  have hz := tryUpdate_mVelocity_same reg Axis.z (afterFloorClamp env reg keys deltaTime p)
  have hy := tryUpdate_mVelocity_other reg (a := Axis.y) (b := Axis.z) (by decide)
    (afterXPass env reg keys deltaTime p)
  have hx := tryUpdate_mVelocity_other reg (a := Axis.x) (b := Axis.z) (by decide)
    (afterVelocityPhases env keys deltaTime p)
  simp only [Vec3.get] at hz hy hx
  rw [afterFloorClamp_mVelocity, yPass, hy] at hz
  rw [updatePhysics_eq, ← hx]
  exact hz

/-! ### The physics step under a ceiling, stage by stage -/

theorem ceiling_velocityPhases :
    afterVelocityPhases exampleEnv noKeys (1 / 60) (playerAt ⟨0, 23 / 20, 0⟩ ⟨0, 1 / 5, 0⟩) =
      playerAt ⟨0, 23 / 20, 0⟩ ⟨0, 39673 / 200000, 0⟩ := by
  simp [afterVelocityPhases, handleMovementKeyboardInputs, noKeys, manageWalkingSounds, playerAt,
    Sound.getStatus, exampleEnv, decelerateVelocity, manageVerticalVelocity, limitVelocity,
    limitVelocitySpeed, G]
  norm_num

theorem ceiling_xPass :
    afterXPass exampleEnv ceilingRegister noKeys (1 / 60)
        (playerAt ⟨0, 23 / 20, 0⟩ ⟨0, 1 / 5, 0⟩) =
      updateColliderPosition (playerAt ⟨0, 23 / 20, 0⟩ ⟨0, 39673 / 200000, 0⟩) := by
  unfold afterXPass
  rw [ceiling_velocityPhases, tryUpdate_clear]
  · simp [playerAt, Vec3.set, Vec3.get]
  · simp [ceilingRegister, ColliderRegister.ofColliders, tentativeCollider, updateColliderPosition,
      playerAt, Collider.overlaps, Vec3.set, Vec3.get, Vec3.sub, Vec3.divScalar]
    norm_num

theorem ceiling_yPass :
    yPass exampleEnv ceilingRegister noKeys (1 / 60) (playerAt ⟨0, 23 / 20, 0⟩ ⟨0, 1 / 5, 0⟩) =
      (false, updateColliderPosition (playerAt ⟨0, 23 / 20, 0⟩ ⟨0, 0, 0⟩)) := by
  unfold yPass
  rw [ceiling_xPass, tryUpdate_blocked]
  · simp [playerAt, Vec3.set, updateColliderPosition]
  · refine ⟨⟨⟨-1, 2, -1⟩, ⟨2, 1, 2⟩, ColliderTag.Solid⟩, ?_, rfl⟩
    simp [ceilingRegister, ColliderRegister.ofColliders, tentativeCollider, updateColliderPosition,
      playerAt, Collider.overlaps, Vec3.set, Vec3.get, Vec3.sub, Vec3.divScalar]
    norm_num

/-- The ground-contact flag after `updatePhysics` is the negation of the Y pass result. -/
theorem updatePhysics_flag (env : Env K) (reg : ColliderRegister K) (keys : Keyboard)
    (deltaTime : K) (p : Player K) :
    (updatePhysics env reg keys deltaTime p).doesPlayerStandOnCollider =
      !(yPass env reg keys deltaTime p).1 := by
  rw [updatePhysics_eq, tryUpdate_flag]
  unfold afterFloorClamp
  split_ifs <;> rfl

/-! ### Walking sound -/

theorem manageWalkingSounds_isOnGround (d : Vec3 K) (p : Player K) :
    isOnGround (manageWalkingSounds d p) = isOnGround p := by
  unfold manageWalkingSounds
  dsimp only
  split <;> split_ifs <;> rfl

/-- While the sound plays, calls with a non-zero direction on the ground change nothing. -/
theorem manageWalkingSounds_playing_steady (d : Vec3 K) (p : Player K)
    (hs : p.mWalkingSound.status = SoundStatus.Playing) (hg : isOnGround p = true)
    (hd : d ≠ ⟨0, 0, 0⟩) : manageWalkingSounds d p = p := by
  unfold manageWalkingSounds
  simp [Sound.getStatus, hs, hg, hd]

theorem manageWalkingSounds_playing_steady_list (ds : List (Vec3 K)) (p : Player K)
    (hs : p.mWalkingSound.status = SoundStatus.Playing) (hg : isOnGround p = true)
    (hd : ∀ d ∈ ds, d ≠ ⟨0, 0, 0⟩) :
    ds.foldl (fun q d => manageWalkingSounds d q) p = p := by
  induction ds with
  | nil => rfl
  | cons d ds ih =>
    rw [List.foldl_cons, manageWalkingSounds_playing_steady d p hs hg (hd d (by simp))]
    exact ih (fun d2 h2 => hd d2 (by simp [h2]))

/-- The sound bookkeeping of the input phase is `manageWalkingSounds` on the summed
direction. -/
theorem handleMovementKeyboardInputs_mWalkingSound (env : Env K) (keys : Keyboard)
    (deltaTime : K) (p : Player K) :
    (handleMovementKeyboardInputs env keys deltaTime p).mWalkingSound =
      (manageWalkingSounds (summedDirection keys p.mCamera) p).mWalkingSound := by
  unfold handleMovementKeyboardInputs summedDirection
  dsimp only
  split_ifs <;> rfl

end Lemmas

/-! ## Collision pass on one axis -/

section CollisionPass

variable {K : Type} [LinearOrderedField K]

/-- Claim C1: whenever the registry query made after the tentative move returns a collider
tagged Solid, the collision pass on that axis reports blocked (`false`), leaves the position
(in particular its component on that axis) as it was before the call, and sets the
velocity component on that axis to exactly `0`. -/
theorem C1_solid_overlap_blocks (reg : ColliderRegister K) (axis : Axis) (p : Player K)
    (h : ∃ c ∈ reg.findCollisions (tentativeCollider axis p), c.tag = ColliderTag.Solid) :
    (tryUpdatePositionByApplyingVelocityIfCollisionAllows reg axis p).1 = false ∧
    (tryUpdatePositionByApplyingVelocityIfCollisionAllows reg axis p).2.mPosition.get axis =
      p.mPosition.get axis ∧
    (tryUpdatePositionByApplyingVelocityIfCollisionAllows reg axis p).2.mPosition = p.mPosition ∧
    (tryUpdatePositionByApplyingVelocityIfCollisionAllows reg axis p).2.mVelocity.get axis = 0 := by
  rw [tryUpdate_blocked reg axis p h]
  simp

/-- Claim C2: whenever every collider the registry returns for the tentatively moved volume
has a tag other than Solid (in particular when it returns none), the collision pass reports
clear (`true`), the position component becomes old position plus velocity, and the
velocity is unchanged. -/
theorem C2_non_solid_never_blocks (reg : ColliderRegister K) (axis : Axis) (p : Player K)
    (h : ∀ c ∈ reg.findCollisions (tentativeCollider axis p), c.tag ≠ ColliderTag.Solid) :
    (tryUpdatePositionByApplyingVelocityIfCollisionAllows reg axis p).1 = true ∧
    (tryUpdatePositionByApplyingVelocityIfCollisionAllows reg axis p).2.mPosition.get axis =
      p.mPosition.get axis + p.mVelocity.get axis ∧
    (tryUpdatePositionByApplyingVelocityIfCollisionAllows reg axis p).2.mVelocity = p.mVelocity := by
  rw [tryUpdate_clear reg axis p h]
  simp

/-- Witness for C1: a player at the origin moving with `vx = 1/10` towards a solid wall that
starts at `x = 1/4`; the moved collider reaches `x = 11/40` and overlaps the wall. -/
theorem C1_solid_overlap_blocks_witness :
    (∃ c ∈ wallRegister.findCollisions
        (tentativeCollider Axis.x (playerAt ⟨0, 0, 0⟩ ⟨1 / 10, 0, 0⟩)), c.tag = ColliderTag.Solid) ∧
    (tryUpdatePositionByApplyingVelocityIfCollisionAllows wallRegister Axis.x
      (playerAt ⟨0, 0, 0⟩ ⟨1 / 10, 0, 0⟩)).1 = false ∧
    (tryUpdatePositionByApplyingVelocityIfCollisionAllows wallRegister Axis.x
      (playerAt ⟨0, 0, 0⟩ ⟨1 / 10, 0, 0⟩)).2.mPosition = ⟨0, 0, 0⟩ ∧
    (tryUpdatePositionByApplyingVelocityIfCollisionAllows wallRegister Axis.x
      (playerAt ⟨0, 0, 0⟩ ⟨1 / 10, 0, 0⟩)).2.mVelocity = ⟨0, 0, 0⟩ := by
  have h : ∃ c ∈ wallRegister.findCollisions
      (tentativeCollider Axis.x (playerAt ⟨0, 0, 0⟩ ⟨1 / 10, 0, 0⟩)), c.tag = ColliderTag.Solid := by
    refine ⟨boxAhead ColliderTag.Solid, ?_, rfl⟩
    simp [wallRegister, ColliderRegister.ofColliders, tentativeCollider, updateColliderPosition,
      playerAt, boxAhead, Collider.overlaps, Vec3.set, Vec3.get, Vec3.sub, Vec3.divScalar]
    norm_num
  have t := C1_solid_overlap_blocks wallRegister Axis.x (playerAt ⟨0, 0, 0⟩ ⟨1 / 10, 0, 0⟩) h
  refine ⟨h, t.1, t.2.2.1, ?_⟩
  rw [tryUpdate_blocked _ _ _ h]
  simp [playerAt, Vec3.set]

/-- Witness for C2: the same move into a non-solid volume goes through. -/
theorem C2_non_solid_never_blocks_witness :
    (∀ c ∈ triggerRegister.findCollisions
        (tentativeCollider Axis.x (playerAt ⟨0, 0, 0⟩ ⟨1 / 10, 0, 0⟩)), c.tag ≠ ColliderTag.Solid) ∧
    triggerRegister.findCollisions
        (tentativeCollider Axis.x (playerAt ⟨0, 0, 0⟩ ⟨1 / 10, 0, 0⟩)) ≠ [] ∧
    (tryUpdatePositionByApplyingVelocityIfCollisionAllows triggerRegister Axis.x
      (playerAt ⟨0, 0, 0⟩ ⟨1 / 10, 0, 0⟩)).1 = true ∧
    (tryUpdatePositionByApplyingVelocityIfCollisionAllows triggerRegister Axis.x
      (playerAt ⟨0, 0, 0⟩ ⟨1 / 10, 0, 0⟩)).2.mPosition.x = 1 / 10 ∧
    (tryUpdatePositionByApplyingVelocityIfCollisionAllows triggerRegister Axis.x
      (playerAt ⟨0, 0, 0⟩ ⟨1 / 10, 0, 0⟩)).2.mVelocity = ⟨1 / 10, 0, 0⟩ := by
  have hq : triggerRegister.findCollisions
      (tentativeCollider Axis.x (playerAt ⟨0, 0, 0⟩ ⟨1 / 10, 0, 0⟩)) =
        [boxAhead (ColliderTag.Other 0)] := by
    simp [triggerRegister, ColliderRegister.ofColliders, tentativeCollider,
      updateColliderPosition, playerAt, boxAhead, Collider.overlaps, Vec3.set, Vec3.get, Vec3.sub,
      Vec3.divScalar]
    norm_num
  have h : ∀ c ∈ triggerRegister.findCollisions
      (tentativeCollider Axis.x (playerAt ⟨0, 0, 0⟩ ⟨1 / 10, 0, 0⟩)), c.tag ≠ ColliderTag.Solid := by
    rw [hq]
    simp [boxAhead]
  have t := C2_non_solid_never_blocks triggerRegister Axis.x (playerAt ⟨0, 0, 0⟩ ⟨1 / 10, 0, 0⟩) h
  refine ⟨h, by rw [hq]; simp, t.1, ?_, t.2.2⟩
  have t2 := t.2.1
  simpa [Vec3.get, playerAt] using t2

end CollisionPass

/-! ## Invariants of the physics step -/

section PhysicsStep

variable {K : Type} [LinearOrderedField K]

/-- Claim C3: after `updatePhysics`, whatever the starting state (also one with a negative
`position.y`), the time step, the keys held and the register, `position.y` is not negative:
the floor clamp makes it so and the Z pass that follows does not write `position.y`. -/
theorem C3_position_y_never_negative (env : Env K) (reg : ColliderRegister K)
    (keys : Keyboard) (deltaTime : K) (p : Player K) :
    0 ≤ (updatePhysics env reg keys deltaTime p).mPosition.y ∧
    (updatePhysics env reg keys deltaTime p).mPosition.y =
      (afterFloorClamp env reg keys deltaTime p).mPosition.y := by
  have hz := tryUpdate_mPosition_other reg (a := Axis.z) (b := Axis.y) (by decide)
    (afterFloorClamp env reg keys deltaTime p)
  simp only [Vec3.get] at hz
  rw [updatePhysics_eq, hz]
  exact ⟨afterFloorClamp_y_nonneg env reg keys deltaTime p, rfl⟩

/-- Claim C4: for a non-negative time step and non-negative configured maxima, after
`limitVelocity` the horizontal components satisfy `|vx| ≤ PLAYER_MAX_HORIZONTAL_SPEED * dt`
and `|vz| ≤ PLAYER_MAX_HORIZONTAL_SPEED * dt`, the clamp being symmetric (above the maximum
gives the maximum, below its negative gives its negative, inside the range the value is
kept), and `vy ≥ -PLAYER_MAX_FALLING_SPEED`; the same three bounds hold for the velocity
that `updatePhysics` leaves. -/
theorem C4_velocity_within_maxima (env : Env K) (reg : ColliderRegister K) (keys : Keyboard)
    (deltaTime : K) (p : Player K) (hdt : 0 ≤ deltaTime)
    (hH : 0 ≤ env.PLAYER_MAX_HORIZONTAL_SPEED) (hF : 0 ≤ env.PLAYER_MAX_FALLING_SPEED) :
    (|(limitVelocity env deltaTime p).mVelocity.x| ≤ env.PLAYER_MAX_HORIZONTAL_SPEED * deltaTime ∧
     |(limitVelocity env deltaTime p).mVelocity.z| ≤ env.PLAYER_MAX_HORIZONTAL_SPEED * deltaTime ∧
     -env.PLAYER_MAX_FALLING_SPEED ≤ (limitVelocity env deltaTime p).mVelocity.y) ∧
    ((env.PLAYER_MAX_HORIZONTAL_SPEED * deltaTime < p.mVelocity.x →
        (limitVelocity env deltaTime p).mVelocity.x = env.PLAYER_MAX_HORIZONTAL_SPEED * deltaTime) ∧
     (p.mVelocity.x < -(env.PLAYER_MAX_HORIZONTAL_SPEED * deltaTime) →
        (limitVelocity env deltaTime p).mVelocity.x = -(env.PLAYER_MAX_HORIZONTAL_SPEED * deltaTime)) ∧
     (|p.mVelocity.x| ≤ env.PLAYER_MAX_HORIZONTAL_SPEED * deltaTime →
        (limitVelocity env deltaTime p).mVelocity.x = p.mVelocity.x)) ∧
    ((env.PLAYER_MAX_HORIZONTAL_SPEED * deltaTime < p.mVelocity.z →
        (limitVelocity env deltaTime p).mVelocity.z = env.PLAYER_MAX_HORIZONTAL_SPEED * deltaTime) ∧
     (p.mVelocity.z < -(env.PLAYER_MAX_HORIZONTAL_SPEED * deltaTime) →
        (limitVelocity env deltaTime p).mVelocity.z = -(env.PLAYER_MAX_HORIZONTAL_SPEED * deltaTime)) ∧
     (|p.mVelocity.z| ≤ env.PLAYER_MAX_HORIZONTAL_SPEED * deltaTime →
        (limitVelocity env deltaTime p).mVelocity.z = p.mVelocity.z)) ∧
    (|(updatePhysics env reg keys deltaTime p).mVelocity.x| ≤
        env.PLAYER_MAX_HORIZONTAL_SPEED * deltaTime ∧
     |(updatePhysics env reg keys deltaTime p).mVelocity.z| ≤
        env.PLAYER_MAX_HORIZONTAL_SPEED * deltaTime ∧
     -env.PLAYER_MAX_FALLING_SPEED ≤ (updatePhysics env reg keys deltaTime p).mVelocity.y) := by
  have hM : 0 ≤ env.PLAYER_MAX_HORIZONTAL_SPEED * deltaTime := mul_nonneg hH hdt
  refine ⟨⟨?_, ?_, limitVelocity_y_ge env deltaTime p⟩, ?_, ?_, ?_, ?_, ?_⟩
  · rw [limitVelocity_x]; exact limitVelocitySpeed_abs_le _ _ hM
  · rw [limitVelocity_z]; exact limitVelocitySpeed_abs_le _ _ hM
  · rw [limitVelocity_x]; exact limitVelocitySpeed_spec _ _ hM
  · rw [limitVelocity_z]; exact limitVelocitySpeed_spec _ _ hM
  · rcases updatePhysics_mVelocity_x env reg keys deltaTime p with h | h <;> rw [h]
    · unfold afterVelocityPhases
      rw [limitVelocity_x]; exact limitVelocitySpeed_abs_le _ _ hM
    · simpa using hM
  · rcases updatePhysics_mVelocity_z env reg keys deltaTime p with h | h <;> rw [h]
    · unfold afterVelocityPhases
      rw [limitVelocity_z]; exact limitVelocitySpeed_abs_le _ _ hM
    · simpa using hM
  · rcases updatePhysics_mVelocity_y env reg keys deltaTime p with h | h <;> rw [h]
    · unfold afterVelocityPhases
      exact limitVelocity_y_ge env deltaTime _
    · linarith

/-- Witness for C4: at `dt = 1/60` the horizontal maximum is `5 * (1/60) = 1/12`; a velocity
`(1, -20, -1/100)` is clamped to `1/12` on x, kept on z, and bounded below by `-15` on y. -/
theorem C4_velocity_within_maxima_witness :
    (0 : ℚ) ≤ 1 / 60 ∧ 0 ≤ exampleEnv.PLAYER_MAX_HORIZONTAL_SPEED ∧
    0 ≤ exampleEnv.PLAYER_MAX_FALLING_SPEED ∧
    (limitVelocity exampleEnv (1 / 60) (playerAt ⟨0, 0, 0⟩ ⟨1, -20, -1 / 100⟩)).mVelocity.x = 1 / 12 ∧
    (limitVelocity exampleEnv (1 / 60) (playerAt ⟨0, 0, 0⟩ ⟨1, -20, -1 / 100⟩)).mVelocity.z =
      -1 / 100 ∧
    -15 ≤ (limitVelocity exampleEnv (1 / 60) (playerAt ⟨0, 0, 0⟩ ⟨1, -20, -1 / 100⟩)).mVelocity.y ∧
    |(updatePhysics exampleEnv wallRegister noKeys (1 / 60)
        (playerAt ⟨0, 0, 0⟩ ⟨1, -20, -1 / 100⟩)).mVelocity.x| ≤ 1 / 12 ∧
    |(updatePhysics exampleEnv wallRegister noKeys (1 / 60)
        (playerAt ⟨0, 0, 0⟩ ⟨1, -20, -1 / 100⟩)).mVelocity.z| ≤ 1 / 12 ∧
    -15 ≤ (updatePhysics exampleEnv wallRegister noKeys (1 / 60)
        (playerAt ⟨0, 0, 0⟩ ⟨1, -20, -1 / 100⟩)).mVelocity.y := by
  have h1 : (0 : ℚ) ≤ 1 / 60 := by norm_num
  have h2 : 0 ≤ exampleEnv.PLAYER_MAX_HORIZONTAL_SPEED := by norm_num [exampleEnv]
  have h3 : 0 ≤ exampleEnv.PLAYER_MAX_FALLING_SPEED := by norm_num [exampleEnv]
  have hM : exampleEnv.PLAYER_MAX_HORIZONTAL_SPEED * (1 / 60) = 1 / 12 := by
    norm_num [exampleEnv]
  have hF : exampleEnv.PLAYER_MAX_FALLING_SPEED = 15 := rfl
  have t := C4_velocity_within_maxima exampleEnv wallRegister noKeys (1 / 60)
    (playerAt ⟨0, 0, 0⟩ ⟨1, -20, -1 / 100⟩) h1 h2 h3
  rw [hM, hF] at t
  obtain ⟨⟨_, _, ty⟩, ⟨tx, _, _⟩, ⟨_, _, tz⟩, tu⟩ := t
  refine ⟨h1, h2, h3, tx ?_, ?_, ty, tu⟩
  · norm_num [playerAt]
  · rw [tz ?_]
    · norm_num [playerAt]
    · norm_num [playerAt, abs_le]

end PhysicsStep

/-! ## Jump and events -/

section Jump

variable {K : Type} [LinearOrderedField K]

/-- Claim C5: `tryJump` sets the vertical velocity to exactly `PLAYER_JUMP_FORCE` when the
player is on the ground (`position.y ≤ 0` or the stand-on-collider flag), whatever the
previous vertical velocity, and leaves the whole state unchanged when the player is not on
the ground; so afterwards `vy = PLAYER_JUMP_FORCE` exactly when the player was on the ground
or `vy` had that value already.  Position, horizontal velocity and the flag never change. -/
theorem C5_tryJump_only_on_ground (env : Env K) (p : Player K) :
    (isOnGround p = true ↔ (p.mPosition.y ≤ 0 ∨ p.doesPlayerStandOnCollider = true)) ∧
    (isOnGround p = true →
      tryJump env p = { p with mVelocity := { p.mVelocity with y := env.PLAYER_JUMP_FORCE } }) ∧
    (isOnGround p = false → tryJump env p = p) ∧
    ((tryJump env p).mVelocity.y = env.PLAYER_JUMP_FORCE ↔
      (isOnGround p = true ∨ p.mVelocity.y = env.PLAYER_JUMP_FORCE)) ∧
    (tryJump env p).mPosition = p.mPosition ∧
    (tryJump env p).mVelocity.x = p.mVelocity.x ∧
    (tryJump env p).mVelocity.z = p.mVelocity.z ∧
    (tryJump env p).doesPlayerStandOnCollider = p.doesPlayerStandOnCollider := by
  refine ⟨by simp [isOnGround], fun h => by simp [tryJump, h], fun h => by simp [tryJump, h],
    ?_, ?_, ?_, ?_, ?_⟩
  · cases h : isOnGround p <;> simp [tryJump, h]
  all_goals (unfold tryJump; split_ifs <;> rfl)

/-- Claim C5, run on concrete players: a grounded player with `vy = -3` gets `vy = 1/5`,
an airborne one (at `y = 1`, flag clear) is returned as it was. -/
theorem C5_tryJump_only_on_ground_witness :
    isOnGround (playerAt ⟨0, 0, 0⟩ ⟨1, -3, 2⟩) = true ∧
    tryJump exampleEnv (playerAt ⟨0, 0, 0⟩ ⟨1, -3, 2⟩) = playerAt ⟨0, 0, 0⟩ ⟨1, 1 / 5, 2⟩ ∧
    isOnGround (playerAt ⟨0, 1, 0⟩ ⟨1, -3, 2⟩) = false ∧
    tryJump exampleEnv (playerAt ⟨0, 1, 0⟩ ⟨1, -3, 2⟩) = playerAt ⟨0, 1, 0⟩ ⟨1, -3, 2⟩ := by
  have g1 : isOnGround (playerAt ⟨0, 0, 0⟩ ⟨1, -3, 2⟩) = true := by simp [isOnGround, playerAt]
  have g2 : isOnGround (playerAt ⟨0, 1, 0⟩ ⟨1, -3, 2⟩) = false := by simp [isOnGround, playerAt]
  refine ⟨g1, ?_, g2, (C5_tryJump_only_on_ground exampleEnv _).2.2.1 g2⟩
  rw [(C5_tryJump_only_on_ground exampleEnv _).2.1 g1]
  rfl

/-- Claim C6, evaluated on the code: a player at height `23/20` under a solid slab that
starts at `y = 2`, rising with `vy = 1/5`, free of any overlap before the step.  The Y
pass applies the upward velocity `39673/200000`, is blocked by the slab, and the step ends
with the ground-contact flag set, `position.y = 23/20 > 0` and `isOnGround` true. -/
theorem C6_upward_block_sets_ground_flag :
    ceilingRegister.findCollisions
      (updateColliderPosition (playerAt ⟨0, 23 / 20, 0⟩ ⟨0, 1 / 5, 0⟩)).mCollider = [] ∧
    (afterXPass exampleEnv ceilingRegister noKeys (1 / 60)
      (playerAt ⟨0, 23 / 20, 0⟩ ⟨0, 1 / 5, 0⟩)).mVelocity.y = 39673 / 200000 ∧
    (yPass exampleEnv ceilingRegister noKeys (1 / 60)
      (playerAt ⟨0, 23 / 20, 0⟩ ⟨0, 1 / 5, 0⟩)).1 = false ∧
    (updatePhysics exampleEnv ceilingRegister noKeys (1 / 60)
      (playerAt ⟨0, 23 / 20, 0⟩ ⟨0, 1 / 5, 0⟩)).doesPlayerStandOnCollider = true ∧
    (updatePhysics exampleEnv ceilingRegister noKeys (1 / 60)
      (playerAt ⟨0, 23 / 20, 0⟩ ⟨0, 1 / 5, 0⟩)).mPosition.y = 23 / 20 ∧
    isOnGround (updatePhysics exampleEnv ceilingRegister noKeys (1 / 60)
      (playerAt ⟨0, 23 / 20, 0⟩ ⟨0, 1 / 5, 0⟩)) = true := by
  have hflag : (updatePhysics exampleEnv ceilingRegister noKeys (1 / 60)
      (playerAt ⟨0, 23 / 20, 0⟩ ⟨0, 1 / 5, 0⟩)).doesPlayerStandOnCollider = true := by
    rw [updatePhysics_flag, ceiling_yPass]; rfl
  refine ⟨?_, ?_, ?_, hflag, ?_, ?_⟩
  · simp [ceilingRegister, ColliderRegister.ofColliders, updateColliderPosition, playerAt,
      Collider.overlaps, Vec3.sub, Vec3.divScalar]
    norm_num
  · rw [ceiling_xPass]; rfl
  · rw [ceiling_yPass]
  · have hz := tryUpdate_mPosition_other ceilingRegister (a := Axis.z) (b := Axis.y) (by decide)
      (afterFloorClamp exampleEnv ceilingRegister noKeys (1 / 60)
        (playerAt ⟨0, 23 / 20, 0⟩ ⟨0, 1 / 5, 0⟩))
    simp only [Vec3.get] at hz
    rw [updatePhysics_eq, hz]
    unfold afterFloorClamp afterYPass
    rw [ceiling_yPass]
    have hpos : ¬ ((23 : ℚ) / 20 < 0) := by norm_num
    simp [updateColliderPosition, playerAt, hpos]
  · unfold isOnGround
    rw [hflag]
    simp

/-- What `handleEvent` does, for every event: the event type is not consulted; `tryJump`
runs exactly when `event.key.code` reads `Space`, and the event reaches the weapon. -/
theorem handleEvent_eq (env : Env K) (event : Event) (p : Player K) :
    handleEvent env event p =
      { (if event.key.code = Key.Space then tryJump env p else p) with
        mRifle := p.mRifle.handleEvent event } := by
  unfold handleEvent
  cases h : event.key.code
  · have hr : (tryJump env p).mRifle = p.mRifle := by
      unfold tryJump
      split_ifs <;> rfl
    simp [hr]
  · simp

/-- Claim C10, evaluated on the code: a key-release event carrying the Space key code,
delivered to a player standing at `y = 0` with zero velocity, runs `tryJump`: the vertical
velocity becomes `PLAYER_JUMP_FORCE = 1/5`.  The event is forwarded to the weapon. -/
theorem C10_space_release_jumps :
    spaceReleased.type ≠ EventType.KeyPressed ∧
    (playerAt ⟨0, 0, 0⟩ ⟨0, 0, 0⟩).mVelocity = ⟨0, 0, 0⟩ ∧
    (handleEvent exampleEnv spaceReleased (playerAt ⟨0, 0, 0⟩ ⟨0, 0, 0⟩)).mVelocity =
      ⟨0, 1 / 5, 0⟩ ∧
    (handleEvent exampleEnv spaceReleased (playerAt ⟨0, 0, 0⟩ ⟨0, 0, 0⟩)).mRifle.handled =
      [spaceReleased] := by
  refine ⟨by decide, rfl, ?_, rfl⟩
  simp [handleEvent, spaceReleased, tryJump, isOnGround, playerAt, exampleEnv]

end Jump

/-! ## Walking sound -/

section WalkingSound

variable {K : Type} [LinearOrderedField K]

/-- Claim C8: with the sound Stopped, the player on the ground and a non-zero direction,
`manageWalkingSounds` issues exactly one `play()` (the status becomes Playing); any number
of further calls with non-zero directions, on the ground, then issue neither `play()` nor
`stop()`; with the sound Playing and a zero direction or the player off the ground it
issues exactly one `stop()`.  The ground test is not affected by the call, and the input
phase of a physics step does this on the direction summed from the keys. -/
theorem C8_walking_sound_play_once (env : Env K) (keys : Keyboard) (deltaTime : K)
    (d : Vec3 K) (ds : List (Vec3 K)) (p : Player K) :
    (p.mWalkingSound.status = SoundStatus.Stopped → isOnGround p = true → d ≠ ⟨0, 0, 0⟩ →
      (manageWalkingSounds d p).mWalkingSound =
        ⟨SoundStatus.Playing, p.mWalkingSound.calls ++ [SoundCall.play]⟩) ∧
    (p.mWalkingSound.status = SoundStatus.Playing → isOnGround p = true → d ≠ ⟨0, 0, 0⟩ →
      manageWalkingSounds d p = p) ∧
    (p.mWalkingSound.status = SoundStatus.Stopped → isOnGround p = true → d ≠ ⟨0, 0, 0⟩ →
      (∀ d2 ∈ ds, d2 ≠ ⟨0, 0, 0⟩) →
      (ds.foldl (fun q d2 => manageWalkingSounds d2 q) (manageWalkingSounds d p)).mWalkingSound =
        ⟨SoundStatus.Playing, p.mWalkingSound.calls ++ [SoundCall.play]⟩) ∧
    (p.mWalkingSound.status = SoundStatus.Playing → (d = ⟨0, 0, 0⟩ ∨ isOnGround p = false) →
      (manageWalkingSounds d p).mWalkingSound =
        ⟨SoundStatus.Stopped, p.mWalkingSound.calls ++ [SoundCall.stop]⟩) ∧
    isOnGround (manageWalkingSounds d p) = isOnGround p ∧
    (handleMovementKeyboardInputs env keys deltaTime p).mWalkingSound =
      (manageWalkingSounds (summedDirection keys p.mCamera) p).mWalkingSound := by
  have start : p.mWalkingSound.status = SoundStatus.Stopped → isOnGround p = true →
      d ≠ ⟨0, 0, 0⟩ → (manageWalkingSounds d p).mWalkingSound =
        ⟨SoundStatus.Playing, p.mWalkingSound.calls ++ [SoundCall.play]⟩ := by
    intro hs hg hd
    unfold manageWalkingSounds
    simp [Sound.getStatus, hs, hg, hd, Sound.play]
  refine ⟨start, manageWalkingSounds_playing_steady d p, ?_, ?_,
    manageWalkingSounds_isOnGround d p, handleMovementKeyboardInputs_mWalkingSound env keys deltaTime p⟩
  · intro hs hg hd hds
    have h1 := start hs hg hd
    rw [manageWalkingSounds_playing_steady_list ds (manageWalkingSounds d p) (by rw [h1])
      (by rw [manageWalkingSounds_isOnGround]; exact hg) hds]
    exact h1
  · intro hs hd
    unfold manageWalkingSounds
    rcases hd with hd | hd <;> simp [Sound.getStatus, hs, hd, Sound.stop]

/-- Claim C8 on a trace: a standing player with the sound Stopped hears one `play()` when a
direction `(0, 0, -1)` appears, nothing more on two further such calls, and one `stop()`
when the direction returns to zero. -/
theorem C8_walking_sound_play_once_witness :
    (manageWalkingSounds ⟨0, 0, -1⟩ (standingPlayer SoundStatus.Stopped)).mWalkingSound =
      ⟨SoundStatus.Playing, [SoundCall.play]⟩ ∧
    ([⟨0, 0, -1⟩, ⟨1, 0, -1⟩].foldl (fun q d2 => manageWalkingSounds d2 q)
      (manageWalkingSounds ⟨0, 0, -1⟩ (standingPlayer SoundStatus.Stopped))).mWalkingSound =
      ⟨SoundStatus.Playing, [SoundCall.play]⟩ ∧
    (manageWalkingSounds ⟨0, 0, 0⟩
      { standingPlayer SoundStatus.Stopped with
        mWalkingSound := ⟨SoundStatus.Playing, [SoundCall.play]⟩ }).mWalkingSound =
      ⟨SoundStatus.Stopped, [SoundCall.play, SoundCall.stop]⟩ := by
  have hg : isOnGround (standingPlayer SoundStatus.Stopped) = true := by
    simp [isOnGround, standingPlayer, playerAt]
  have hd : (⟨0, 0, -1⟩ : Vec3 ℚ) ≠ ⟨0, 0, 0⟩ := by simp
  have t := C8_walking_sound_play_once exampleEnv noKeys (1 / 60) ⟨0, 0, -1⟩
    [⟨0, 0, -1⟩, ⟨1, 0, -1⟩] (standingPlayer SoundStatus.Stopped)
  have t2 := C8_walking_sound_play_once exampleEnv noKeys (1 / 60) ⟨0, 0, 0⟩ []
    { standingPlayer SoundStatus.Stopped with
      mWalkingSound := ⟨SoundStatus.Playing, [SoundCall.play]⟩ }
  refine ⟨t.1 rfl hg hd, t.2.2.1 rfl hg hd (by simp), t2.2.2.2.1 rfl (Or.inl rfl)⟩

/-- Claim C9 fails on the code: with the sound Paused, a standing player and the direction
`(0, 0, -1)`, `manageWalkingSounds` issues a `play()` call and the status becomes Playing. -/
theorem C9_paused_sound_is_resumed :
    (standingPlayer SoundStatus.Paused).mWalkingSound.status = SoundStatus.Paused ∧
    (manageWalkingSounds ⟨0, 0, -1⟩ (standingPlayer SoundStatus.Paused)).mWalkingSound =
      ⟨SoundStatus.Playing, [SoundCall.play]⟩ ∧
    ¬ ((manageWalkingSounds ⟨0, 0, -1⟩ (standingPlayer SoundStatus.Paused)).mWalkingSound =
      (standingPlayer SoundStatus.Paused).mWalkingSound) := by
  have h : (manageWalkingSounds ⟨0, 0, -1⟩ (standingPlayer SoundStatus.Paused)).mWalkingSound =
      ⟨SoundStatus.Playing, [SoundCall.play]⟩ := by
    simp [manageWalkingSounds, standingPlayer, playerAt, Sound.getStatus, isOnGround, Sound.play]
  refine ⟨rfl, h, ?_⟩
  rw [h]
  simp [standingPlayer]

/-- Claim C9 as amended: with the sound Paused, `manageWalkingSounds` never issues `stop()`;
it leaves the player (and the Paused status) untouched when the direction is zero or the
player is off the ground, and it issues exactly one `play()`, making the status Playing,
when the direction is non-zero and the player is on the ground: Paused is treated like
Stopped. -/
theorem C9_paused_handled_like_stopped (d : Vec3 K) (p : Player K)
    (hs : p.mWalkingSound.status = SoundStatus.Paused) :
    ((d = ⟨0, 0, 0⟩ ∨ isOnGround p = false) → manageWalkingSounds d p = p) ∧
    ((d ≠ ⟨0, 0, 0⟩ ∧ isOnGround p = true) →
      (manageWalkingSounds d p).mWalkingSound =
        ⟨SoundStatus.Playing, p.mWalkingSound.calls ++ [SoundCall.play]⟩) ∧
    ((manageWalkingSounds d p).mWalkingSound.calls = p.mWalkingSound.calls ∨
     (manageWalkingSounds d p).mWalkingSound.calls =
       p.mWalkingSound.calls ++ [SoundCall.play]) := by
  have h1 : (d = ⟨0, 0, 0⟩ ∨ isOnGround p = false) → manageWalkingSounds d p = p := by
    intro hd
    unfold manageWalkingSounds
    rcases hd with hd | hd <;> simp [Sound.getStatus, hs, hd]
  have h2 : (d ≠ ⟨0, 0, 0⟩ ∧ isOnGround p = true) →
      (manageWalkingSounds d p).mWalkingSound =
        ⟨SoundStatus.Playing, p.mWalkingSound.calls ++ [SoundCall.play]⟩ := by
    intro hd
    unfold manageWalkingSounds
    simp [Sound.getStatus, hs, hd.1, hd.2, Sound.play]
  refine ⟨h1, h2, ?_⟩
  by_cases hd : d ≠ ⟨0, 0, 0⟩ ∧ isOnGround p = true
  · right
    rw [h2 hd]
  · left
    rw [h1]
    by_cases hz : d = ⟨0, 0, 0⟩
    · exact Or.inl hz
    · right
      have hg : ¬ isOnGround p = true := fun hg => hd ⟨hz, hg⟩
      simpa using hg

/-- Witness for the amended C9: a standing player with the sound Paused hears nothing on a
zero direction and one `play()` on the direction `(1, 0, 0)`. -/
theorem C9_paused_handled_like_stopped_witness :
    (standingPlayer SoundStatus.Paused).mWalkingSound.status = SoundStatus.Paused ∧
    manageWalkingSounds ⟨0, 0, 0⟩ (standingPlayer SoundStatus.Paused) =
      standingPlayer SoundStatus.Paused ∧
    (manageWalkingSounds ⟨1, 0, 0⟩ (standingPlayer SoundStatus.Paused)).mWalkingSound =
      ⟨SoundStatus.Playing, [SoundCall.play]⟩ := by
  have hg : isOnGround (standingPlayer SoundStatus.Paused) = true := by
    simp [isOnGround, standingPlayer, playerAt]
  refine ⟨rfl,
    (C9_paused_handled_like_stopped ⟨0, 0, 0⟩ (standingPlayer SoundStatus.Paused) rfl).1
      (Or.inl rfl),
    (C9_paused_handled_like_stopped ⟨1, 0, 0⟩ (standingPlayer SoundStatus.Paused) rfl).2.1
      ⟨by simp, hg⟩⟩

end WalkingSound

/-! ## The fixed-update scheduler -/

section Scheduler

variable {σ : Type}

/-- The loop, for an accumulator holding `n` whole intervals: `n` fixed updates, each with
the argument `T`, and `n * T` taken off the accumulator. -/
theorem fixedUpdateLoop_spec (T : ℚ) (hT : 0 < T) (step : ℚ → σ → σ) :
    ∀ (n : Nat) (g : Game σ), 0 ≤ g.mTimeSinceLastFixedUpdate →
      (⌊g.mTimeSinceLastFixedUpdate / T⌋).toNat = n →
      Game.fixedUpdateLoop T hT step g =
        { mTimeSinceLastFixedUpdate := g.mTimeSinceLastFixedUpdate - n * T,
          mAppStack := (step T)^[n] g.mAppStack,
          fixedUpdateCalls := g.fixedUpdateCalls ++ List.replicate n T } := by
  intro n
  induction n with
  | zero =>
    intro g h0 hn
    have hfl : 0 ≤ ⌊g.mTimeSinceLastFixedUpdate / T⌋ := Int.floor_nonneg.mpr (div_nonneg h0 hT.le)
    have hz : ⌊g.mTimeSinceLastFixedUpdate / T⌋ = 0 := by omega
    have hlt : g.mTimeSinceLastFixedUpdate / T < 1 := by
      have := Int.lt_floor_add_one (g.mTimeSinceLastFixedUpdate / T)
      rw [hz] at this
      simpa using this
    have hlt2 : g.mTimeSinceLastFixedUpdate < T := by
      rwa [div_lt_one hT] at hlt
    rw [Game.fixedUpdateLoop, if_neg (not_le.mpr hlt2)]
    simp
  | succ n ih =>
    intro g h0 hn
    have h1 : (1 : ℤ) ≤ ⌊g.mTimeSinceLastFixedUpdate / T⌋ := by omega
    have h2 : (1 : ℚ) ≤ g.mTimeSinceLastFixedUpdate / T := by
      have := Int.le_floor.mp h1
      simpa using this
    have h3 : T ≤ g.mTimeSinceLastFixedUpdate := by
      rwa [le_div_iff₀ hT, one_mul] at h2
    have h4 : (g.mTimeSinceLastFixedUpdate - T) / T = g.mTimeSinceLastFixedUpdate / T - 1 := by
      field_simp
    rw [Game.fixedUpdateLoop, if_pos h3]
    rw [ih (Game.fixedUpdate step T
        { g with mTimeSinceLastFixedUpdate := g.mTimeSinceLastFixedUpdate - T })
      (by simpa [Game.fixedUpdate] using h3)
      (by
        simp only [Game.fixedUpdate]
        rw [h4, Int.floor_sub_one]
        omega)]
    simp only [Game.fixedUpdate, Function.iterate_succ_apply, List.replicate_succ,
      List.append_assoc, List.singleton_append]
    congr 1
    push_cast
    ring

/-- Claim C7: for a fixed interval `T > 0` and an accumulated time `a ≥ 0` (the accumulator
plus the frame's elapsed time), `fixedUpdateAtEqualIntervals` makes exactly `⌊a / T⌋` fixed
updates, each with the constant argument `T`, and leaves `a - ⌊a / T⌋ * T`, a value in
`[0, T)`, in the accumulator; for `a = 2.5 * T` that is two updates and `0.5 * T` left. -/
theorem C7_fixed_update_count (T : ℚ) (hT : 0 < T) (step : ℚ → σ → σ) (elapsed : ℚ)
    (g : Game σ) (ha : 0 ≤ g.mTimeSinceLastFixedUpdate + elapsed) :
    (Game.fixedUpdateAtEqualIntervals T hT step elapsed g).fixedUpdateCalls =
      g.fixedUpdateCalls ++
        List.replicate (⌊(g.mTimeSinceLastFixedUpdate + elapsed) / T⌋).toNat T ∧
    (((⌊(g.mTimeSinceLastFixedUpdate + elapsed) / T⌋).toNat : ℤ) =
      ⌊(g.mTimeSinceLastFixedUpdate + elapsed) / T⌋) ∧
    (Game.fixedUpdateAtEqualIntervals T hT step elapsed g).mAppStack =
      (step T)^[(⌊(g.mTimeSinceLastFixedUpdate + elapsed) / T⌋).toNat] g.mAppStack ∧
    (Game.fixedUpdateAtEqualIntervals T hT step elapsed g).mTimeSinceLastFixedUpdate =
      (g.mTimeSinceLastFixedUpdate + elapsed) -
        ⌊(g.mTimeSinceLastFixedUpdate + elapsed) / T⌋ * T ∧
    0 ≤ (Game.fixedUpdateAtEqualIntervals T hT step elapsed g).mTimeSinceLastFixedUpdate ∧
    (Game.fixedUpdateAtEqualIntervals T hT step elapsed g).mTimeSinceLastFixedUpdate < T ∧
    (g.mTimeSinceLastFixedUpdate + elapsed = 5 / 2 * T →
      (Game.fixedUpdateAtEqualIntervals T hT step elapsed g).fixedUpdateCalls =
        g.fixedUpdateCalls ++ [T, T] ∧
      (Game.fixedUpdateAtEqualIntervals T hT step elapsed g).mTimeSinceLastFixedUpdate =
        1 / 2 * T) := by
  have hfl : 0 ≤ ⌊(g.mTimeSinceLastFixedUpdate + elapsed) / T⌋ :=
    Int.floor_nonneg.mpr (div_nonneg ha hT.le)
  have hcast : ((⌊(g.mTimeSinceLastFixedUpdate + elapsed) / T⌋).toNat : ℤ) =
      ⌊(g.mTimeSinceLastFixedUpdate + elapsed) / T⌋ := Int.toNat_of_nonneg hfl
  have hcastq : (((⌊(g.mTimeSinceLastFixedUpdate + elapsed) / T⌋).toNat : ℕ) : ℚ) =
      ((⌊(g.mTimeSinceLastFixedUpdate + elapsed) / T⌋ : ℤ) : ℚ) := by
    exact_mod_cast hcast
  have key := fixedUpdateLoop_spec T hT step
    (⌊(g.mTimeSinceLastFixedUpdate + elapsed) / T⌋).toNat
    { g with mTimeSinceLastFixedUpdate := g.mTimeSinceLastFixedUpdate + elapsed } ha rfl
  have hacc : (Game.fixedUpdateAtEqualIntervals T hT step elapsed g).mTimeSinceLastFixedUpdate =
      (g.mTimeSinceLastFixedUpdate + elapsed) -
        ⌊(g.mTimeSinceLastFixedUpdate + elapsed) / T⌋ * T := by
    unfold Game.fixedUpdateAtEqualIntervals
    rw [key, hcastq]
  have hcalls : (Game.fixedUpdateAtEqualIntervals T hT step elapsed g).fixedUpdateCalls =
      g.fixedUpdateCalls ++
        List.replicate (⌊(g.mTimeSinceLastFixedUpdate + elapsed) / T⌋).toNat T := by
    unfold Game.fixedUpdateAtEqualIntervals
    rw [key]
  have hle : (⌊(g.mTimeSinceLastFixedUpdate + elapsed) / T⌋ : ℚ) * T ≤
      g.mTimeSinceLastFixedUpdate + elapsed := by
    rw [← le_div_iff₀ hT]
    exact Int.floor_le _
  have hlt : g.mTimeSinceLastFixedUpdate + elapsed <
      ((⌊(g.mTimeSinceLastFixedUpdate + elapsed) / T⌋ : ℚ) + 1) * T := by
    rw [← div_lt_iff₀ hT]
    exact Int.lt_floor_add_one _
  refine ⟨hcalls, hcast, ?_, hacc, ?_, ?_, ?_⟩
  · unfold Game.fixedUpdateAtEqualIntervals
    rw [key]
  · rw [hacc]; linarith
  · rw [hacc]; linarith
  · intro h52
    have hdiv : (g.mTimeSinceLastFixedUpdate + elapsed) / T = 5 / 2 := by
      rw [h52]; field_simp; ring
    have hfloor : ⌊(g.mTimeSinceLastFixedUpdate + elapsed) / T⌋ = 2 := by
      rw [hdiv, Int.floor_eq_iff]
      norm_num
    constructor
    · rw [hcalls, hfloor]
      rfl
    · rw [hacc, hfloor, h52]
      push_cast
      ring

/-- Witness for C7: `T = 1/60`, an empty accumulator and a frame of `1/24 = 2.5 * T`
seconds, with a stub step that counts its invocations: two fixed updates with argument
`1/60`, the counter at `2`, and `1/120 = 0.5 * T` left in the accumulator. -/
theorem C7_fixed_update_count_witness :
    (0 : ℚ) ≤ (⟨0, 0, []⟩ : Game Nat).mTimeSinceLastFixedUpdate + 1 / 24 ∧
    (Game.fixedUpdateAtEqualIntervals (1 / 60) (by norm_num) countingStep (1 / 24)
      ⟨0, 0, []⟩).fixedUpdateCalls = [1 / 60, 1 / 60] ∧
    (Game.fixedUpdateAtEqualIntervals (1 / 60) (by norm_num) countingStep (1 / 24)
      ⟨0, 0, []⟩).mAppStack = 2 ∧
    (Game.fixedUpdateAtEqualIntervals (1 / 60) (by norm_num) countingStep (1 / 24)
      ⟨0, 0, []⟩).mTimeSinceLastFixedUpdate = 1 / 120 := by
  have ha : (0 : ℚ) ≤ (⟨0, 0, []⟩ : Game Nat).mTimeSinceLastFixedUpdate + 1 / 24 := by norm_num
  have t := C7_fixed_update_count (1 / 60) (by norm_num) countingStep (1 / 24) ⟨0, 0, []⟩ ha
  have h52 : (⟨0, 0, []⟩ : Game Nat).mTimeSinceLastFixedUpdate + 1 / 24 = 5 / 2 * (1 / 60) := by
    norm_num
  have hfloor : ⌊((⟨0, 0, []⟩ : Game Nat).mTimeSinceLastFixedUpdate + 1 / 24) / (1 / 60)⌋ = 2 := by
    rw [Int.floor_eq_iff]
    norm_num
  obtain ⟨_, _, tstate, _, _, _, tex⟩ := t
  refine ⟨ha, ?_, ?_, ?_⟩
  · simpa using (tex h52).1
  · rw [tstate, hfloor]
    rfl
  · rw [(tex h52).2]
    norm_num

end Scheduler

/-! ## Deceleration -/

section Deceleration

theorem decelerateVelocity_eq {K : Type} [LinearOrderedField K] (env : Env K) (deltaTime : K)
    (p : Player K) :
    decelerateVelocity env deltaTime p =
      { p with mVelocity :=
          ⟨p.mVelocity.x * env.exp (-(Env.PLAYER_WALKING_DECELERATE_RATIO env) * deltaTime),
           p.mVelocity.y,
           p.mVelocity.z * env.exp (-(Env.PLAYER_WALKING_DECELERATE_RATIO env) * deltaTime)⟩ } :=
  rfl

/-- Claim C11: over the reals, for a positive time step, a positive deceleration ratio and a
horizontal velocity that is not zero, `decelerateVelocity` multiplies `vx` and `vz` by the
same factor `exp(-ratio * dt)`, which lies strictly between `0` and `1`: the horizontal
magnitude `sqrt(vx² + vz²)` strictly decreases, a positive component stays positive, a
negative one stays negative, a zero one stays zero, and `vy` and the position are
unchanged. -/
theorem C11_deceleration_strictly_shrinks (env : Env ℝ) (deltaTime : ℝ) (p : Player ℝ)
    (hexp : env.exp = Real.exp) (hdt : 0 < deltaTime)
    (hr : 0 < Env.PLAYER_WALKING_DECELERATE_RATIO env)
    (hv : p.mVelocity.x ≠ 0 ∨ p.mVelocity.z ≠ 0) :
    (0 < Real.exp (-(Env.PLAYER_WALKING_DECELERATE_RATIO env) * deltaTime) ∧
     Real.exp (-(Env.PLAYER_WALKING_DECELERATE_RATIO env) * deltaTime) < 1) ∧
    ((decelerateVelocity env deltaTime p).mVelocity.x =
       p.mVelocity.x * Real.exp (-(Env.PLAYER_WALKING_DECELERATE_RATIO env) * deltaTime) ∧
     (decelerateVelocity env deltaTime p).mVelocity.z =
       p.mVelocity.z * Real.exp (-(Env.PLAYER_WALKING_DECELERATE_RATIO env) * deltaTime)) ∧
    Real.sqrt ((decelerateVelocity env deltaTime p).mVelocity.x ^ 2 +
        (decelerateVelocity env deltaTime p).mVelocity.z ^ 2) <
      Real.sqrt (p.mVelocity.x ^ 2 + p.mVelocity.z ^ 2) ∧
    ((0 < p.mVelocity.x → 0 < (decelerateVelocity env deltaTime p).mVelocity.x) ∧
     (p.mVelocity.x < 0 → (decelerateVelocity env deltaTime p).mVelocity.x < 0) ∧
     (p.mVelocity.x = 0 → (decelerateVelocity env deltaTime p).mVelocity.x = 0)) ∧
    ((0 < p.mVelocity.z → 0 < (decelerateVelocity env deltaTime p).mVelocity.z) ∧
     (p.mVelocity.z < 0 → (decelerateVelocity env deltaTime p).mVelocity.z < 0) ∧
     (p.mVelocity.z = 0 → (decelerateVelocity env deltaTime p).mVelocity.z = 0)) ∧
    (decelerateVelocity env deltaTime p).mVelocity.y = p.mVelocity.y ∧
    (decelerateVelocity env deltaTime p).mPosition = p.mPosition := by
  have hpos : 0 < Real.exp (-(Env.PLAYER_WALKING_DECELERATE_RATIO env) * deltaTime) :=
    Real.exp_pos _
  have hlt : Real.exp (-(Env.PLAYER_WALKING_DECELERATE_RATIO env) * deltaTime) < 1 := by
    rw [Real.exp_lt_one_iff]
    have := mul_pos hr hdt
    linarith
  rw [decelerateVelocity_eq, hexp]
  dsimp only
  generalize Real.exp (-(Env.PLAYER_WALKING_DECELERATE_RATIO env) * deltaTime) = f at hpos hlt
  have hsum : 0 < p.mVelocity.x ^ 2 + p.mVelocity.z ^ 2 := by
    rcases hv with h | h
    · have := pow_pos (abs_pos.mpr h) 2
      rw [sq_abs] at this
      nlinarith [sq_nonneg p.mVelocity.z]
    · have := pow_pos (abs_pos.mpr h) 2
      rw [sq_abs] at this
      nlinarith [sq_nonneg p.mVelocity.x]
  have hf2 : f ^ 2 < 1 := by nlinarith
  refine ⟨⟨hpos, hlt⟩, ⟨rfl, rfl⟩, ?_, ⟨?_, ?_, ?_⟩, ⟨?_, ?_, ?_⟩, rfl, rfl⟩
  · apply Real.sqrt_lt_sqrt (by positivity)
    have : (p.mVelocity.x * f) ^ 2 + (p.mVelocity.z * f) ^ 2 =
        f ^ 2 * (p.mVelocity.x ^ 2 + p.mVelocity.z ^ 2) := by ring
    rw [this]
    nlinarith
  · intro h; exact mul_pos h hpos
  · intro h; exact mul_neg_of_neg_of_pos h hpos
  · intro h; rw [h, zero_mul]
  · intro h; exact mul_pos h hpos
  · intro h; exact mul_neg_of_neg_of_pos h hpos
  · intro h; rw [h, zero_mul]

/-- Witness for C11: the exact configuration at `dt = 1/60` with ratio `10`, and a player
moving with velocity `(3, -1, -4)`. -/
theorem C11_deceleration_strictly_shrinks_witness :
    (mathEnv 5 5 Real.exp Real.sqrt).exp = Real.exp ∧ (0 : ℝ) < 1 / 60 ∧
    0 < Env.PLAYER_WALKING_DECELERATE_RATIO (mathEnv 5 5 Real.exp Real.sqrt) ∧
    Real.sqrt ((decelerateVelocity (mathEnv 5 5 Real.exp Real.sqrt) (1 / 60)
        (playerWith ⟨0, 0, 0⟩ ⟨3, -1, -4⟩ ⟨0, 0, -1⟩ ⟨1, 0, 0⟩)).mVelocity.x ^ 2 +
      (decelerateVelocity (mathEnv 5 5 Real.exp Real.sqrt) (1 / 60)
        (playerWith ⟨0, 0, 0⟩ ⟨3, -1, -4⟩ ⟨0, 0, -1⟩ ⟨1, 0, 0⟩)).mVelocity.z ^ 2) <
      Real.sqrt ((3 : ℝ) ^ 2 + (-4) ^ 2) ∧
    0 < (decelerateVelocity (mathEnv 5 5 Real.exp Real.sqrt) (1 / 60)
        (playerWith ⟨0, 0, 0⟩ ⟨3, -1, -4⟩ ⟨0, 0, -1⟩ ⟨1, 0, 0⟩)).mVelocity.x ∧
    (decelerateVelocity (mathEnv 5 5 Real.exp Real.sqrt) (1 / 60)
        (playerWith ⟨0, 0, 0⟩ ⟨3, -1, -4⟩ ⟨0, 0, -1⟩ ⟨1, 0, 0⟩)).mVelocity.z < 0 ∧
    (decelerateVelocity (mathEnv 5 5 Real.exp Real.sqrt) (1 / 60)
        (playerWith ⟨0, 0, 0⟩ ⟨3, -1, -4⟩ ⟨0, 0, -1⟩ ⟨1, 0, 0⟩)).mVelocity.y = -1 := by
  have h1 : (0 : ℝ) < 1 / 60 := by norm_num
  have h2 : 0 < Env.PLAYER_WALKING_DECELERATE_RATIO (mathEnv 5 5 Real.exp Real.sqrt) := by
    norm_num [mathEnv]
  have t := C11_deceleration_strictly_shrinks (mathEnv 5 5 Real.exp Real.sqrt) (1 / 60)
    (playerWith ⟨0, 0, 0⟩ ⟨3, -1, -4⟩ ⟨0, 0, -1⟩ ⟨1, 0, 0⟩) rfl h1 h2
    (Or.inl (by norm_num [playerWith]))
  obtain ⟨_, _, tmag, ⟨txp, _, _⟩, ⟨_, tzn, _⟩, ty, _⟩ := t
  exact ⟨rfl, h1, h2, tmag, txp (by norm_num [playerWith]), tzn (by norm_num [playerWith]), ty⟩

/-- Claim C12: over the reals, `decelerateVelocity` with step `a` followed by
`decelerateVelocity` with step `b` gives the same player as one call with step `a + b`, for
all `a` and `b` (in particular non-negative ones); hence `n` calls with step `a` equal one
call with step `n * a`. -/
theorem C12_deceleration_depends_on_elapsed_time (env : Env ℝ) (a b : ℝ) (n : ℕ)
    (p : Player ℝ) (hexp : env.exp = Real.exp) :
    decelerateVelocity env b (decelerateVelocity env a p) = decelerateVelocity env (a + b) p ∧
    (decelerateVelocity env a)^[n] p = decelerateVelocity env (n * a) p := by
  have two : ∀ (s t : ℝ) (q : Player ℝ),
      decelerateVelocity env t (decelerateVelocity env s q) =
        decelerateVelocity env (s + t) q := by
    intro s t q
    simp only [decelerateVelocity_eq, hexp]
    have he : Real.exp (-(Env.PLAYER_WALKING_DECELERATE_RATIO env) * (s + t)) =
        Real.exp (-(Env.PLAYER_WALKING_DECELERATE_RATIO env) * s) *
          Real.exp (-(Env.PLAYER_WALKING_DECELERATE_RATIO env) * t) := by
      rw [← Real.exp_add]
      congr 1
      ring
    rw [he]
    simp only [mul_assoc]
  refine ⟨two a b p, ?_⟩
  induction n with
  | zero =>
    simp only [Function.iterate_zero, id_eq, Nat.cast_zero, zero_mul, decelerateVelocity_eq, hexp,
      mul_zero, Real.exp_zero, mul_one]
  | succ n ih =>
    rw [Function.iterate_succ_apply', ih, two]
    congr 1
    push_cast
    ring

/-- Witness for C12: with the exact configuration, three calls with step `1/60` on a player
moving with velocity `(3, -1, -4)` equal one call with step `3 * (1/60)`. -/
theorem C12_deceleration_depends_on_elapsed_time_witness :
    (mathEnv 5 5 Real.exp Real.sqrt).exp = Real.exp ∧
    decelerateVelocity (mathEnv 5 5 Real.exp Real.sqrt) (1 / 30)
      (decelerateVelocity (mathEnv 5 5 Real.exp Real.sqrt) (1 / 60)
        (playerWith ⟨0, 0, 0⟩ ⟨3, -1, -4⟩ ⟨0, 0, -1⟩ ⟨1, 0, 0⟩)) =
      decelerateVelocity (mathEnv 5 5 Real.exp Real.sqrt) (1 / 60 + 1 / 30)
        (playerWith ⟨0, 0, 0⟩ ⟨3, -1, -4⟩ ⟨0, 0, -1⟩ ⟨1, 0, 0⟩) ∧
    (decelerateVelocity (mathEnv 5 5 Real.exp Real.sqrt) (1 / 60))^[3]
        (playerWith ⟨0, 0, 0⟩ ⟨3, -1, -4⟩ ⟨0, 0, -1⟩ ⟨1, 0, 0⟩) =
      decelerateVelocity (mathEnv 5 5 Real.exp Real.sqrt) ((3 : ℕ) * (1 / 60))
        (playerWith ⟨0, 0, 0⟩ ⟨3, -1, -4⟩ ⟨0, 0, -1⟩ ⟨1, 0, 0⟩) :=
  ⟨rfl,
    (C12_deceleration_depends_on_elapsed_time (mathEnv 5 5 Real.exp Real.sqrt) (1 / 60) (1 / 30) 3
      (playerWith ⟨0, 0, 0⟩ ⟨3, -1, -4⟩ ⟨0, 0, -1⟩ ⟨1, 0, 0⟩) rfl).1,
    (C12_deceleration_depends_on_elapsed_time (mathEnv 5 5 Real.exp Real.sqrt) (1 / 60) (1 / 30) 3
      (playerWith ⟨0, 0, 0⟩ ⟨3, -1, -4⟩ ⟨0, 0, -1⟩ ⟨1, 0, 0⟩) rfl).2⟩

end Deceleration

/-! ## What the velocity phases leave alone -/

section Frame

variable {K : Type} [LinearOrderedField K]

theorem manageWalkingSounds_frame (d : Vec3 K) (p : Player K) :
    (manageWalkingSounds d p).mPosition = p.mPosition ∧
    (manageWalkingSounds d p).mVelocity = p.mVelocity ∧
    (manageWalkingSounds d p).mCamera = p.mCamera ∧
    (manageWalkingSounds d p).mCollider = p.mCollider ∧
    (manageWalkingSounds d p).doesPlayerStandOnCollider = p.doesPlayerStandOnCollider := by
  unfold manageWalkingSounds
  dsimp only
  split <;> split_ifs <;> exact ⟨rfl, rfl, rfl, rfl, rfl⟩

/-- The input phase in terms of the summed direction. -/
theorem handleMovementKeyboardInputs_eq (env : Env K) (keys : Keyboard) (deltaTime : K)
    (p : Player K) :
    handleMovementKeyboardInputs env keys deltaTime p =
      if env.length (summedDirection keys p.mCamera) > 0 then
        { manageWalkingSounds (summedDirection keys p.mCamera) p with
          mVelocity := Vec3.add (manageWalkingSounds (summedDirection keys p.mCamera) p).mVelocity
            (Vec3.smul (env.PLAYER_WALKING_SPEED * (1 / 10) * deltaTime)
              (env.normalize (summedDirection keys p.mCamera))) }
      else manageWalkingSounds (summedDirection keys p.mCamera) p :=
  rfl

theorem handleMovementKeyboardInputs_frame (env : Env K) (keys : Keyboard) (deltaTime : K)
    (p : Player K) :
    (handleMovementKeyboardInputs env keys deltaTime p).mPosition = p.mPosition ∧
    (handleMovementKeyboardInputs env keys deltaTime p).mCamera = p.mCamera ∧
    (handleMovementKeyboardInputs env keys deltaTime p).mCollider = p.mCollider ∧
    (handleMovementKeyboardInputs env keys deltaTime p).doesPlayerStandOnCollider =
      p.doesPlayerStandOnCollider := by
  obtain ⟨h1, _, h3, h4, h5⟩ := manageWalkingSounds_frame (summedDirection keys p.mCamera) p
  rw [handleMovementKeyboardInputs_eq]
  split_ifs <;> exact ⟨h1, h3, h4, h5⟩

/-- The velocity after the input phase: unchanged when the summed direction has no length,
otherwise increased by `PLAYER_WALKING_SPEED * 0.1 * deltaTime` times the normalised
direction. -/
theorem handleMovementKeyboardInputs_mVelocity (env : Env K) (keys : Keyboard) (deltaTime : K)
    (p : Player K) :
    (handleMovementKeyboardInputs env keys deltaTime p).mVelocity =
      if env.length (summedDirection keys p.mCamera) > 0 then
        Vec3.add p.mVelocity
          (Vec3.smul (env.PLAYER_WALKING_SPEED * (1 / 10) * deltaTime)
            (env.normalize (summedDirection keys p.mCamera)))
      else p.mVelocity := by
  obtain ⟨_, h2, _, _, _⟩ := manageWalkingSounds_frame (summedDirection keys p.mCamera) p
  rw [handleMovementKeyboardInputs_eq]
  split_ifs <;> simp only [h2]

theorem summedDirection_y (keys : Keyboard) (camera : Camera K)
    (h1 : camera.directionWithoutPitch.y = 0) (h2 : camera.rightDirectionWithoutPitch.y = 0) :
    (summedDirection keys camera).y = 0 := by
  unfold summedDirection
  dsimp only
  split_ifs <;> simp [Vec3.add, Vec3.sub, h1, h2]

theorem handleMovementKeyboardInputs_mVelocity_y (env : Env K) (keys : Keyboard)
    (deltaTime : K) (p : Player K) (hlook : HorizontalLook env p.mCamera) :
    (handleMovementKeyboardInputs env keys deltaTime p).mVelocity.y = p.mVelocity.y := by
  rw [handleMovementKeyboardInputs_mVelocity]
  split_ifs
  · have := hlook.2.2 _ (summedDirection_y keys p.mCamera hlook.1 hlook.2.1)
    simp [Vec3.add, Vec3.smul, this]
  · rfl

theorem afterVelocityPhases_frame (env : Env K) (keys : Keyboard) (deltaTime : K)
    (p : Player K) :
    (afterVelocityPhases env keys deltaTime p).mPosition = p.mPosition ∧
    (afterVelocityPhases env keys deltaTime p).mCamera = p.mCamera ∧
    (afterVelocityPhases env keys deltaTime p).mCollider = p.mCollider ∧
    (afterVelocityPhases env keys deltaTime p).doesPlayerStandOnCollider =
      p.doesPlayerStandOnCollider := by
  obtain ⟨h1, h2, h3, h4⟩ := handleMovementKeyboardInputs_frame env keys deltaTime p
  unfold afterVelocityPhases limitVelocity manageVerticalVelocity decelerateVelocity
  dsimp only
  split_ifs <;> exact ⟨h1, h2, h3, h4⟩

/-- The vertical velocity after the four velocity phases, under a horizontal look. -/
theorem afterVelocityPhases_mVelocity_y (env : Env K) (keys : Keyboard) (deltaTime : K)
    (p : Player K) (hlook : HorizontalLook env p.mCamera) :
    (afterVelocityPhases env keys deltaTime p).mVelocity.y =
      if -(p.mVelocity.y + G * deltaTime) > env.PLAYER_MAX_FALLING_SPEED then
        -env.PLAYER_MAX_FALLING_SPEED
      else p.mVelocity.y + G * deltaTime := by
  unfold afterVelocityPhases
  rw [limitVelocity_y]
  have h : (manageVerticalVelocity deltaTime (decelerateVelocity env deltaTime
      (handleMovementKeyboardInputs env keys deltaTime p))).mVelocity.y =
      p.mVelocity.y + G * deltaTime := by
    simp only [manageVerticalVelocity, decelerateVelocity]
    rw [handleMovementKeyboardInputs_mVelocity_y env keys deltaTime p hlook]
  rw [h]

theorem G_neg : (G : K) < 0 := by
  unfold G
  norm_num

theorem tryUpdate_mCamera (reg : ColliderRegister K) (a : Axis) (p : Player K) :
    (tryUpdatePositionByApplyingVelocityIfCollisionAllows reg a p).2.mCamera = p.mCamera := by
  rcases tryUpdate_cases reg a p with h | h <;> rw [h] <;> rfl

theorem updatePhysics_mCamera (env : Env K) (reg : ColliderRegister K) (keys : Keyboard)
    (deltaTime : K) (p : Player K) :
    (updatePhysics env reg keys deltaTime p).mCamera = p.mCamera := by
  have h1 : (afterFloorClamp env reg keys deltaTime p).mCamera = p.mCamera := by
    unfold afterFloorClamp
    have h2 : (afterYPass env reg keys deltaTime p).mCamera = p.mCamera := by
      unfold afterYPass yPass afterXPass
      dsimp only
      rw [tryUpdate_mCamera, tryUpdate_mCamera, (afterVelocityPhases_frame env keys deltaTime p).2.1]
    split_ifs
    · exact h2
    · exact h2
  rw [updatePhysics_eq, tryUpdate_mCamera, h1]

end Frame

/-! ## The vertical axis -/

section Vertical

variable {K : Type} [LinearOrderedField K]

theorem afterXPass_y (env : Env K) (reg : ColliderRegister K) (keys : Keyboard)
    (deltaTime : K) (p : Player K) :
    (afterXPass env reg keys deltaTime p).mPosition.y = p.mPosition.y ∧
    (afterXPass env reg keys deltaTime p).mVelocity.y =
      (afterVelocityPhases env keys deltaTime p).mVelocity.y := by
  have h1 := tryUpdate_mPosition_other reg (a := Axis.x) (b := Axis.y) (by decide)
    (afterVelocityPhases env keys deltaTime p)
  have h2 := tryUpdate_mVelocity_other reg (a := Axis.x) (b := Axis.y) (by decide)
    (afterVelocityPhases env keys deltaTime p)
  simp only [Vec3.get] at h1 h2
  unfold afterXPass
  rw [h1, h2, (afterVelocityPhases_frame env keys deltaTime p).1]
  exact ⟨rfl, rfl⟩

/-- The two outcomes of the Y pass of `updatePhysics`. -/
theorem yPass_cases (env : Env K) (reg : ColliderRegister K) (keys : Keyboard)
    (deltaTime : K) (p : Player K) :
    ((yPass env reg keys deltaTime p).1 = false ∧
      (yPass env reg keys deltaTime p).2.mPosition.y = p.mPosition.y ∧
      (yPass env reg keys deltaTime p).2.mVelocity.y = 0) ∨
    ((yPass env reg keys deltaTime p).1 = true ∧
      (yPass env reg keys deltaTime p).2.mPosition.y =
        p.mPosition.y + (afterVelocityPhases env keys deltaTime p).mVelocity.y ∧
      (yPass env reg keys deltaTime p).2.mVelocity.y =
        (afterVelocityPhases env keys deltaTime p).mVelocity.y) := by
  obtain ⟨hy, hv⟩ := afterXPass_y env reg keys deltaTime p
  unfold yPass
  rcases tryUpdate_cases reg Axis.y (afterXPass env reg keys deltaTime p) with h | h
  · left
    rw [h]
    exact ⟨rfl, hy, rfl⟩
  · right
    rw [h]
    refine ⟨rfl, ?_, hv⟩
    simp only [updateColliderPosition_mPosition, Vec3.set, Vec3.get, hy, hv]

theorem updatePhysics_mPosition_y (env : Env K) (reg : ColliderRegister K) (keys : Keyboard)
    (deltaTime : K) (p : Player K) :
    (updatePhysics env reg keys deltaTime p).mPosition.y =
      if (yPass env reg keys deltaTime p).2.mPosition.y < 0 then 0
      else (yPass env reg keys deltaTime p).2.mPosition.y := by
  have hz := tryUpdate_mPosition_other reg (a := Axis.z) (b := Axis.y) (by decide)
    (afterFloorClamp env reg keys deltaTime p)
  simp only [Vec3.get] at hz
  rw [updatePhysics_eq, hz]
  unfold afterFloorClamp afterYPass
  dsimp only
  split_ifs <;> rfl

theorem updatePhysics_mVelocity_y_eq (env : Env K) (reg : ColliderRegister K)
    (keys : Keyboard) (deltaTime : K) (p : Player K) :
    (updatePhysics env reg keys deltaTime p).mVelocity.y =
      (yPass env reg keys deltaTime p).2.mVelocity.y := by
  have hz := tryUpdate_mVelocity_other reg (a := Axis.z) (b := Axis.y) (by decide)
    (afterFloorClamp env reg keys deltaTime p)
  simp only [Vec3.get] at hz
  rw [updatePhysics_eq, hz, afterFloorClamp_mVelocity]

/-- Claim C13: for a player below the floor (`position.y < 0`) whose vertical velocity is
not upward (`vy ≤ 0`), a non-negative time step and any registry, one `updatePhysics` leaves
`position.y` equal to exactly `0`, whether the Y pass was clear or blocked.  (The camera
vectors are pitch-free and `PLAYER_MAX_FALLING_SPEED` is not negative.) -/
theorem C13_below_floor_clamped_to_zero (env : Env K) (reg : ColliderRegister K)
    (keys : Keyboard) (deltaTime : K) (p : Player K) (hlook : HorizontalLook env p.mCamera)
    (hF : 0 ≤ env.PLAYER_MAX_FALLING_SPEED) (hy : p.mPosition.y < 0) (hvy : p.mVelocity.y ≤ 0)
    (hdt : 0 ≤ deltaTime) :
    (updatePhysics env reg keys deltaTime p).mPosition.y = 0 := by
  have hg : p.mVelocity.y + G * deltaTime ≤ 0 := by
    have := mul_nonpos_of_nonpos_of_nonneg (le_of_lt (G_neg (K := K))) hdt
    linarith
  have hv : (afterVelocityPhases env keys deltaTime p).mVelocity.y ≤ 0 := by
    rw [afterVelocityPhases_mVelocity_y env keys deltaTime p hlook]
    split_ifs
    · linarith
    · exact hg
  have hneg : (yPass env reg keys deltaTime p).2.mPosition.y < 0 := by
    rcases yPass_cases env reg keys deltaTime p with ⟨_, h, _⟩ | ⟨_, h, _⟩ <;> rw [h] <;> linarith
  rw [updatePhysics_mPosition_y, if_pos hneg]

/-- Witness for C13: a player at height `-1/2` falling with `vy = -1`, in the level with
the solid wall, no key held, `dt = 1/60`. -/
theorem C13_below_floor_clamped_to_zero_witness :
    HorizontalLook exampleEnv (playerAt ⟨0, -1 / 2, 0⟩ ⟨0, -1, 0⟩).mCamera ∧
    0 ≤ exampleEnv.PLAYER_MAX_FALLING_SPEED ∧
    (playerAt ⟨0, -1 / 2, 0⟩ ⟨0, -1, 0⟩).mPosition.y < 0 ∧
    (playerAt ⟨0, -1 / 2, 0⟩ ⟨0, -1, 0⟩).mVelocity.y ≤ 0 ∧ (0 : ℚ) ≤ 1 / 60 ∧
    (updatePhysics exampleEnv wallRegister noKeys (1 / 60)
      (playerAt ⟨0, -1 / 2, 0⟩ ⟨0, -1, 0⟩)).mPosition.y = 0 := by
  have hlook : HorizontalLook exampleEnv (playerAt ⟨0, -1 / 2, 0⟩ ⟨0, -1, 0⟩).mCamera := by
    refine ⟨rfl, rfl, ?_⟩
    intro v hv
    simp [exampleEnv, hv]
  have hF : 0 ≤ exampleEnv.PLAYER_MAX_FALLING_SPEED := by norm_num [exampleEnv]
  have hy : (playerAt ⟨0, -1 / 2, 0⟩ ⟨0, -1, 0⟩).mPosition.y < 0 := by norm_num [playerAt]
  have hvy : (playerAt ⟨0, -1 / 2, 0⟩ ⟨0, -1, 0⟩).mVelocity.y ≤ 0 := by norm_num [playerAt]
  have hdt : (0 : ℚ) ≤ 1 / 60 := by norm_num
  exact ⟨hlook, hF, hy, hvy, hdt,
    C13_below_floor_clamped_to_zero exampleEnv wallRegister noKeys (1 / 60) _ hlook hF hy hvy hdt⟩

theorem tryJump_frame (env : Env K) (p : Player K) :
    (tryJump env p).mPosition = p.mPosition ∧ (tryJump env p).mCamera = p.mCamera := by
  unfold tryJump
  split_ifs <;> exact ⟨rfl, rfl⟩

theorem tryJump_of_not_onGround (env : Env K) (p : Player K) (h : isOnGround p = false) :
    tryJump env p = p := by
  unfold tryJump
  rw [h]
  simp

/-- Claim C14: for a player at `position.y = 0` (so on the ground), `tryJump` sets `vy` to
exactly `PLAYER_JUMP_FORCE`; when in the physics step that follows the player is still
ascending (`PLAYER_JUMP_FORCE + G * dt > 0`) and the Y move is clear, the step ends with
`position.y > 0`, the ground flag false and `isOnGround` false, and a second `tryJump`
returns the player unchanged (velocity and position included).  (The camera vectors are
pitch-free.) -/
theorem C14_no_double_jump (env : Env K) (reg : ColliderRegister K) (keys : Keyboard)
    (deltaTime : K) (p : Player K) (hlook : HorizontalLook env p.mCamera)
    (hy : p.mPosition.y = 0) (hasc : 0 < env.PLAYER_JUMP_FORCE + G * deltaTime)
    (hclear : (yPass env reg keys deltaTime (tryJump env p)).1 = true) :
    isOnGround p = true ∧
    (tryJump env p).mVelocity.y = env.PLAYER_JUMP_FORCE ∧
    0 < (updatePhysics env reg keys deltaTime (tryJump env p)).mPosition.y ∧
    (updatePhysics env reg keys deltaTime (tryJump env p)).doesPlayerStandOnCollider = false ∧
    isOnGround (updatePhysics env reg keys deltaTime (tryJump env p)) = false ∧
    tryJump env (updatePhysics env reg keys deltaTime (tryJump env p)) =
      updatePhysics env reg keys deltaTime (tryJump env p) := by
  have hg : isOnGround p = true := by simp [isOnGround, hy]
  have hj : (tryJump env p).mVelocity.y = env.PLAYER_JUMP_FORCE := by simp [tryJump, hg]
  obtain ⟨hjp, hjc⟩ := tryJump_frame env p
  have hlook2 : HorizontalLook env (tryJump env p).mCamera := by rw [hjc]; exact hlook
  have hv : 0 < (afterVelocityPhases env keys deltaTime (tryJump env p)).mVelocity.y := by
    rw [afterVelocityPhases_mVelocity_y env keys deltaTime _ hlook2, hj]
    split_ifs with h
    · linarith
    · exact hasc
  have hpos : 0 < (yPass env reg keys deltaTime (tryJump env p)).2.mPosition.y := by
    rcases yPass_cases env reg keys deltaTime (tryJump env p) with ⟨hb, _, _⟩ | ⟨_, h, _⟩
    · rw [hclear] at hb
      exact absurd hb (by decide)
    · rw [h, hjp, hy, zero_add]
      exact hv
  have hfinal : 0 < (updatePhysics env reg keys deltaTime (tryJump env p)).mPosition.y := by
    rw [updatePhysics_mPosition_y, if_neg (not_lt.mpr (le_of_lt hpos))]
    exact hpos
  have hflag : (updatePhysics env reg keys deltaTime (tryJump env p)).doesPlayerStandOnCollider
      = false := by
    rw [updatePhysics_flag, hclear]
    rfl
  have hair : isOnGround (updatePhysics env reg keys deltaTime (tryJump env p)) = false := by
    unfold isOnGround
    rw [hflag]
    simp [hfinal]
  exact ⟨hg, hj, hfinal, hflag, hair, tryJump_of_not_onGround env _ hair⟩

/-- Witness for C14: a player standing at the origin of the empty level jumps with
`PLAYER_JUMP_FORCE = 1/5`; at `dt = 1/60` the Y move is clear, the step ends at height
`39673/200000`, and the second `tryJump` changes nothing. -/
theorem C14_no_double_jump_witness :
    HorizontalLook exampleEnv (playerAt ⟨0, 0, 0⟩ ⟨0, 0, 0⟩).mCamera ∧
    (playerAt ⟨0, 0, 0⟩ ⟨0, 0, 0⟩).mPosition.y = 0 ∧
    0 < exampleEnv.PLAYER_JUMP_FORCE + G * (1 / 60) ∧
    (yPass exampleEnv emptyRegister noKeys (1 / 60)
      (tryJump exampleEnv (playerAt ⟨0, 0, 0⟩ ⟨0, 0, 0⟩))).1 = true ∧
    (tryJump exampleEnv (playerAt ⟨0, 0, 0⟩ ⟨0, 0, 0⟩)).mVelocity.y = 1 / 5 ∧
    isOnGround (updatePhysics exampleEnv emptyRegister noKeys (1 / 60)
      (tryJump exampleEnv (playerAt ⟨0, 0, 0⟩ ⟨0, 0, 0⟩))) = false ∧
    tryJump exampleEnv (updatePhysics exampleEnv emptyRegister noKeys (1 / 60)
      (tryJump exampleEnv (playerAt ⟨0, 0, 0⟩ ⟨0, 0, 0⟩))) =
      updatePhysics exampleEnv emptyRegister noKeys (1 / 60)
        (tryJump exampleEnv (playerAt ⟨0, 0, 0⟩ ⟨0, 0, 0⟩)) := by
  have hlook : HorizontalLook exampleEnv (playerAt ⟨0, 0, 0⟩ ⟨0, 0, 0⟩).mCamera := by
    refine ⟨rfl, rfl, ?_⟩
    intro v hv
    simp [exampleEnv, hv]
  have hasc : 0 < exampleEnv.PLAYER_JUMP_FORCE + G * (1 / 60) := by
    norm_num [exampleEnv, G]
  have hclear : (yPass exampleEnv emptyRegister noKeys (1 / 60)
      (tryJump exampleEnv (playerAt ⟨0, 0, 0⟩ ⟨0, 0, 0⟩))).1 = true := by
    unfold yPass
    rw [tryUpdate_clear]
    intro c hc
    simp [emptyRegister, ColliderRegister.ofColliders] at hc
  have t := C14_no_double_jump exampleEnv emptyRegister noKeys (1 / 60)
    (playerAt ⟨0, 0, 0⟩ ⟨0, 0, 0⟩) hlook rfl hasc hclear
  exact ⟨hlook, rfl, hasc, hclear, t.2.1, t.2.2.2.2.1, t.2.2.2.2.2⟩

end Vertical

/-! ## Falling on the floor plane -/

section FloorFall

variable {K : Type} [LinearOrderedField K]

theorem max_fall_step (x g m : K) (hg : g < 0) : max (max x m + g) m = max (x + g) m := by
  rcases le_total x m with h | h
  · rw [max_eq_right h, max_eq_right (by linarith), max_eq_right (by linarith)]
  · rw [max_eq_left h]

theorem yPass_clear_of_noSolid (env : Env K) (reg : ColliderRegister K) (keys : Keyboard)
    (deltaTime : K) (p : Player K) (hreg : NoSolid reg) :
    (yPass env reg keys deltaTime p).1 = true := by
  unfold yPass
  rw [tryUpdate_clear reg Axis.y _ (fun c hc => hreg _ c hc)]

/-- One physics step of a player lying on the floor plane with nothing solid around. -/
theorem floorFall_step (env : Env K) (reg : ColliderRegister K) (keys : Keyboard)
    (deltaTime : K) (p : Player K) (hlook : HorizontalLook env p.mCamera) (hreg : NoSolid reg)
    (hF : 0 < env.PLAYER_MAX_FALLING_SPEED) (hy : p.mPosition.y = 0) (hvy : p.mVelocity.y ≤ 0)
    (hdt : 0 < deltaTime) :
    (updatePhysics env reg keys deltaTime p).mPosition.y = 0 ∧
    (updatePhysics env reg keys deltaTime p).mVelocity.y =
      max (p.mVelocity.y + G * deltaTime) (-env.PLAYER_MAX_FALLING_SPEED) ∧
    (updatePhysics env reg keys deltaTime p).mVelocity.y < 0 := by
  have hg : p.mVelocity.y + G * deltaTime < 0 := by
    have := mul_neg_of_neg_of_pos (G_neg (K := K)) hdt
    linarith
  have hv : (afterVelocityPhases env keys deltaTime p).mVelocity.y =
      max (p.mVelocity.y + G * deltaTime) (-env.PLAYER_MAX_FALLING_SPEED) := by
    rw [afterVelocityPhases_mVelocity_y env keys deltaTime p hlook]
    split_ifs with h
    · rw [max_eq_right]; linarith
    · rw [max_eq_left]; linarith [not_lt.mp h]
  have hneg : max (p.mVelocity.y + G * deltaTime) (-env.PLAYER_MAX_FALLING_SPEED) < 0 :=
    max_lt hg (by linarith)
  have hclear := yPass_clear_of_noSolid env reg keys deltaTime p hreg
  rcases yPass_cases env reg keys deltaTime p with ⟨hb, _, _⟩ | ⟨_, hpy, hvy2⟩
  · rw [hclear] at hb
    exact absurd hb (by decide)
  · rw [hv, hy, zero_add] at hpy
    rw [hv] at hvy2
    refine ⟨?_, ?_, ?_⟩
    · rw [updatePhysics_mPosition_y, hpy, if_pos hneg]
    · rw [updatePhysics_mVelocity_y_eq, hvy2]
    · rw [updatePhysics_mVelocity_y_eq, hvy2]; exact hneg

/-- The conditions of `floorFall_step` hold again after any number of steps. -/
theorem floorFall_invariant (env : Env K) (reg : ColliderRegister K) (keys : Keyboard)
    (deltaTime : K) (p : Player K) (hlook : HorizontalLook env p.mCamera) (hreg : NoSolid reg)
    (hF : 0 < env.PLAYER_MAX_FALLING_SPEED) (hy : p.mPosition.y = 0) (hvy : p.mVelocity.y ≤ 0)
    (hdt : 0 < deltaTime) (n : ℕ) :
    HorizontalLook env ((updatePhysics env reg keys deltaTime)^[n] p).mCamera ∧
    ((updatePhysics env reg keys deltaTime)^[n] p).mPosition.y = 0 ∧
    ((updatePhysics env reg keys deltaTime)^[n] p).mVelocity.y ≤ 0 := by
  induction n with
  | zero => exact ⟨hlook, hy, hvy⟩
  | succ n ih =>
    obtain ⟨h1, h2, h3⟩ := ih
    rw [Function.iterate_succ_apply']
    obtain ⟨s1, _, s3⟩ := floorFall_step env reg keys deltaTime _ h1 hreg hF h2 h3 hdt
    refine ⟨?_, s1, le_of_lt s3⟩
    rw [updatePhysics_mCamera]
    exact h1

/-- The vertical velocity after `n + 1` steps on the floor plane, in closed form. -/
theorem floorFall_closed_form (env : Env K) (reg : ColliderRegister K) (keys : Keyboard)
    (deltaTime : K) (p : Player K) (hlook : HorizontalLook env p.mCamera) (hreg : NoSolid reg)
    (hF : 0 < env.PLAYER_MAX_FALLING_SPEED) (hy : p.mPosition.y = 0) (hvy : p.mVelocity.y ≤ 0)
    (hdt : 0 < deltaTime) (n : ℕ) :
    ((updatePhysics env reg keys deltaTime)^[n + 1] p).mVelocity.y =
      max (p.mVelocity.y + (n + 1) * (G * deltaTime)) (-env.PLAYER_MAX_FALLING_SPEED) := by
  have hgd : G * deltaTime < 0 := mul_neg_of_neg_of_pos (G_neg (K := K)) hdt
  induction n with
  | zero =>
    rw [Function.iterate_succ_apply', Function.iterate_zero, id_eq,
      (floorFall_step env reg keys deltaTime p hlook hreg hF hy hvy hdt).2.1]
    simp
  | succ n ih =>
    obtain ⟨h1, h2, h3⟩ := floorFall_invariant env reg keys deltaTime p hlook hreg hF hy hvy hdt
      (n + 1)
    rw [Function.iterate_succ_apply',
      (floorFall_step env reg keys deltaTime _ h1 hreg hF h2 h3 hdt).2.1, ih]
    rw [max_fall_step _ _ _ hgd]
    push_cast
    have e : p.mVelocity.y + (↑n + 1) * (G * deltaTime) + G * deltaTime =
        p.mVelocity.y + (↑n + 1 + 1) * (G * deltaTime) := by ring
    rw [e]

/-- Claim C20: the floor clamp does not reset the vertical velocity.  For a player at
`position.y = 0` with `vy ≤ 0`, a registry that reports nothing solid (an empty level) and
`dt > 0`, every physics step leaves `position.y = 0` and `isOnGround` true and sets `vy` to
`max (vy + G * dt) (-PLAYER_MAX_FALLING_SPEED)` with `G = -0.0981`, a strictly negative
value; after the first step `vy` never increases from one step to the next (nor at the
first step when it starts at or above `-PLAYER_MAX_FALLING_SPEED`), and from some step on
it equals `-PLAYER_MAX_FALLING_SPEED`.  (The camera vectors are pitch-free and
`PLAYER_MAX_FALLING_SPEED` is positive.) -/
theorem C20_floor_clamp_keeps_falling_velocity [Archimedean K] (env : Env K)
    (reg : ColliderRegister K) (keys : Keyboard) (deltaTime : K) (p : Player K)
    (hlook : HorizontalLook env p.mCamera) (hreg : NoSolid reg)
    (hF : 0 < env.PLAYER_MAX_FALLING_SPEED) (hy : p.mPosition.y = 0) (hvy : p.mVelocity.y ≤ 0)
    (hdt : 0 < deltaTime) :
    (G : K) = -(981 / 10000) ∧
    (∀ n : ℕ,
      ((updatePhysics env reg keys deltaTime)^[n] p).mPosition.y = 0 ∧
      isOnGround ((updatePhysics env reg keys deltaTime)^[n] p) = true ∧
      ((updatePhysics env reg keys deltaTime)^[n + 1] p).mVelocity.y =
        max (((updatePhysics env reg keys deltaTime)^[n] p).mVelocity.y + G * deltaTime)
          (-env.PLAYER_MAX_FALLING_SPEED) ∧
      ((updatePhysics env reg keys deltaTime)^[n + 1] p).mVelocity.y < 0) ∧
    (∀ n : ℕ, 1 ≤ n →
      ((updatePhysics env reg keys deltaTime)^[n + 1] p).mVelocity.y ≤
        ((updatePhysics env reg keys deltaTime)^[n] p).mVelocity.y) ∧
    (-env.PLAYER_MAX_FALLING_SPEED ≤ p.mVelocity.y →
      (updatePhysics env reg keys deltaTime p).mVelocity.y ≤ p.mVelocity.y) ∧
    ∃ N : ℕ, ∀ n : ℕ, N ≤ n →
      ((updatePhysics env reg keys deltaTime)^[n] p).mVelocity.y =
        -env.PLAYER_MAX_FALLING_SPEED := by
  have hgd : G * deltaTime < 0 := mul_neg_of_neg_of_pos (G_neg (K := K)) hdt
  have hstep : ∀ n : ℕ,
      ((updatePhysics env reg keys deltaTime)^[n] p).mPosition.y = 0 ∧
      isOnGround ((updatePhysics env reg keys deltaTime)^[n] p) = true ∧
      ((updatePhysics env reg keys deltaTime)^[n + 1] p).mVelocity.y =
        max (((updatePhysics env reg keys deltaTime)^[n] p).mVelocity.y + G * deltaTime)
          (-env.PLAYER_MAX_FALLING_SPEED) ∧
      ((updatePhysics env reg keys deltaTime)^[n + 1] p).mVelocity.y < 0 := by
    intro n
    obtain ⟨h1, h2, h3⟩ := floorFall_invariant env reg keys deltaTime p hlook hreg hF hy hvy hdt n
    obtain ⟨_, s2, s3⟩ := floorFall_step env reg keys deltaTime _ h1 hreg hF h2 h3 hdt
    rw [Function.iterate_succ_apply']
    refine ⟨h2, ?_, s2, s3⟩
    simp [isOnGround, h2]
  refine ⟨by unfold G; norm_num, hstep, ?_, ?_, ?_⟩
  · intro n hn
    obtain ⟨m, rfl⟩ : ∃ m, n = m + 1 := ⟨n - 1, by omega⟩
    have hge : -env.PLAYER_MAX_FALLING_SPEED ≤
        ((updatePhysics env reg keys deltaTime)^[m + 1] p).mVelocity.y := by
      rw [(hstep m).2.2.1]
      exact le_max_right _ _
    rw [(hstep (m + 1)).2.2.1]
    exact max_le (by linarith) hge
  · intro h0
    have h1 := (hstep 0).2.2.1
    simp only [Function.iterate_succ_apply', Function.iterate_zero, id_eq] at h1
    rw [h1]
    exact max_le (by linarith) h0
  · obtain ⟨N, hN⟩ := Archimedean.arch (p.mVelocity.y + env.PLAYER_MAX_FALLING_SPEED)
      (show 0 < -(G * deltaTime) by linarith)
    refine ⟨N + 1, fun n hn => ?_⟩
    obtain ⟨m, rfl⟩ : ∃ m, n = m + 1 := ⟨n - 1, by omega⟩
    rw [floorFall_closed_form env reg keys deltaTime p hlook hreg hF hy hvy hdt m]
    apply max_eq_right
    have hNm : (N : K) ≤ (m : K) + 1 := by exact_mod_cast hn.trans' (Nat.le_succ N)
    rw [nsmul_eq_mul] at hN
    nlinarith

/-- Witness for C20: a player at rest at the origin of the empty level, no key held,
`dt = 1/60`: after one step `vy = max (0 + G/60) (-15)`, which is negative, and
`position.y = 0`. -/
theorem C20_floor_clamp_keeps_falling_velocity_witness :
    HorizontalLook exampleEnv (playerAt ⟨0, 0, 0⟩ ⟨0, 0, 0⟩).mCamera ∧
    NoSolid emptyRegister ∧ 0 < exampleEnv.PLAYER_MAX_FALLING_SPEED ∧
    (playerAt ⟨0, 0, 0⟩ ⟨0, 0, 0⟩).mPosition.y = 0 ∧
    (playerAt ⟨0, 0, 0⟩ ⟨0, 0, 0⟩).mVelocity.y ≤ 0 ∧ (0 : ℚ) < 1 / 60 ∧
    (updatePhysics exampleEnv emptyRegister noKeys (1 / 60)
      (playerAt ⟨0, 0, 0⟩ ⟨0, 0, 0⟩)).mVelocity.y = -(327 / 200000) ∧
    (updatePhysics exampleEnv emptyRegister noKeys (1 / 60)
      (playerAt ⟨0, 0, 0⟩ ⟨0, 0, 0⟩)).mPosition.y = 0 ∧
    ∃ N : ℕ, ∀ n : ℕ, N ≤ n →
      ((updatePhysics exampleEnv emptyRegister noKeys (1 / 60))^[n]
        (playerAt ⟨0, 0, 0⟩ ⟨0, 0, 0⟩)).mVelocity.y = -15 := by
  have hlook : HorizontalLook exampleEnv (playerAt ⟨0, 0, 0⟩ ⟨0, 0, 0⟩).mCamera := by
    refine ⟨rfl, rfl, ?_⟩
    intro v hv
    simp [exampleEnv, hv]
  have hreg : NoSolid emptyRegister := by
    intro q c hc
    simp [emptyRegister, ColliderRegister.ofColliders] at hc
  have hF : 0 < exampleEnv.PLAYER_MAX_FALLING_SPEED := by norm_num [exampleEnv]
  have hvy : (playerAt ⟨0, 0, 0⟩ ⟨0, 0, 0⟩).mVelocity.y ≤ 0 := le_refl _
  have hdt : (0 : ℚ) < 1 / 60 := by norm_num
  have t := C20_floor_clamp_keeps_falling_velocity exampleEnv emptyRegister noKeys (1 / 60)
    (playerAt ⟨0, 0, 0⟩ ⟨0, 0, 0⟩) hlook hreg hF rfl hvy hdt
  obtain ⟨_, ts, _, _, tN⟩ := t
  refine ⟨hlook, hreg, hF, rfl, hvy, hdt, ?_, ?_, tN⟩
  · have h1 := (ts 0).2.2.1
    simp only [Function.iterate_succ_apply', Function.iterate_zero, id_eq] at h1
    rw [h1]
    norm_num [playerAt, exampleEnv, G]
  · have h1 := (ts 1).1
    simpa only [Function.iterate_succ_apply', Function.iterate_zero, id_eq] using h1

end FloorFall

/-! ## The collider follows the position -/

section ColliderPosition

variable {K : Type} [LinearOrderedField K]

theorem updateColliderPosition_mCollider (p : Player K) :
    (updateColliderPosition p).mCollider =
      ⟨derivedColliderPosition p, p.mCollider.dimensions, p.mCollider.tag⟩ := rfl

theorem tryUpdate_of_false (reg : ColliderRegister K) (a : Axis) (p : Player K)
    (h : (tryUpdatePositionByApplyingVelocityIfCollisionAllows reg a p).1 = false) :
    (tryUpdatePositionByApplyingVelocityIfCollisionAllows reg a p).2 =
      updateColliderPosition { p with mVelocity := p.mVelocity.set a 0 } := by
  rcases tryUpdate_cases reg a p with h1 | h1
  · rw [h1]
  · rw [h1] at h
    exact absurd h (by simp)

theorem tryUpdate_of_true (reg : ColliderRegister K) (a : Axis) (p : Player K)
    (h : (tryUpdatePositionByApplyingVelocityIfCollisionAllows reg a p).1 = true) :
    (tryUpdatePositionByApplyingVelocityIfCollisionAllows reg a p).2 =
      updateColliderPosition
        { p with mPosition := p.mPosition.set a (p.mPosition.get a + p.mVelocity.get a) } := by
  rcases tryUpdate_cases reg a p with h1 | h1
  · rw [h1] at h
    exact absurd h (by simp)
  · rw [h1]

/-- The collision pass consults the registry at the tentative collider only. -/
theorem tryUpdate_query_local (reg reg2 : ColliderRegister K) (a : Axis) (p : Player K)
    (h : reg2.findCollisions (tentativeCollider a p) =
      reg.findCollisions (tentativeCollider a p)) :
    tryUpdatePositionByApplyingVelocityIfCollisionAllows reg2 a p =
      tryUpdatePositionByApplyingVelocityIfCollisionAllows reg a p := by
  unfold tentativeCollider at h
  simp only [tryUpdatePositionByApplyingVelocityIfCollisionAllows, h]

/-- After a collision pass the collider sits where the position puts it. -/
theorem tryUpdate_collider_derived (reg : ColliderRegister K) (a : Axis) (p : Player K) :
    (tryUpdatePositionByApplyingVelocityIfCollisionAllows reg a p).2.mCollider.position =
      derivedColliderPosition (tryUpdatePositionByApplyingVelocityIfCollisionAllows reg a p).2 ∧
    (tryUpdatePositionByApplyingVelocityIfCollisionAllows reg a p).2.mCollider.dimensions =
      p.mCollider.dimensions := by
  rcases tryUpdate_cases reg a p with h | h <;> rw [h] <;> exact ⟨rfl, rfl⟩

/-- Claim C16: the collider handed to the registry by a collision pass on any axis sits at
the position derived from the player position of that moment (the position with the
velocity component added): `(x - dimensions.x / 2, y, z - dimensions.z / 2)`; the pass asks
the registry about that collider only and leaves the collider at the position derived from
the position it leaves.  In `fixedUpdate` the Z query is made at the floor-clamped
`position.y`, and when `fixedUpdate` returns the collider position is the one derived from
the final position, its dimensions being those it started with. -/
theorem C16_collider_follows_position (env : Env K) (reg : ColliderRegister K)
    (keys : Keyboard) (deltaTime : K) (p : Player K) :
    (∀ (a : Axis) (q : Player K),
      (tentativeCollider a q).position =
        derivedColliderPosition
          { q with mPosition := q.mPosition.set a (q.mPosition.get a + q.mVelocity.get a) } ∧
      (tentativeCollider a q).dimensions = q.mCollider.dimensions ∧
      (∀ reg2 : ColliderRegister K,
        reg2.findCollisions (tentativeCollider a q) = reg.findCollisions (tentativeCollider a q) →
        tryUpdatePositionByApplyingVelocityIfCollisionAllows reg2 a q =
          tryUpdatePositionByApplyingVelocityIfCollisionAllows reg a q) ∧
      (tryUpdatePositionByApplyingVelocityIfCollisionAllows reg a q).2.mCollider.position =
        derivedColliderPosition (tryUpdatePositionByApplyingVelocityIfCollisionAllows reg a q).2) ∧
    ((tentativeCollider Axis.z
        (afterFloorClamp env reg keys deltaTime (updateColliderPosition p))).position.y =
      (afterFloorClamp env reg keys deltaTime (updateColliderPosition p)).mPosition.y ∧
     0 ≤ (tentativeCollider Axis.z
        (afterFloorClamp env reg keys deltaTime (updateColliderPosition p))).position.y) ∧
    (fixedUpdate env reg keys deltaTime p).mCollider.position =
      derivedColliderPosition (fixedUpdate env reg keys deltaTime p) ∧
    (fixedUpdate env reg keys deltaTime p).mCollider.position =
      ⟨(fixedUpdate env reg keys deltaTime p).mPosition.x - p.mCollider.dimensions.x / 2,
       (fixedUpdate env reg keys deltaTime p).mPosition.y,
       (fixedUpdate env reg keys deltaTime p).mPosition.z - p.mCollider.dimensions.z / 2⟩ ∧
    (fixedUpdate env reg keys deltaTime p).mCollider.position.y =
      (afterFloorClamp env reg keys deltaTime (updateColliderPosition p)).mPosition.y ∧
    (fixedUpdate env reg keys deltaTime p).mCollider.dimensions = p.mCollider.dimensions := by
  have hzq : (tentativeCollider Axis.z
      (afterFloorClamp env reg keys deltaTime (updateColliderPosition p))).position.y =
      (afterFloorClamp env reg keys deltaTime (updateColliderPosition p)).mPosition.y := rfl
  have hfin := tryUpdate_collider_derived reg Axis.z
    (afterFloorClamp env reg keys deltaTime (updateColliderPosition p))
  have hdim : (afterFloorClamp env reg keys deltaTime (updateColliderPosition p)).mCollider.dimensions
      = p.mCollider.dimensions := by
    have h1 := (tryUpdate_collider_derived reg Axis.y
      (afterXPass env reg keys deltaTime (updateColliderPosition p))).2
    have h2 := (tryUpdate_collider_derived reg Axis.x
      (afterVelocityPhases env keys deltaTime (updateColliderPosition p))).2
    rw [(afterVelocityPhases_frame env keys deltaTime (updateColliderPosition p)).2.2.1] at h2
    unfold afterFloorClamp afterYPass yPass
    dsimp only
    split_ifs
    · rw [h1]; unfold afterXPass; rw [h2]; rfl
    · rw [h1]; unfold afterXPass; rw [h2]; rfl
  have hy := tryUpdate_mPosition_other reg (a := Axis.z) (b := Axis.y) (by decide)
    (afterFloorClamp env reg keys deltaTime (updateColliderPosition p))
  simp only [Vec3.get] at hy
  have hfd : (fixedUpdate env reg keys deltaTime p).mCollider.dimensions = p.mCollider.dimensions := by
    unfold fixedUpdate
    rw [updatePhysics_eq, hfin.2, hdim]
  have hfp : (fixedUpdate env reg keys deltaTime p).mCollider.position =
      derivedColliderPosition (fixedUpdate env reg keys deltaTime p) := by
    unfold fixedUpdate
    rw [updatePhysics_eq]
    exact hfin.1
  refine ⟨fun a q => ⟨rfl, rfl, fun reg2 h => tryUpdate_query_local reg reg2 a q h,
    (tryUpdate_collider_derived reg a q).1⟩, ⟨hzq, ?_⟩, hfp, ?_, ?_, hfd⟩
  · rw [hzq]
    exact afterFloorClamp_y_nonneg env reg keys deltaTime _
  · rw [hfp]
    unfold derivedColliderPosition
    rw [hfd]
  · rw [hfp]
    unfold derivedColliderPosition fixedUpdate
    dsimp only
    rw [updatePhysics_eq, hy]

end ColliderPosition

/-! ## Axis order and wall sliding -/

section AxisOrder

variable {K : Type} [LinearOrderedField K]

/-- Claim C19: `updatePhysics` is the X pass, then the Y pass with the flag assignment and
the floor clamp, then the Z pass, each pass working on the player the earlier ones left.
When the X move is blocked and the Y and Z moves are clear, the final position is
`(x0, max (y0 + vy) 0, z0 + vz)` and the final velocity `(0, vy, vz)`, where
`(vx, vy, vz)` is the velocity after the clamp phase; the Y query is made at
`(x0, y0 + vy, z0)` and the Z query at `(x0, max (y0 + vy) 0, z0 + vz)`. -/
theorem C19_blocked_axis_does_not_stop_the_others (env : Env K) (reg : ColliderRegister K)
    (keys : Keyboard) (deltaTime : K) (p : Player K)
    (hx : (tryUpdatePositionByApplyingVelocityIfCollisionAllows reg Axis.x
      (afterVelocityPhases env keys deltaTime p)).1 = false)
    (hy : (yPass env reg keys deltaTime p).1 = true)
    (hz : (tryUpdatePositionByApplyingVelocityIfCollisionAllows reg Axis.z
      (afterFloorClamp env reg keys deltaTime p)).1 = true) :
    updatePhysics env reg keys deltaTime p =
      (tryUpdatePositionByApplyingVelocityIfCollisionAllows reg Axis.z
        (afterFloorClamp env reg keys deltaTime p)).2 ∧
    yPass env reg keys deltaTime p =
      tryUpdatePositionByApplyingVelocityIfCollisionAllows reg Axis.y
        (tryUpdatePositionByApplyingVelocityIfCollisionAllows reg Axis.x
          (afterVelocityPhases env keys deltaTime p)).2 ∧
    (updatePhysics env reg keys deltaTime p).mPosition =
      ⟨p.mPosition.x,
       max (p.mPosition.y + (afterVelocityPhases env keys deltaTime p).mVelocity.y) 0,
       p.mPosition.z + (afterVelocityPhases env keys deltaTime p).mVelocity.z⟩ ∧
    (updatePhysics env reg keys deltaTime p).mVelocity =
      ⟨0, (afterVelocityPhases env keys deltaTime p).mVelocity.y,
        (afterVelocityPhases env keys deltaTime p).mVelocity.z⟩ ∧
    (tentativeCollider Axis.y (afterXPass env reg keys deltaTime p)).position =
      ⟨p.mPosition.x - p.mCollider.dimensions.x / 2,
       p.mPosition.y + (afterVelocityPhases env keys deltaTime p).mVelocity.y,
       p.mPosition.z - p.mCollider.dimensions.z / 2⟩ ∧
    (tentativeCollider Axis.z (afterFloorClamp env reg keys deltaTime p)).position =
      ⟨p.mPosition.x - p.mCollider.dimensions.x / 2,
       max (p.mPosition.y + (afterVelocityPhases env keys deltaTime p).mVelocity.y) 0,
       p.mPosition.z + (afterVelocityPhases env keys deltaTime p).mVelocity.z -
         p.mCollider.dimensions.z / 2⟩ := by
  obtain ⟨fp, _, fc, _⟩ := afterVelocityPhases_frame env keys deltaTime p
  have e2 : afterXPass env reg keys deltaTime p =
      updateColliderPosition { afterVelocityPhases env keys deltaTime p with
        mVelocity := (afterVelocityPhases env keys deltaTime p).mVelocity.set Axis.x 0 } :=
    tryUpdate_of_false reg Axis.x _ hx
  have e3 : (yPass env reg keys deltaTime p).2 =
      updateColliderPosition { afterXPass env reg keys deltaTime p with
        mPosition := (afterXPass env reg keys deltaTime p).mPosition.set Axis.y
          ((afterXPass env reg keys deltaTime p).mPosition.get Axis.y +
            (afterXPass env reg keys deltaTime p).mVelocity.get Axis.y) } :=
    tryUpdate_of_true reg Axis.y _ hy
  have e4p : (afterFloorClamp env reg keys deltaTime p).mPosition =
      ⟨p.mPosition.x,
       max (p.mPosition.y + (afterVelocityPhases env keys deltaTime p).mVelocity.y) 0,
       p.mPosition.z⟩ := by
    unfold afterFloorClamp afterYPass
    rw [e3, e2]
    simp only [updateColliderPosition_mPosition, updateColliderPosition_mVelocity, Vec3.set,
      Vec3.get, fp]
    split_ifs with h
    · rw [max_eq_right (le_of_lt h)]
    · rw [max_eq_left (not_lt.mp h)]
  have e4v : (afterFloorClamp env reg keys deltaTime p).mVelocity =
      ⟨0, (afterVelocityPhases env keys deltaTime p).mVelocity.y,
        (afterVelocityPhases env keys deltaTime p).mVelocity.z⟩ := by
    rw [afterFloorClamp_mVelocity, e3, e2]
    rfl
  have e4c : (afterFloorClamp env reg keys deltaTime p).mCollider.dimensions =
      p.mCollider.dimensions := by
    unfold afterFloorClamp afterYPass
    rw [e3, e2]
    split_ifs <;> simp only [updateColliderPosition, fc]
  refine ⟨rfl, rfl, ?_, ?_, ?_, ?_⟩
  · rw [updatePhysics_eq, tryUpdate_of_true reg Axis.z _ hz]
    simp only [updateColliderPosition_mPosition, Vec3.set, Vec3.get, e4p, e4v]
  · rw [updatePhysics_eq, tryUpdate_of_true reg Axis.z _ hz]
    simp only [updateColliderPosition_mVelocity, e4v]
  · unfold tentativeCollider
    rw [updateColliderPosition_mCollider, e2]
    simp only [derivedColliderPosition, updateColliderPosition, Vec3.set, Vec3.get, fp, fc]
  · unfold tentativeCollider
    rw [updateColliderPosition_mCollider]
    simp only [derivedColliderPosition, Vec3.set, Vec3.get, e4p, e4v, e4c]

/-! ### Sliding along the wall, stage by stage -/

theorem wall_velocityPhases :
    afterVelocityPhases exampleEnv noKeys (1 / 60) (playerAt ⟨0, 0, 0⟩ ⟨1 / 10, 0, 1 / 20⟩) =
      playerAt ⟨0, 0, 0⟩ ⟨1 / 12, -(327 / 200000), 3 / 70⟩ := by
  simp [afterVelocityPhases, handleMovementKeyboardInputs, noKeys, manageWalkingSounds, playerAt,
    Sound.getStatus, exampleEnv, decelerateVelocity, manageVerticalVelocity, limitVelocity,
    limitVelocitySpeed, G]
  norm_num

theorem wall_xPass_blocked :
    tryUpdatePositionByApplyingVelocityIfCollisionAllows wallRegister Axis.x
        (playerAt ⟨0, 0, 0⟩ ⟨1 / 12, -(327 / 200000), 3 / 70⟩) =
      (false, updateColliderPosition (playerAt ⟨0, 0, 0⟩ ⟨0, -(327 / 200000), 3 / 70⟩)) := by
  rw [tryUpdate_blocked]
  · simp [playerAt, Vec3.set]
  · refine ⟨boxAhead ColliderTag.Solid, ?_, rfl⟩
    simp [wallRegister, ColliderRegister.ofColliders, tentativeCollider, updateColliderPosition,
      playerAt, boxAhead, Collider.overlaps, Vec3.set, Vec3.get, Vec3.sub, Vec3.divScalar]
    norm_num

theorem wall_yPass_clear :
    tryUpdatePositionByApplyingVelocityIfCollisionAllows wallRegister Axis.y
        (updateColliderPosition (playerAt ⟨0, 0, 0⟩ ⟨0, -(327 / 200000), 3 / 70⟩)) =
      (true, updateColliderPosition
        (playerAt ⟨0, -(327 / 200000), 0⟩ ⟨0, -(327 / 200000), 3 / 70⟩)) := by
  rw [tryUpdate_clear]
  · simp [playerAt, Vec3.set, Vec3.get, updateColliderPosition]
  · simp [wallRegister, ColliderRegister.ofColliders, tentativeCollider, updateColliderPosition,
      playerAt, boxAhead, Collider.overlaps, Vec3.set, Vec3.get, Vec3.sub, Vec3.divScalar]
    norm_num

theorem wall_floorClamp :
    afterFloorClamp exampleEnv wallRegister noKeys (1 / 60)
        (playerAt ⟨0, 0, 0⟩ ⟨1 / 10, 0, 1 / 20⟩) =
      { updateColliderPosition
          (playerAt ⟨0, -(327 / 200000), 0⟩ ⟨0, -(327 / 200000), 3 / 70⟩) with
        mPosition := ⟨0, 0, 0⟩ } := by
  unfold afterFloorClamp afterYPass yPass afterXPass
  rw [wall_velocityPhases, wall_xPass_blocked, wall_yPass_clear]
  have hneg : (-(327 / 200000) : ℚ) < 0 := by norm_num
  simp [updateColliderPosition, playerAt, hneg]

theorem wall_zPass_clear :
    (tryUpdatePositionByApplyingVelocityIfCollisionAllows wallRegister Axis.z
      (afterFloorClamp exampleEnv wallRegister noKeys (1 / 60)
        (playerAt ⟨0, 0, 0⟩ ⟨1 / 10, 0, 1 / 20⟩))).1 = true := by
  rw [wall_floorClamp, tryUpdate_clear]
  simp [wallRegister, ColliderRegister.ofColliders, tentativeCollider, updateColliderPosition,
    playerAt, boxAhead, Collider.overlaps, Vec3.set, Vec3.get, Vec3.sub, Vec3.divScalar]
  norm_num

/-- Witness for C19: a player at the origin moving with velocity `(1/10, 0, 1/20)` towards
the solid wall that starts at `x = 1/4`: the X move is blocked, the Y and Z moves are
clear, and the step ends at `(0, 0, 3/70)` with velocity `(0, -327/200000, 3/70)`. -/
theorem C19_blocked_axis_does_not_stop_the_others_witness :
    (tryUpdatePositionByApplyingVelocityIfCollisionAllows wallRegister Axis.x
      (afterVelocityPhases exampleEnv noKeys (1 / 60)
        (playerAt ⟨0, 0, 0⟩ ⟨1 / 10, 0, 1 / 20⟩))).1 = false ∧
    (yPass exampleEnv wallRegister noKeys (1 / 60)
      (playerAt ⟨0, 0, 0⟩ ⟨1 / 10, 0, 1 / 20⟩)).1 = true ∧
    (tryUpdatePositionByApplyingVelocityIfCollisionAllows wallRegister Axis.z
      (afterFloorClamp exampleEnv wallRegister noKeys (1 / 60)
        (playerAt ⟨0, 0, 0⟩ ⟨1 / 10, 0, 1 / 20⟩))).1 = true ∧
    (updatePhysics exampleEnv wallRegister noKeys (1 / 60)
      (playerAt ⟨0, 0, 0⟩ ⟨1 / 10, 0, 1 / 20⟩)).mPosition = ⟨0, 0, 3 / 70⟩ ∧
    (updatePhysics exampleEnv wallRegister noKeys (1 / 60)
      (playerAt ⟨0, 0, 0⟩ ⟨1 / 10, 0, 1 / 20⟩)).mVelocity = ⟨0, -(327 / 200000), 3 / 70⟩ := by
  have hx : (tryUpdatePositionByApplyingVelocityIfCollisionAllows wallRegister Axis.x
      (afterVelocityPhases exampleEnv noKeys (1 / 60)
        (playerAt ⟨0, 0, 0⟩ ⟨1 / 10, 0, 1 / 20⟩))).1 = false := by
    rw [wall_velocityPhases, wall_xPass_blocked]
  have hy : (yPass exampleEnv wallRegister noKeys (1 / 60)
      (playerAt ⟨0, 0, 0⟩ ⟨1 / 10, 0, 1 / 20⟩)).1 = true := by
    unfold yPass afterXPass
    rw [wall_velocityPhases, wall_xPass_blocked, wall_yPass_clear]
  have t := C19_blocked_axis_does_not_stop_the_others exampleEnv wallRegister noKeys (1 / 60)
    (playerAt ⟨0, 0, 0⟩ ⟨1 / 10, 0, 1 / 20⟩) hx hy wall_zPass_clear
  obtain ⟨_, _, tp, tv, _, _⟩ := t
  rw [wall_velocityPhases] at tp tv
  refine ⟨hx, hy, wall_zPass_clear, ?_, ?_⟩
  · rw [tp]
    norm_num [playerAt]
  · rw [tv]
    simp [playerAt]

end AxisOrder

/-! ## Overlap with solid geometry -/

section NoClipping

variable {K : Type} [LinearOrderedField K]

/-- Whether the player overlaps something solid depends on its position and on the
dimensions and tag of its collider only. -/
theorem overlapsSolid_congr (reg : ColliderRegister K) (p q : Player K)
    (hp : q.mPosition = p.mPosition) (hd : q.mCollider.dimensions = p.mCollider.dimensions)
    (ht : q.mCollider.tag = p.mCollider.tag) :
    overlapsSolid reg q ↔ overlapsSolid reg p := by
  unfold overlapsSolid
  rw [updateColliderPosition_mCollider, updateColliderPosition_mCollider]
  unfold derivedColliderPosition
  rw [hp, hd, ht]

/-- A collision pass never moves a player that is free of solid geometry into it. -/
theorem tryUpdate_preserves_free (reg : ColliderRegister K) (a : Axis) (p : Player K)
    (h : ¬ overlapsSolid reg p) :
    ¬ overlapsSolid reg (tryUpdatePositionByApplyingVelocityIfCollisionAllows reg a p).2 := by
  by_cases hs : ∃ c ∈ reg.findCollisions (tentativeCollider a p), c.tag = ColliderTag.Solid
  · rw [tryUpdate_blocked reg a p hs]
    intro h2
    exact h ((overlapsSolid_congr reg p _ rfl rfl rfl).mp h2)
  · rw [tryUpdate_clear reg a p (by push_neg at hs; exact hs)]
    intro h2
    exact hs h2

theorem tryUpdate_collider_tag (reg : ColliderRegister K) (a : Axis) (p : Player K) :
    (tryUpdatePositionByApplyingVelocityIfCollisionAllows reg a p).2.mCollider.tag =
      p.mCollider.tag := by
  rcases tryUpdate_cases reg a p with h | h <;> rw [h] <;> rfl

/-- A physics step changes neither the dimensions nor the tag of the player's collider. -/
theorem updatePhysics_collider_shape (env : Env K) (reg : ColliderRegister K) (keys : Keyboard)
    (deltaTime : K) (p : Player K) :
    (updatePhysics env reg keys deltaTime p).mCollider.dimensions = p.mCollider.dimensions ∧
    (updatePhysics env reg keys deltaTime p).mCollider.tag = p.mCollider.tag := by
  obtain ⟨_, _, fc, _⟩ := afterVelocityPhases_frame env keys deltaTime p
  have h1 : (afterFloorClamp env reg keys deltaTime p).mCollider =
      (yPass env reg keys deltaTime p).2.mCollider := by
    unfold afterFloorClamp afterYPass
    split_ifs <;> rfl
  rw [updatePhysics_eq, (tryUpdate_collider_derived reg Axis.z _).2, tryUpdate_collider_tag, h1]
  unfold yPass
  rw [(tryUpdate_collider_derived reg Axis.y _).2, tryUpdate_collider_tag]
  unfold afterXPass
  rw [(tryUpdate_collider_derived reg Axis.x _).2, tryUpdate_collider_tag, fc]
  exact ⟨rfl, rfl⟩

/-- Up to the floor clamp, a physics step keeps a player free of solid geometry. -/
theorem afterYPass_preserves_free (env : Env K) (reg : ColliderRegister K) (keys : Keyboard)
    (deltaTime : K) (p : Player K) (h : ¬ overlapsSolid reg p) :
    ¬ overlapsSolid reg (afterYPass env reg keys deltaTime p) := by
  obtain ⟨fp, _, fc, _⟩ := afterVelocityPhases_frame env keys deltaTime p
  have h1 : ¬ overlapsSolid reg (afterVelocityPhases env keys deltaTime p) := fun h2 =>
    h ((overlapsSolid_congr reg p _ fp (by rw [fc]) (by rw [fc])).mp h2)
  have h2 : ¬ overlapsSolid reg (afterXPass env reg keys deltaTime p) :=
    tryUpdate_preserves_free reg Axis.x _ h1
  have h3 : ¬ overlapsSolid reg (yPass env reg keys deltaTime p).2 :=
    tryUpdate_preserves_free reg Axis.y _ h2
  intro h4
  exact h3 ((overlapsSolid_congr reg (yPass env reg keys deltaTime p).2
    (afterYPass env reg keys deltaTime p) rfl rfl rfl).mp h4)

theorem Vec3.eq_of_components {F : Type} (a b : Vec3 F) (hx : a.x = b.x) (hy : a.y = b.y)
    (hz : a.z = b.z) : a = b := by
  cases a
  cases b
  simp_all

/-- The position a physics step ends in overlaps something solid exactly when the position
the floor clamp produced does and the Z move is blocked (and so reverted to it). -/
theorem updatePhysics_overlap_iff (env : Env K) (reg : ColliderRegister K) (keys : Keyboard)
    (deltaTime : K) (p : Player K) :
    overlapsSolid reg (updatePhysics env reg keys deltaTime p) ↔
      (overlapsSolid reg (afterFloorClamp env reg keys deltaTime p) ∧
       (tryUpdatePositionByApplyingVelocityIfCollisionAllows reg Axis.z
         (afterFloorClamp env reg keys deltaTime p)).1 = false) := by
  rw [updatePhysics_eq]
  by_cases hs : ∃ c ∈ reg.findCollisions
      (tentativeCollider Axis.z (afterFloorClamp env reg keys deltaTime p)),
      c.tag = ColliderTag.Solid
  · rw [tryUpdate_blocked reg Axis.z _ hs]
    constructor
    · intro h
      exact ⟨(overlapsSolid_congr reg (afterFloorClamp env reg keys deltaTime p) _ rfl rfl
        rfl).mp h, rfl⟩
    · intro h
      exact (overlapsSolid_congr reg (afterFloorClamp env reg keys deltaTime p) _ rfl rfl
        rfl).mpr h.1
  · have hs2 : ∀ c ∈ reg.findCollisions
        (tentativeCollider Axis.z (afterFloorClamp env reg keys deltaTime p)),
        c.tag ≠ ColliderTag.Solid := by
      push_neg at hs
      exact hs
    rw [tryUpdate_clear reg Axis.z _ hs2]
    constructor
    · intro h
      exact absurd h hs
    · intro h
      exact absurd h.2 (by simp)

/-- The position the floor clamp produces is free of solid geometry when the step starts
free on the floor plane: the clamp then puts the player back at the height it had when the
X pass ended. -/
theorem afterFloorClamp_free_of_floor_start (env : Env K) (reg : ColliderRegister K)
    (keys : Keyboard) (deltaTime : K) (p : Player K) (hfree : ¬ overlapsSolid reg p)
    (hy : p.mPosition.y = 0) :
    ¬ overlapsSolid reg (afterFloorClamp env reg keys deltaTime p) := by
  by_cases hc : (afterYPass env reg keys deltaTime p).mPosition.y < 0
  · obtain ⟨fp, _, fc, _⟩ := afterVelocityPhases_frame env keys deltaTime p
    have h1 : ¬ overlapsSolid reg (afterVelocityPhases env keys deltaTime p) := fun h2 =>
      hfree ((overlapsSolid_congr reg p _ fp (by rw [fc]) (by rw [fc])).mp h2)
    have h2 : ¬ overlapsSolid reg (afterXPass env reg keys deltaTime p) :=
      tryUpdate_preserves_free reg Axis.x _ h1
    have yx := tryUpdate_mPosition_other reg (a := Axis.y) (b := Axis.x) (by decide)
      (afterXPass env reg keys deltaTime p)
    have yz := tryUpdate_mPosition_other reg (a := Axis.y) (b := Axis.z) (by decide)
      (afterXPass env reg keys deltaTime p)
    simp only [Vec3.get] at yx yz
    have hpos : (afterFloorClamp env reg keys deltaTime p).mPosition =
        (afterXPass env reg keys deltaTime p).mPosition := by
      unfold afterFloorClamp
      rw [if_pos hc]
      apply Vec3.eq_of_components
      · exact yx
      · rw [(afterXPass_y env reg keys deltaTime p).1, hy]
      · exact yz
    have hcol : (afterFloorClamp env reg keys deltaTime p).mCollider =
        (yPass env reg keys deltaTime p).2.mCollider := by
      unfold afterFloorClamp afterYPass
      split_ifs <;> rfl
    intro h3
    refine h2 ((overlapsSolid_congr reg (afterXPass env reg keys deltaTime p) _ hpos ?_ ?_).mp h3)
    · rw [hcol]
      exact (tryUpdate_collider_derived reg Axis.y _).2
    · rw [hcol]
      exact tryUpdate_collider_tag reg Axis.y _
  · have h1 : afterFloorClamp env reg keys deltaTime p = afterYPass env reg keys deltaTime p := by
      unfold afterFloorClamp
      rw [if_neg hc]
    rw [h1]
    exact afterYPass_preserves_free env reg keys deltaTime p hfree

/-- Claim C17 as amended: when the player's collider overlaps nothing solid before a physics
step, then for every velocity, time step and key state it overlaps nothing solid at the
position the step leaves the player in, with one exception only: the floor clamp changed
`position.y` (the Y pass left it negative), the position the clamp produced, which is taken
without a query, overlaps something solid, and the Z move is blocked and so reverts to that
position; in exactly that case the player is left overlapping.  In particular there is no
clipping in any step that starts on the floor plane (`position.y = 0`), in any step whose
floor clamp leaves `position.y` unchanged, and in any step whose clamped position is free,
whether the moves on the three axes were clear or blocked. -/
theorem C17_no_clipping_except_unqueried_floor_clamp (env : Env K) (reg : ColliderRegister K)
    (keys : Keyboard) (deltaTime : K) (p : Player K) (hfree : ¬ overlapsSolid reg p) :
    (overlapsSolid reg (updatePhysics env reg keys deltaTime p) ↔
      ((yPass env reg keys deltaTime p).2.mPosition.y < 0 ∧
       overlapsSolid reg (afterFloorClamp env reg keys deltaTime p) ∧
       (tryUpdatePositionByApplyingVelocityIfCollisionAllows reg Axis.z
         (afterFloorClamp env reg keys deltaTime p)).1 = false)) ∧
    (p.mPosition.y = 0 → ¬ overlapsSolid reg (updatePhysics env reg keys deltaTime p)) ∧
    (0 ≤ (yPass env reg keys deltaTime p).2.mPosition.y →
      ¬ overlapsSolid reg (updatePhysics env reg keys deltaTime p)) ∧
    (¬ overlapsSolid reg (afterFloorClamp env reg keys deltaTime p) →
      ¬ overlapsSolid reg (updatePhysics env reg keys deltaTime p)) := by
  have hno : 0 ≤ (yPass env reg keys deltaTime p).2.mPosition.y →
      ¬ overlapsSolid reg (afterFloorClamp env reg keys deltaTime p) := by
    intro hclamp
    have h1 : afterFloorClamp env reg keys deltaTime p = afterYPass env reg keys deltaTime p := by
      unfold afterFloorClamp
      rw [if_neg]
      exact not_lt.mpr hclamp
    rw [h1]
    exact afterYPass_preserves_free env reg keys deltaTime p hfree
  have hiff := updatePhysics_overlap_iff env reg keys deltaTime p
  refine ⟨?_, ?_, ?_, ?_⟩
  · rw [hiff]
    constructor
    · intro h
      refine ⟨?_, h.1, h.2⟩
      by_contra hge
      exact hno (not_lt.mp hge) h.1
    · intro h
      exact ⟨h.2.1, h.2.2⟩
  · intro hy h
    exact afterFloorClamp_free_of_floor_start env reg keys deltaTime p hfree hy (hiff.mp h).1
  · intro hclamp h
    exact hno hclamp (hiff.mp h).1
  · intro hafc h
    exact hafc (hiff.mp h).1

/-! ### A fast fall onto a thin platform, stage by stage -/

theorem platform_velocityPhases :
    afterVelocityPhases exampleEnv noKeys (1 / 60) (playerAt ⟨0, 1 / 5, 0⟩ ⟨0, -1, 0⟩) =
      playerAt ⟨0, 1 / 5, 0⟩ ⟨0, -(200327 / 200000), 0⟩ := by
  simp [afterVelocityPhases, handleMovementKeyboardInputs, noKeys, manageWalkingSounds, playerAt,
    Sound.getStatus, exampleEnv, decelerateVelocity, manageVerticalVelocity, limitVelocity,
    limitVelocitySpeed, G]
  norm_num

theorem platform_free_at_start :
    ¬ overlapsSolid platformRegister (playerAt ⟨0, 1 / 5, 0⟩ ⟨0, -1, 0⟩) := by
  simp [overlapsSolid, platformRegister, ColliderRegister.ofColliders, updateColliderPosition,
    playerAt, Collider.overlaps, Vec3.sub, Vec3.divScalar]
  norm_num

theorem platform_xPass :
    tryUpdatePositionByApplyingVelocityIfCollisionAllows platformRegister Axis.x
        (playerAt ⟨0, 1 / 5, 0⟩ ⟨0, -(200327 / 200000), 0⟩) =
      (true, updateColliderPosition (playerAt ⟨0, 1 / 5, 0⟩ ⟨0, -(200327 / 200000), 0⟩)) := by
  rw [tryUpdate_clear]
  · simp [playerAt, Vec3.set, Vec3.get]
  · simp [platformRegister, ColliderRegister.ofColliders, tentativeCollider,
      updateColliderPosition, playerAt, Collider.overlaps, Vec3.set, Vec3.get, Vec3.sub,
      Vec3.divScalar]
    norm_num

theorem platform_yPass :
    tryUpdatePositionByApplyingVelocityIfCollisionAllows platformRegister Axis.y
        (updateColliderPosition (playerAt ⟨0, 1 / 5, 0⟩ ⟨0, -(200327 / 200000), 0⟩)) =
      (true, updateColliderPosition
        (playerAt ⟨0, -(160327 / 200000), 0⟩ ⟨0, -(200327 / 200000), 0⟩)) := by
  rw [tryUpdate_clear]
  · simp [playerAt, Vec3.set, Vec3.get, updateColliderPosition]
    norm_num
  · simp [platformRegister, ColliderRegister.ofColliders, tentativeCollider,
      updateColliderPosition, playerAt, Collider.overlaps, Vec3.set, Vec3.get, Vec3.sub,
      Vec3.divScalar]
    norm_num

theorem platform_floorClamp :
    afterFloorClamp exampleEnv platformRegister noKeys (1 / 60)
        (playerAt ⟨0, 1 / 5, 0⟩ ⟨0, -1, 0⟩) =
      { updateColliderPosition
          (playerAt ⟨0, -(160327 / 200000), 0⟩ ⟨0, -(200327 / 200000), 0⟩) with
        mPosition := ⟨0, 0, 0⟩ } := by
  unfold afterFloorClamp afterYPass yPass afterXPass
  rw [platform_velocityPhases, platform_xPass, platform_yPass]
  have hneg : (-(160327 / 200000) : ℚ) < 0 := by norm_num
  simp [updateColliderPosition, playerAt, hneg]

theorem platform_final_position :
    (updatePhysics exampleEnv platformRegister noKeys (1 / 60)
      (playerAt ⟨0, 1 / 5, 0⟩ ⟨0, -1, 0⟩)).mPosition = ⟨0, 0, 0⟩ := by
  rw [updatePhysics_eq, platform_floorClamp]
  rcases tryUpdate_cases platformRegister Axis.z
    { updateColliderPosition
        (playerAt ⟨0, -(160327 / 200000), 0⟩ ⟨0, -(200327 / 200000), 0⟩) with
      mPosition := ⟨0, 0, 0⟩ } with h | h <;> rw [h] <;>
    simp [updateColliderPosition, playerAt, Vec3.set, Vec3.get]

/-- Claim C17 fails on the code: a player at height `1/5`, free of solid geometry, falling
with `vy = -1` towards a thin solid platform that occupies `1/20 ≤ y ≤ 3/20`.  The Y move
to height `-160327/200000` is clear (the player is then wholly below the platform), the
floor clamp lifts the player to `y = 0` without a query, and the step leaves the player at
`(0, 0, 0)`, where its collider (`0 ≤ y ≤ 4/5`) overlaps the platform. -/
theorem C17_floor_clamp_moves_into_solid :
    ¬ overlapsSolid platformRegister (playerAt ⟨0, 1 / 5, 0⟩ ⟨0, -1, 0⟩) ∧
    (yPass exampleEnv platformRegister noKeys (1 / 60)
      (playerAt ⟨0, 1 / 5, 0⟩ ⟨0, -1, 0⟩)).1 = true ∧
    (updatePhysics exampleEnv platformRegister noKeys (1 / 60)
      (playerAt ⟨0, 1 / 5, 0⟩ ⟨0, -1, 0⟩)).mPosition = ⟨0, 0, 0⟩ ∧
    overlapsSolid platformRegister
      (updatePhysics exampleEnv platformRegister noKeys (1 / 60)
        (playerAt ⟨0, 1 / 5, 0⟩ ⟨0, -1, 0⟩)) := by
  refine ⟨platform_free_at_start, ?_, platform_final_position, ?_⟩
  · unfold yPass afterXPass
    rw [platform_velocityPhases, platform_xPass, platform_yPass]
  · obtain ⟨hd, ht⟩ := updatePhysics_collider_shape exampleEnv platformRegister noKeys (1 / 60)
      (playerAt ⟨0, 1 / 5, 0⟩ ⟨0, -1, 0⟩)
    rw [overlapsSolid_congr platformRegister (playerAt ⟨0, 0, 0⟩ ⟨0, 0, 0⟩) _
      platform_final_position hd ht]
    refine ⟨⟨⟨-1, 1 / 20, -1⟩, ⟨2, 1 / 10, 2⟩, ColliderTag.Solid⟩, ?_, rfl⟩
    simp [platformRegister, ColliderRegister.ofColliders, updateColliderPosition, playerAt,
      Collider.overlaps, Vec3.sub, Vec3.divScalar]
    norm_num

/-- Witness for the amended C17: a step that starts on the floor plane and in which the
floor clamp fires.  The player at the origin, free of the solid wall, slides along it (X
move blocked, Y move clear down to `y = -327/200000`, clamp back to `0`, Z move clear) and
ends free of the wall. -/
theorem C17_no_clipping_except_unqueried_floor_clamp_witness :
    ¬ overlapsSolid wallRegister (playerAt ⟨0, 0, 0⟩ ⟨1 / 10, 0, 1 / 20⟩) ∧
    (playerAt ⟨0, 0, 0⟩ ⟨1 / 10, 0, 1 / 20⟩).mPosition.y = 0 ∧
    (yPass exampleEnv wallRegister noKeys (1 / 60)
      (playerAt ⟨0, 0, 0⟩ ⟨1 / 10, 0, 1 / 20⟩)).2.mPosition.y < 0 ∧
    (updatePhysics exampleEnv wallRegister noKeys (1 / 60)
      (playerAt ⟨0, 0, 0⟩ ⟨1 / 10, 0, 1 / 20⟩)).mPosition.y = 0 ∧
    ¬ overlapsSolid wallRegister
      (updatePhysics exampleEnv wallRegister noKeys (1 / 60)
        (playerAt ⟨0, 0, 0⟩ ⟨1 / 10, 0, 1 / 20⟩)) := by
  have hfree : ¬ overlapsSolid wallRegister (playerAt ⟨0, 0, 0⟩ ⟨1 / 10, 0, 1 / 20⟩) := by
    simp [overlapsSolid, wallRegister, ColliderRegister.ofColliders, updateColliderPosition,
      playerAt, boxAhead, Collider.overlaps, Vec3.sub, Vec3.divScalar]
    norm_num
  have hfire : (yPass exampleEnv wallRegister noKeys (1 / 60)
      (playerAt ⟨0, 0, 0⟩ ⟨1 / 10, 0, 1 / 20⟩)).2.mPosition.y < 0 := by
    unfold yPass afterXPass
    rw [wall_velocityPhases, wall_xPass_blocked, wall_yPass_clear]
    norm_num [updateColliderPosition, playerAt]
  have hend : (updatePhysics exampleEnv wallRegister noKeys (1 / 60)
      (playerAt ⟨0, 0, 0⟩ ⟨1 / 10, 0, 1 / 20⟩)).mPosition.y = 0 := by
    rw [updatePhysics_mPosition_y, if_pos hfire]
  exact ⟨hfree, rfl, hfire, hend,
    (C17_no_clipping_except_unqueried_floor_clamp exampleEnv wallRegister noKeys (1 / 60)
      (playerAt ⟨0, 0, 0⟩ ⟨1 / 10, 0, 1 / 20⟩) hfree).2.1 rfl⟩

end NoClipping

/-! ## The acceleration phase over the reals -/

section Acceleration

theorem Vec3.dot_self_nonneg (v : Vec3 ℝ) : 0 ≤ Vec3.dot v v := by
  unfold Vec3.dot
  nlinarith [mul_self_nonneg v.x, mul_self_nonneg v.y, mul_self_nonneg v.z]

theorem Vec3.dot_self_eq_zero (v : Vec3 ℝ) : Vec3.dot v v = 0 ↔ v = ⟨0, 0, 0⟩ := by
  constructor
  · intro h
    unfold Vec3.dot at h
    have hx : v.x = 0 := by nlinarith [mul_self_nonneg v.x, mul_self_nonneg v.y, mul_self_nonneg v.z]
    have hy : v.y = 0 := by nlinarith [mul_self_nonneg v.x, mul_self_nonneg v.y, mul_self_nonneg v.z]
    have hz : v.z = 0 := by nlinarith [mul_self_nonneg v.x, mul_self_nonneg v.y, mul_self_nonneg v.z]
    cases v
    simp_all
  · intro h
    rw [h]
    simp [Vec3.dot]

theorem Vec3.dot_smul_smul (s : ℝ) (v : Vec3 ℝ) :
    Vec3.dot (Vec3.smul s v) (Vec3.smul s v) = s ^ 2 * Vec3.dot v v := by
  unfold Vec3.dot Vec3.smul
  ring

/-- The Euclidean length of `s * v` is `|s|` times that of `v`. -/
theorem Vec3.length_smul (s : ℝ) (v : Vec3 ℝ) :
    Real.sqrt (Vec3.dot (Vec3.smul s v) (Vec3.smul s v)) = |s| * Real.sqrt (Vec3.dot v v) := by
  rw [Vec3.dot_smul_smul, Real.sqrt_mul (sq_nonneg s), Real.sqrt_sq_eq_abs]

/-- A non-zero vector divided by its Euclidean length has length `1`. -/
theorem Vec3.length_normalized (v : Vec3 ℝ) (hv : v ≠ ⟨0, 0, 0⟩) :
    Real.sqrt (Vec3.dot (Vec3.smul (1 / Real.sqrt (Vec3.dot v v)) v)
      (Vec3.smul (1 / Real.sqrt (Vec3.dot v v)) v)) = 1 := by
  have hpos : 0 < Vec3.dot v v :=
    lt_of_le_of_ne (Vec3.dot_self_nonneg v) (fun h => hv ((Vec3.dot_self_eq_zero v).mp h.symm))
  have hs : 0 < Real.sqrt (Vec3.dot v v) := Real.sqrt_pos.mpr hpos
  rw [Vec3.length_smul, abs_of_pos (by positivity)]
  field_simp

/-- Claim C18: over the reals with the exact `glm::length` and `glm::normalize`, the summed
direction has zero length exactly when it is the zero vector, which happens in particular
when no movement key is held or the held keys cancel (`W` with `S`, `A` with `D`); then
`handleMovementKeyboardInputs` does nothing beyond the walking-sound bookkeeping and the
velocity is unchanged.  Otherwise the new velocity is the previous one plus
`PLAYER_WALKING_SPEED * 0.1 * deltaTime` times the summed direction divided by its length,
a vector of length `1`, so the increment has length `|PLAYER_WALKING_SPEED * 0.1 * deltaTime|`
however many keys are held. -/
theorem C18_acceleration_adds_scaled_unit_direction (env : Env ℝ) (keys : Keyboard)
    (deltaTime : ℝ) (p : Player ℝ) (hE : env.ExactMath) :
    (env.length (summedDirection keys p.mCamera) = 0 ↔
      summedDirection keys p.mCamera = ⟨0, 0, 0⟩) ∧
    (keys.W = keys.S → keys.A = keys.D → summedDirection keys p.mCamera = ⟨0, 0, 0⟩) ∧
    (summedDirection keys p.mCamera = ⟨0, 0, 0⟩ →
      handleMovementKeyboardInputs env keys deltaTime p = manageWalkingSounds ⟨0, 0, 0⟩ p ∧
      (handleMovementKeyboardInputs env keys deltaTime p).mVelocity = p.mVelocity) ∧
    (summedDirection keys p.mCamera ≠ ⟨0, 0, 0⟩ →
      (handleMovementKeyboardInputs env keys deltaTime p).mVelocity =
        Vec3.add p.mVelocity
          (Vec3.smul (env.PLAYER_WALKING_SPEED * (1 / 10) * deltaTime)
            (Vec3.smul (1 / Real.sqrt (Vec3.dot (summedDirection keys p.mCamera)
              (summedDirection keys p.mCamera))) (summedDirection keys p.mCamera))) ∧
      Real.sqrt (Vec3.dot
        (Vec3.smul (1 / Real.sqrt (Vec3.dot (summedDirection keys p.mCamera)
          (summedDirection keys p.mCamera))) (summedDirection keys p.mCamera))
        (Vec3.smul (1 / Real.sqrt (Vec3.dot (summedDirection keys p.mCamera)
          (summedDirection keys p.mCamera))) (summedDirection keys p.mCamera))) = 1 ∧
      Real.sqrt (Vec3.dot
        (Vec3.sub (handleMovementKeyboardInputs env keys deltaTime p).mVelocity p.mVelocity)
        (Vec3.sub (handleMovementKeyboardInputs env keys deltaTime p).mVelocity p.mVelocity)) =
        |env.PLAYER_WALKING_SPEED * (1 / 10) * deltaTime|) := by
  obtain ⟨_, hlen, hnorm⟩ := hE
  have hzero : env.length (summedDirection keys p.mCamera) = 0 ↔
      summedDirection keys p.mCamera = ⟨0, 0, 0⟩ := by
    rw [hlen, Real.sqrt_eq_zero (Vec3.dot_self_nonneg _), Vec3.dot_self_eq_zero]
  have hvel := handleMovementKeyboardInputs_mVelocity env keys deltaTime p
  refine ⟨hzero, ?_, ?_, ?_⟩
  · intro h1 h2
    unfold summedDirection
    rw [← h1, ← h2]
    cases keys.W <;> cases keys.A <;> simp [Vec3.add, Vec3.sub]
  · intro hd
    have hl : ¬ env.length (summedDirection keys p.mCamera) > 0 := by
      rw [hzero.mpr hd]
      exact lt_irrefl 0
    constructor
    · rw [handleMovementKeyboardInputs_eq, if_neg hl, hd]
    · rw [hvel, if_neg hl]
  · intro hd
    have hl : env.length (summedDirection keys p.mCamera) > 0 := by
      have h0 : 0 ≤ env.length (summedDirection keys p.mCamera) := by
        rw [hlen]
        exact Real.sqrt_nonneg _
      exact lt_of_le_of_ne h0 (fun h => hd (hzero.mp h.symm))
    have hv : (handleMovementKeyboardInputs env keys deltaTime p).mVelocity =
        Vec3.add p.mVelocity
          (Vec3.smul (env.PLAYER_WALKING_SPEED * (1 / 10) * deltaTime)
            (Vec3.smul (1 / Real.sqrt (Vec3.dot (summedDirection keys p.mCamera)
              (summedDirection keys p.mCamera))) (summedDirection keys p.mCamera))) := by
      rw [hvel, if_pos hl, hnorm]
    refine ⟨hv, Vec3.length_normalized _ hd, ?_⟩
    have hsub : Vec3.sub (handleMovementKeyboardInputs env keys deltaTime p).mVelocity
        p.mVelocity =
        Vec3.smul (env.PLAYER_WALKING_SPEED * (1 / 10) * deltaTime)
          (Vec3.smul (1 / Real.sqrt (Vec3.dot (summedDirection keys p.mCamera)
            (summedDirection keys p.mCamera))) (summedDirection keys p.mCamera)) := by
      rw [hv]
      simp [Vec3.sub, Vec3.add, Vec3.smul]
    rw [hsub, Vec3.length_smul, Vec3.length_normalized _ hd, mul_one]

/-- Witness for C18: the exact configuration with walking speed `5` at `dt = 1/60`, the camera
looking along the unit vector `(3/5, 0, 4/5)`: with no key held the velocity is unchanged,
with only `W` held the increment has length `5 * 0.1 * (1/60) = 1/120`. -/
theorem C18_acceleration_adds_scaled_unit_direction_witness :
    (mathEnv 5 5 Real.exp Real.sqrt).ExactMath ∧
    (handleMovementKeyboardInputs (mathEnv 5 5 Real.exp Real.sqrt) noKeys (1 / 60)
      (playerWith ⟨0, 0, 0⟩ ⟨1, 2, 3⟩ ⟨3 / 5, 0, 4 / 5⟩ ⟨4 / 5, 0, -(3 / 5)⟩)).mVelocity =
      ⟨1, 2, 3⟩ ∧
    Real.sqrt (Vec3.dot
      (Vec3.sub (handleMovementKeyboardInputs (mathEnv 5 5 Real.exp Real.sqrt) onlyForward (1 / 60)
        (playerWith ⟨0, 0, 0⟩ ⟨1, 2, 3⟩ ⟨3 / 5, 0, 4 / 5⟩ ⟨4 / 5, 0, -(3 / 5)⟩)).mVelocity
        (playerWith ⟨0, 0, 0⟩ ⟨1, 2, 3⟩ ⟨3 / 5, 0, 4 / 5⟩ ⟨4 / 5, 0, -(3 / 5)⟩).mVelocity)
      (Vec3.sub (handleMovementKeyboardInputs (mathEnv 5 5 Real.exp Real.sqrt) onlyForward (1 / 60)
        (playerWith ⟨0, 0, 0⟩ ⟨1, 2, 3⟩ ⟨3 / 5, 0, 4 / 5⟩ ⟨4 / 5, 0, -(3 / 5)⟩)).mVelocity
        (playerWith ⟨0, 0, 0⟩ ⟨1, 2, 3⟩ ⟨3 / 5, 0, 4 / 5⟩ ⟨4 / 5, 0, -(3 / 5)⟩).mVelocity)) =
      1 / 120 := by
  have hE : (mathEnv 5 5 Real.exp Real.sqrt).ExactMath := ⟨rfl, fun _ => rfl, fun _ => rfl⟩
  have t0 := C18_acceleration_adds_scaled_unit_direction (mathEnv 5 5 Real.exp Real.sqrt) noKeys
    (1 / 60) (playerWith ⟨0, 0, 0⟩ ⟨1, 2, 3⟩ ⟨3 / 5, 0, 4 / 5⟩ ⟨4 / 5, 0, -(3 / 5)⟩) hE
  have t1 := C18_acceleration_adds_scaled_unit_direction (mathEnv 5 5 Real.exp Real.sqrt)
    onlyForward (1 / 60)
    (playerWith ⟨0, 0, 0⟩ ⟨1, 2, 3⟩ ⟨3 / 5, 0, 4 / 5⟩ ⟨4 / 5, 0, -(3 / 5)⟩) hE
  have hd : summedDirection onlyForward
      (playerWith (K := ℝ) ⟨0, 0, 0⟩ ⟨1, 2, 3⟩ ⟨3 / 5, 0, 4 / 5⟩ ⟨4 / 5, 0, -(3 / 5)⟩).mCamera ≠
      ⟨0, 0, 0⟩ := by
    intro h
    have hx := congrArg Vec3.x h
    simp [summedDirection, onlyForward, playerWith, Vec3.add] at hx
  refine ⟨hE, (t0.2.2.1 (t0.2.1 rfl rfl)).2, ?_⟩
  rw [(t1.2.2.2 hd).2.2]
  norm_num [mathEnv, abs_of_pos]

end Acceleration

/-! ## Walking forward in an empty level -/

section Walking

variable {K : Type} [LinearOrderedField K]

/-- The clamp lambda is monotone for a non-negative maximum. -/
theorem limitVelocitySpeed_mono (M : K) (hM : 0 ≤ M) {x y : K} (h : x ≤ y) :
    limitVelocitySpeed x M ≤ limitVelocitySpeed y M := by
  unfold limitVelocitySpeed
  split_ifs <;> linarith

theorem limitVelocitySpeed_zero (M : K) (hM : 0 ≤ M) : limitVelocitySpeed 0 M = 0 := by
  unfold limitVelocitySpeed
  have h1 : ¬ (0 : K) > M := not_lt.mpr hM
  have h2 : ¬ (-(0 : K)) > M := by rw [neg_zero]; exact h1
  rw [if_neg h1, if_neg h2]

theorem afterFloorClamp_mPosition_xz (env : Env K) (reg : ColliderRegister K) (keys : Keyboard)
    (deltaTime : K) (p : Player K) :
    (afterFloorClamp env reg keys deltaTime p).mPosition.x =
      (yPass env reg keys deltaTime p).2.mPosition.x ∧
    (afterFloorClamp env reg keys deltaTime p).mPosition.z =
      (yPass env reg keys deltaTime p).2.mPosition.z := by
  unfold afterFloorClamp afterYPass
  split_ifs <;> exact ⟨rfl, rfl⟩

/-- A physics step in a level with nothing solid: the horizontal velocity is the one the
velocity phases produce, and it is added to the position. -/
theorem updatePhysics_of_noSolid (env : Env K) (reg : ColliderRegister K) (keys : Keyboard)
    (deltaTime : K) (p : Player K) (hreg : NoSolid reg) :
    (updatePhysics env reg keys deltaTime p).mVelocity.x =
      (afterVelocityPhases env keys deltaTime p).mVelocity.x ∧
    (updatePhysics env reg keys deltaTime p).mVelocity.z =
      (afterVelocityPhases env keys deltaTime p).mVelocity.z ∧
    (updatePhysics env reg keys deltaTime p).mPosition.x =
      p.mPosition.x + (afterVelocityPhases env keys deltaTime p).mVelocity.x ∧
    (updatePhysics env reg keys deltaTime p).mPosition.z =
      p.mPosition.z + (afterVelocityPhases env keys deltaTime p).mVelocity.z := by
  obtain ⟨fp, _, _, _⟩ := afterVelocityPhases_frame env keys deltaTime p
  have ex : afterXPass env reg keys deltaTime p =
      updateColliderPosition { afterVelocityPhases env keys deltaTime p with
        mPosition := (afterVelocityPhases env keys deltaTime p).mPosition.set Axis.x
          ((afterVelocityPhases env keys deltaTime p).mPosition.get Axis.x +
            (afterVelocityPhases env keys deltaTime p).mVelocity.get Axis.x) } := by
    unfold afterXPass
    rw [tryUpdate_clear reg Axis.x _ (fun c hc => hreg _ c hc)]
  have yx := tryUpdate_mPosition_other reg (a := Axis.y) (b := Axis.x) (by decide)
    (afterXPass env reg keys deltaTime p)
  have yz := tryUpdate_mPosition_other reg (a := Axis.y) (b := Axis.z) (by decide)
    (afterXPass env reg keys deltaTime p)
  have yvx := tryUpdate_mVelocity_other reg (a := Axis.y) (b := Axis.x) (by decide)
    (afterXPass env reg keys deltaTime p)
  have yvz := tryUpdate_mVelocity_other reg (a := Axis.y) (b := Axis.z) (by decide)
    (afterXPass env reg keys deltaTime p)
  obtain ⟨cx, cz⟩ := afterFloorClamp_mPosition_xz env reg keys deltaTime p
  have cv := afterFloorClamp_mVelocity env reg keys deltaTime p
  have ez : (tryUpdatePositionByApplyingVelocityIfCollisionAllows reg Axis.z
      (afterFloorClamp env reg keys deltaTime p)).2 =
      updateColliderPosition { afterFloorClamp env reg keys deltaTime p with
        mPosition := (afterFloorClamp env reg keys deltaTime p).mPosition.set Axis.z
          ((afterFloorClamp env reg keys deltaTime p).mPosition.get Axis.z +
            (afterFloorClamp env reg keys deltaTime p).mVelocity.get Axis.z) } := by
    rw [tryUpdate_clear reg Axis.z _ (fun c hc => hreg _ c hc)]
  simp only [Vec3.get] at yx yz yvx yvz
  unfold yPass at cx cz cv
  have ax_px : (afterXPass env reg keys deltaTime p).mPosition.x =
      p.mPosition.x + (afterVelocityPhases env keys deltaTime p).mVelocity.x := by
    rw [ex]
    simp only [updateColliderPosition_mPosition, Vec3.set, Vec3.get, fp]
  have ax_pz : (afterXPass env reg keys deltaTime p).mPosition.z = p.mPosition.z := by
    rw [ex]
    simp only [updateColliderPosition_mPosition, Vec3.set, fp]
  have ax_v : (afterXPass env reg keys deltaTime p).mVelocity =
      (afterVelocityPhases env keys deltaTime p).mVelocity := by
    rw [ex]
    rfl
  rw [updatePhysics_eq, ez]
  simp only [updateColliderPosition_mPosition, updateColliderPosition_mVelocity, Vec3.set,
    Vec3.get, cx, cz, cv, yx, yz, yvx, yvz, ax_px, ax_pz, ax_v]
  exact ⟨trivial, trivial, trivial, trivial⟩

/-- The horizontal velocity after the velocity phases when only `W` is held and normalising
the summed direction gives the camera's forward vector. -/
theorem afterVelocityPhases_walking (env : Env K) (deltaTime : K) (p : Player K)
    (hlen : 0 < env.length (summedDirection onlyForward p.mCamera))
    (hnorm : env.normalize (summedDirection onlyForward p.mCamera) =
      p.mCamera.directionWithoutPitch) :
    (afterVelocityPhases env onlyForward deltaTime p).mVelocity.x =
      limitVelocitySpeed
        ((p.mVelocity.x + env.PLAYER_WALKING_SPEED * (1 / 10) * deltaTime *
            p.mCamera.directionWithoutPitch.x) *
          env.exp (-(Env.PLAYER_WALKING_DECELERATE_RATIO env) * deltaTime))
        (env.PLAYER_MAX_HORIZONTAL_SPEED * deltaTime) ∧
    (afterVelocityPhases env onlyForward deltaTime p).mVelocity.z =
      limitVelocitySpeed
        ((p.mVelocity.z + env.PLAYER_WALKING_SPEED * (1 / 10) * deltaTime *
            p.mCamera.directionWithoutPitch.z) *
          env.exp (-(Env.PLAYER_WALKING_DECELERATE_RATIO env) * deltaTime))
        (env.PLAYER_MAX_HORIZONTAL_SPEED * deltaTime) := by
  have hv := handleMovementKeyboardInputs_mVelocity env onlyForward deltaTime p
  rw [if_pos hlen, hnorm] at hv
  unfold afterVelocityPhases
  rw [limitVelocity_x, limitVelocity_z]
  simp [manageVerticalVelocity, decelerateVelocity, hv, Vec3.add, Vec3.smul]

/-- A sequence generated by a monotone map rises for ever once it rises at the start. -/
theorem rising_of_monotone (g : K → K) (hg : ∀ x y, x ≤ y → g x ≤ g y) (u : ℕ → K)
    (hu : ∀ n, u (n + 1) = g (u n)) (h0 : u 0 ≤ u 1) : ∀ n, u n ≤ u (n + 1) := by
  intro n
  induction n with
  | zero => exact h0
  | succ n ih =>
    have h := hg _ _ ih
    rw [← hu n, ← hu (n + 1)] at h
    exact h

/-- A sequence generated by a monotone map falls for ever once it falls at the start. -/
theorem falling_of_monotone (g : K → K) (hg : ∀ x y, x ≤ y → g x ≤ g y) (u : ℕ → K)
    (hu : ∀ n, u (n + 1) = g (u n)) (h0 : u 1 ≤ u 0) : ∀ n, u (n + 1) ≤ u n := by
  intro n
  induction n with
  | zero => exact h0
  | succ n ih =>
    have h := hg _ _ ih
    rw [← hu n, ← hu (n + 1)] at h
    exact h

/-- One velocity component of the walk, as a sequence: starting from `0`, each tick adds
`a * c`, multiplies by `d` and clamps to `M`; successive differences have the sign of `c`. -/
theorem walk_component_steps (a c d M : K) (ha : 0 ≤ a) (hd : 0 ≤ d) (hM : 0 ≤ M)
    (u : ℕ → K) (h0 : u 0 = 0)
    (hu : ∀ n, u (n + 1) = limitVelocitySpeed ((u n + a * c) * d) M) (n : ℕ) :
    0 ≤ (u (n + 1) - u n) * c := by
  have hmono : ∀ x y : K, x ≤ y →
      limitVelocitySpeed ((x + a * c) * d) M ≤ limitVelocitySpeed ((y + a * c) * d) M := by
    intro x y hxy
    apply limitVelocitySpeed_mono M hM
    exact mul_le_mul_of_nonneg_right (by linarith) hd
  rcases le_total 0 c with hc | hc
  · have h1 : u 0 ≤ u 1 := by
      have h := limitVelocitySpeed_mono M hM (x := 0) (y := (0 + a * c) * d)
        (by rw [zero_add]; exact mul_nonneg (mul_nonneg ha hc) hd)
      rw [limitVelocitySpeed_zero M hM] at h
      rw [hu 0, h0]
      exact h
    have := rising_of_monotone _ hmono u hu h1 n
    exact mul_nonneg (by linarith) hc
  · have h1 : u 1 ≤ u 0 := by
      have h := limitVelocitySpeed_mono M hM (x := (0 + a * c) * d) (y := 0)
        (by rw [zero_add]
            exact mul_nonpos_of_nonpos_of_nonneg (mul_nonpos_of_nonneg_of_nonpos ha hc) hd)
      rw [limitVelocitySpeed_zero M hM] at h
      rw [hu 0, h0]
      exact h
    have := falling_of_monotone _ hmono u hu h1 n
    exact mul_nonneg_of_nonpos_of_nonpos (by linarith) hc

theorem iterate_updatePhysics_mCamera (env : Env K) (reg : ColliderRegister K)
    (keys : Keyboard) (deltaTime : K) (p : Player K) (n : ℕ) :
    ((updatePhysics env reg keys deltaTime)^[n] p).mCamera = p.mCamera := by
  induction n with
  | zero => rfl
  | succ n ih => rw [Function.iterate_succ_apply', updatePhysics_mCamera, ih]

/-- One tick of the walk: the horizontal velocity components follow the clamp recurrence and
are what the tick adds to the position. -/
theorem walk_tick (env : Env K) (reg : ColliderRegister K) (deltaTime : K) (p : Player K)
    (hreg : NoSolid reg)
    (hlen : 0 < env.length (summedDirection onlyForward p.mCamera))
    (hnorm : env.normalize (summedDirection onlyForward p.mCamera) =
      p.mCamera.directionWithoutPitch) (n : ℕ) :
    ((updatePhysics env reg onlyForward deltaTime)^[n + 1] p).mVelocity.x =
      limitVelocitySpeed
        ((((updatePhysics env reg onlyForward deltaTime)^[n] p).mVelocity.x +
            env.PLAYER_WALKING_SPEED * (1 / 10) * deltaTime *
              p.mCamera.directionWithoutPitch.x) *
          env.exp (-(Env.PLAYER_WALKING_DECELERATE_RATIO env) * deltaTime))
        (env.PLAYER_MAX_HORIZONTAL_SPEED * deltaTime) ∧
    ((updatePhysics env reg onlyForward deltaTime)^[n + 1] p).mVelocity.z =
      limitVelocitySpeed
        ((((updatePhysics env reg onlyForward deltaTime)^[n] p).mVelocity.z +
            env.PLAYER_WALKING_SPEED * (1 / 10) * deltaTime *
              p.mCamera.directionWithoutPitch.z) *
          env.exp (-(Env.PLAYER_WALKING_DECELERATE_RATIO env) * deltaTime))
        (env.PLAYER_MAX_HORIZONTAL_SPEED * deltaTime) ∧
    ((updatePhysics env reg onlyForward deltaTime)^[n + 1] p).mPosition.x =
      ((updatePhysics env reg onlyForward deltaTime)^[n] p).mPosition.x +
        ((updatePhysics env reg onlyForward deltaTime)^[n + 1] p).mVelocity.x ∧
    ((updatePhysics env reg onlyForward deltaTime)^[n + 1] p).mPosition.z =
      ((updatePhysics env reg onlyForward deltaTime)^[n] p).mPosition.z +
        ((updatePhysics env reg onlyForward deltaTime)^[n + 1] p).mVelocity.z := by
  have hc := iterate_updatePhysics_mCamera env reg onlyForward deltaTime p n
  obtain ⟨vx, vz, px, pz⟩ := updatePhysics_of_noSolid env reg onlyForward deltaTime
    ((updatePhysics env reg onlyForward deltaTime)^[n] p) hreg
  obtain ⟨wx, wz⟩ := afterVelocityPhases_walking env deltaTime
    ((updatePhysics env reg onlyForward deltaTime)^[n] p) (by rw [hc]; exact hlen)
    (by rw [hc]; exact hnorm)
  rw [hc] at wx wz
  rw [Function.iterate_succ_apply']
  refine ⟨by rw [vx, wx], by rw [vz, wz], by rw [px, vx], by rw [pz, vz]⟩

/-- Claim C15 as amended: a player whose horizontal velocity is zero, in a level with
nothing solid, only `W` held, the camera looking along a fixed horizontal vector `f` that
normalising returns unchanged (a unit vector), constant `dt > 0`.  Over any number of
consecutive physics steps the per-tick displacement along `f` never decreases from one tick
to the next; on every tick the displacement on the x axis and on the z axis is at most
`PLAYER_MAX_HORIZONTAL_SPEED * dt` in absolute value, so the displacement along `f` is at
most `(|f.x| + |f.z|) * PLAYER_MAX_HORIZONTAL_SPEED * dt`. -/
theorem C15_forward_displacement_monotone_per_axis_bound (env : Env K)
    (reg : ColliderRegister K) (deltaTime : K) (p : Player K) (hreg : NoSolid reg)
    (hf : p.mCamera.directionWithoutPitch.y = 0)
    (hlen : 0 < env.length (summedDirection onlyForward p.mCamera))
    (hnorm : env.normalize (summedDirection onlyForward p.mCamera) =
      p.mCamera.directionWithoutPitch)
    (hrest : p.mVelocity.x = 0 ∧ p.mVelocity.z = 0) (hdt : 0 < deltaTime)
    (hW : 0 ≤ env.PLAYER_WALKING_SPEED) (hH : 0 ≤ env.PLAYER_MAX_HORIZONTAL_SPEED)
    (hexp : 0 < env.exp (-(Env.PLAYER_WALKING_DECELERATE_RATIO env) * deltaTime)) (n : ℕ) :
    forwardDisplacement (updatePhysics env reg onlyForward deltaTime) p n ≤
      forwardDisplacement (updatePhysics env reg onlyForward deltaTime) p (n + 1) ∧
    |((updatePhysics env reg onlyForward deltaTime)^[n + 1] p).mPosition.x -
        ((updatePhysics env reg onlyForward deltaTime)^[n] p).mPosition.x| ≤
      env.PLAYER_MAX_HORIZONTAL_SPEED * deltaTime ∧
    |((updatePhysics env reg onlyForward deltaTime)^[n + 1] p).mPosition.z -
        ((updatePhysics env reg onlyForward deltaTime)^[n] p).mPosition.z| ≤
      env.PLAYER_MAX_HORIZONTAL_SPEED * deltaTime ∧
    forwardDisplacement (updatePhysics env reg onlyForward deltaTime) p n ≤
      (|p.mCamera.directionWithoutPitch.x| + |p.mCamera.directionWithoutPitch.z|) *
        (env.PLAYER_MAX_HORIZONTAL_SPEED * deltaTime) := by
  have hM : 0 ≤ env.PLAYER_MAX_HORIZONTAL_SPEED * deltaTime := mul_nonneg hH (le_of_lt hdt)
  have ha : 0 ≤ env.PLAYER_WALKING_SPEED * (1 / 10) * deltaTime :=
    mul_nonneg (mul_nonneg hW (by norm_num)) (le_of_lt hdt)
  have tick := walk_tick env reg deltaTime p hreg hlen hnorm
  have hdisp : ∀ m : ℕ,
      forwardDisplacement (updatePhysics env reg onlyForward deltaTime) p m =
        ((updatePhysics env reg onlyForward deltaTime)^[m + 1] p).mVelocity.x *
            p.mCamera.directionWithoutPitch.x +
          ((updatePhysics env reg onlyForward deltaTime)^[m + 1] p).mVelocity.z *
            p.mCamera.directionWithoutPitch.z := by
    intro m
    obtain ⟨_, _, px, pz⟩ := tick m
    unfold forwardDisplacement Vec3.dot Vec3.sub
    dsimp only
    rw [hf, px, pz]
    ring
  have sx := walk_component_steps (env.PLAYER_WALKING_SPEED * (1 / 10) * deltaTime)
    p.mCamera.directionWithoutPitch.x
    (env.exp (-(Env.PLAYER_WALKING_DECELERATE_RATIO env) * deltaTime))
    (env.PLAYER_MAX_HORIZONTAL_SPEED * deltaTime) ha (le_of_lt hexp) hM
    (fun m => ((updatePhysics env reg onlyForward deltaTime)^[m] p).mVelocity.x) hrest.1
    (fun m => (tick m).1) (n + 1)
  have sz := walk_component_steps (env.PLAYER_WALKING_SPEED * (1 / 10) * deltaTime)
    p.mCamera.directionWithoutPitch.z
    (env.exp (-(Env.PLAYER_WALKING_DECELERATE_RATIO env) * deltaTime))
    (env.PLAYER_MAX_HORIZONTAL_SPEED * deltaTime) ha (le_of_lt hexp) hM
    (fun m => ((updatePhysics env reg onlyForward deltaTime)^[m] p).mVelocity.z) hrest.2
    (fun m => (tick m).2.1) (n + 1)
  have bx : |((updatePhysics env reg onlyForward deltaTime)^[n + 1] p).mVelocity.x| ≤
      env.PLAYER_MAX_HORIZONTAL_SPEED * deltaTime := by
    rw [(tick n).1]
    exact limitVelocitySpeed_abs_le _ _ hM
  have bz : |((updatePhysics env reg onlyForward deltaTime)^[n + 1] p).mVelocity.z| ≤
      env.PLAYER_MAX_HORIZONTAL_SPEED * deltaTime := by
    rw [(tick n).2.1]
    exact limitVelocitySpeed_abs_le _ _ hM
  refine ⟨?_, ?_, ?_, ?_⟩
  · rw [hdisp n, hdisp (n + 1)]
    linarith
  · rw [(tick n).2.2.1, add_sub_cancel_left]
    exact bx
  · rw [(tick n).2.2.2, add_sub_cancel_left]
    exact bz
  · rw [hdisp n]
    have h1 := le_abs_self (((updatePhysics env reg onlyForward deltaTime)^[n + 1] p).mVelocity.x *
      p.mCamera.directionWithoutPitch.x)
    have h2 := le_abs_self (((updatePhysics env reg onlyForward deltaTime)^[n + 1] p).mVelocity.z *
      p.mCamera.directionWithoutPitch.z)
    rw [abs_mul] at h1 h2
    have h3 := mul_le_mul_of_nonneg_right bx (abs_nonneg p.mCamera.directionWithoutPitch.x)
    have h4 := mul_le_mul_of_nonneg_right bz (abs_nonneg p.mCamera.directionWithoutPitch.z)
    linarith

/-! ### A diagonal look over the reals -/

theorem diagonal_summedDirection :
    summedDirection onlyForward
      (playerWith (K := ℝ) ⟨0, 0, 0⟩ ⟨0, 0, 0⟩ ⟨3 / 5, 0, 4 / 5⟩ ⟨4 / 5, 0, -(3 / 5)⟩).mCamera =
      ⟨3 / 5, 0, 4 / 5⟩ := by
  simp [summedDirection, onlyForward, playerWith, Vec3.add]

theorem diagonal_dot : Vec3.dot (⟨3 / 5, 0, 4 / 5⟩ : Vec3 ℝ) ⟨3 / 5, 0, 4 / 5⟩ = 1 := by
  norm_num [Vec3.dot]

/-- With the exact math functions, walking speed `5`, maximum horizontal speed `1/10`,
`dt = 1/60` and the look `(3/5, 0, 4/5)`, the first tick from rest already saturates both
horizontal velocity components at `(1/10) * (1/60)`. -/
theorem diagonal_first_tick :
    ((updatePhysics (mathEnv 5 (1 / 10) Real.exp Real.sqrt) (ColliderRegister.ofColliders [])
        onlyForward (1 / 60))^[1]
      (playerWith (K := ℝ) ⟨0, 0, 0⟩ ⟨0, 0, 0⟩ ⟨3 / 5, 0, 4 / 5⟩ ⟨4 / 5, 0, -(3 / 5)⟩)).mVelocity.x =
      1 / 10 * (1 / 60) ∧
    ((updatePhysics (mathEnv 5 (1 / 10) Real.exp Real.sqrt) (ColliderRegister.ofColliders [])
        onlyForward (1 / 60))^[1]
      (playerWith (K := ℝ) ⟨0, 0, 0⟩ ⟨0, 0, 0⟩ ⟨3 / 5, 0, 4 / 5⟩ ⟨4 / 5, 0, -(3 / 5)⟩)).mVelocity.z =
      1 / 10 * (1 / 60) ∧
    ((updatePhysics (mathEnv 5 (1 / 10) Real.exp Real.sqrt) (ColliderRegister.ofColliders [])
        onlyForward (1 / 60))^[1]
      (playerWith (K := ℝ) ⟨0, 0, 0⟩ ⟨0, 0, 0⟩ ⟨3 / 5, 0, 4 / 5⟩ ⟨4 / 5, 0, -(3 / 5)⟩)).mPosition.x =
      1 / 10 * (1 / 60) ∧
    ((updatePhysics (mathEnv 5 (1 / 10) Real.exp Real.sqrt) (ColliderRegister.ofColliders [])
        onlyForward (1 / 60))^[1]
      (playerWith (K := ℝ) ⟨0, 0, 0⟩ ⟨0, 0, 0⟩ ⟨3 / 5, 0, 4 / 5⟩ ⟨4 / 5, 0, -(3 / 5)⟩)).mPosition.z =
      1 / 10 * (1 / 60) := by
  have hreg : NoSolid (ColliderRegister.ofColliders ([] : List (Collider ℝ))) := by
    intro q c hc
    simp [ColliderRegister.ofColliders] at hc
  have hlen : 0 < (mathEnv 5 (1 / 10) Real.exp Real.sqrt).length (summedDirection onlyForward
      (playerWith (K := ℝ) ⟨0, 0, 0⟩ ⟨0, 0, 0⟩ ⟨3 / 5, 0, 4 / 5⟩ ⟨4 / 5, 0, -(3 / 5)⟩).mCamera) := by
    rw [diagonal_summedDirection]
    show 0 < Real.sqrt (Vec3.dot (⟨3 / 5, 0, 4 / 5⟩ : Vec3 ℝ) ⟨3 / 5, 0, 4 / 5⟩)
    rw [diagonal_dot, Real.sqrt_one]
    exact one_pos
  have hnorm : (mathEnv 5 (1 / 10) Real.exp Real.sqrt).normalize (summedDirection onlyForward
      (playerWith (K := ℝ) ⟨0, 0, 0⟩ ⟨0, 0, 0⟩ ⟨3 / 5, 0, 4 / 5⟩ ⟨4 / 5, 0, -(3 / 5)⟩).mCamera) =
      (playerWith (K := ℝ) ⟨0, 0, 0⟩ ⟨0, 0, 0⟩ ⟨3 / 5, 0, 4 / 5⟩
        ⟨4 / 5, 0, -(3 / 5)⟩).mCamera.directionWithoutPitch := by
    rw [diagonal_summedDirection]
    show Vec3.smul (1 / Real.sqrt (Vec3.dot (⟨3 / 5, 0, 4 / 5⟩ : Vec3 ℝ) ⟨3 / 5, 0, 4 / 5⟩))
      ⟨3 / 5, 0, 4 / 5⟩ = ⟨3 / 5, 0, 4 / 5⟩
    rw [diagonal_dot, Real.sqrt_one]
    simp [Vec3.smul]
  obtain ⟨vx, vz, px, pz⟩ := walk_tick (mathEnv 5 (1 / 10) Real.exp Real.sqrt)
    (ColliderRegister.ofColliders []) (1 / 60)
    (playerWith (K := ℝ) ⟨0, 0, 0⟩ ⟨0, 0, 0⟩ ⟨3 / 5, 0, 4 / 5⟩ ⟨4 / 5, 0, -(3 / 5)⟩) hreg hlen hnorm 0
  have hexp : (5 : ℝ) / 6 ≤ Real.exp (-10 * (1 / 60)) := by
    have := Real.add_one_le_exp (-10 * (1 / 60))
    linarith
  have hM : (0 : ℝ) ≤ 1 / 10 * (1 / 60) := by norm_num
  have cx : limitVelocitySpeed ((0 + 5 * (1 / 10) * (1 / 60) * (3 / 5)) *
      Real.exp (-10 * (1 / 60))) (1 / 10 * (1 / 60)) = (1 / 10 * (1 / 60) : ℝ) :=
    (limitVelocitySpeed_spec _ _ hM).1 (by nlinarith)
  have cz : limitVelocitySpeed ((0 + 5 * (1 / 10) * (1 / 60) * (4 / 5)) *
      Real.exp (-10 * (1 / 60))) (1 / 10 * (1 / 60)) = (1 / 10 * (1 / 60) : ℝ) :=
    (limitVelocitySpeed_spec _ _ hM).1 (by nlinarith)
  have ex : ((updatePhysics (mathEnv 5 (1 / 10) Real.exp Real.sqrt)
      (ColliderRegister.ofColliders []) onlyForward (1 / 60))^[1]
      (playerWith (K := ℝ) ⟨0, 0, 0⟩ ⟨0, 0, 0⟩ ⟨3 / 5, 0, 4 / 5⟩ ⟨4 / 5, 0, -(3 / 5)⟩)).mVelocity.x =
      1 / 10 * (1 / 60) := by
    rw [vx]
    exact cx
  have ez : ((updatePhysics (mathEnv 5 (1 / 10) Real.exp Real.sqrt)
      (ColliderRegister.ofColliders []) onlyForward (1 / 60))^[1]
      (playerWith (K := ℝ) ⟨0, 0, 0⟩ ⟨0, 0, 0⟩ ⟨3 / 5, 0, 4 / 5⟩ ⟨4 / 5, 0, -(3 / 5)⟩)).mVelocity.z =
      1 / 10 * (1 / 60) := by
    rw [vz]
    exact cz
  refine ⟨ex, ez, ?_, ?_⟩
  · rw [px, ex]
    simp [playerWith]
  · rw [pz, ez]
    simp [playerWith]

/-- Claim C15 fails on the code: with the exact math functions, walking speed `5`, maximum
horizontal speed `1/10`, `dt = 1/60`, an empty level, a player at rest at the origin and the
horizontal unit look `(3/5, 0, 4/5)`, only `W` held: in the first tick the displacement
along the look is `7/3000`, above `PLAYER_MAX_HORIZONTAL_SPEED * dt = 1/600`, and the
horizontal speed `sqrt(vx² + vz²)` is above it as well, because each of `vx` and `vz` is
clamped to `1/600` on its own. -/
theorem C15_diagonal_look_exceeds_maximum :
    Vec3.dot (⟨3 / 5, 0, 4 / 5⟩ : Vec3 ℝ) ⟨3 / 5, 0, 4 / 5⟩ = 1 ∧
    (mathEnv 5 (1 / 10) Real.exp Real.sqrt).PLAYER_MAX_HORIZONTAL_SPEED * (1 / 60) = 1 / 600 ∧
    forwardDisplacement
      (updatePhysics (mathEnv 5 (1 / 10) Real.exp Real.sqrt) (ColliderRegister.ofColliders [])
        onlyForward (1 / 60))
      (playerWith (K := ℝ) ⟨0, 0, 0⟩ ⟨0, 0, 0⟩ ⟨3 / 5, 0, 4 / 5⟩ ⟨4 / 5, 0, -(3 / 5)⟩) 0 =
      7 / 3000 ∧
    ¬ (forwardDisplacement
      (updatePhysics (mathEnv 5 (1 / 10) Real.exp Real.sqrt) (ColliderRegister.ofColliders [])
        onlyForward (1 / 60))
      (playerWith (K := ℝ) ⟨0, 0, 0⟩ ⟨0, 0, 0⟩ ⟨3 / 5, 0, 4 / 5⟩ ⟨4 / 5, 0, -(3 / 5)⟩) 0 ≤
      (mathEnv 5 (1 / 10) Real.exp Real.sqrt).PLAYER_MAX_HORIZONTAL_SPEED * (1 / 60)) ∧
    (mathEnv 5 (1 / 10) Real.exp Real.sqrt).PLAYER_MAX_HORIZONTAL_SPEED * (1 / 60) <
      Real.sqrt
        ((updatePhysics (mathEnv 5 (1 / 10) Real.exp Real.sqrt) (ColliderRegister.ofColliders [])
            onlyForward (1 / 60)
          (playerWith (K := ℝ) ⟨0, 0, 0⟩ ⟨0, 0, 0⟩ ⟨3 / 5, 0, 4 / 5⟩
            ⟨4 / 5, 0, -(3 / 5)⟩)).mVelocity.x ^ 2 +
         (updatePhysics (mathEnv 5 (1 / 10) Real.exp Real.sqrt) (ColliderRegister.ofColliders [])
            onlyForward (1 / 60)
          (playerWith (K := ℝ) ⟨0, 0, 0⟩ ⟨0, 0, 0⟩ ⟨3 / 5, 0, 4 / 5⟩
            ⟨4 / 5, 0, -(3 / 5)⟩)).mVelocity.z ^ 2) := by
  obtain ⟨vx, vz, px, pz⟩ := diagonal_first_tick
  have hM : (mathEnv 5 (1 / 10) Real.exp Real.sqrt).PLAYER_MAX_HORIZONTAL_SPEED * (1 / 60) =
      (1 / 600 : ℝ) := by
    show (1 / 10 : ℝ) * (1 / 60) = 1 / 600
    norm_num
  have hdisp : forwardDisplacement
      (updatePhysics (mathEnv 5 (1 / 10) Real.exp Real.sqrt) (ColliderRegister.ofColliders [])
        onlyForward (1 / 60))
      (playerWith (K := ℝ) ⟨0, 0, 0⟩ ⟨0, 0, 0⟩ ⟨3 / 5, 0, 4 / 5⟩ ⟨4 / 5, 0, -(3 / 5)⟩) 0 =
      7 / 3000 := by
    unfold forwardDisplacement Vec3.dot Vec3.sub
    dsimp only
    rw [px, pz]
    simp only [Function.iterate_zero, id_eq, playerWith]
    norm_num
  simp only [Function.iterate_succ_apply', Function.iterate_zero, id_eq] at vx vz
  refine ⟨diagonal_dot, hM, hdisp, ?_, ?_⟩
  · rw [hdisp, hM]
    norm_num
  · rw [vx, vz, hM]
    apply Real.lt_sqrt_of_sq_lt
    norm_num

/-- Witness for the amended C15: the rational configuration, the camera looking along
`(0, 0, -1)`, a player at rest at the origin of the empty level, `dt = 1/60`, the first two
ticks. -/
theorem C15_forward_displacement_monotone_per_axis_bound_witness :
    NoSolid emptyRegister ∧
    (playerAt ⟨0, 0, 0⟩ ⟨0, 0, 0⟩).mCamera.directionWithoutPitch.y = 0 ∧
    0 < exampleEnv.length (summedDirection onlyForward (playerAt ⟨0, 0, 0⟩ ⟨0, 0, 0⟩).mCamera) ∧
    exampleEnv.normalize (summedDirection onlyForward (playerAt ⟨0, 0, 0⟩ ⟨0, 0, 0⟩).mCamera) =
      (playerAt ⟨0, 0, 0⟩ ⟨0, 0, 0⟩).mCamera.directionWithoutPitch ∧
    (0 : ℚ) < 1 / 60 ∧
    0 < exampleEnv.exp (-(Env.PLAYER_WALKING_DECELERATE_RATIO exampleEnv) * (1 / 60)) ∧
    forwardDisplacement (updatePhysics exampleEnv emptyRegister onlyForward (1 / 60))
        (playerAt ⟨0, 0, 0⟩ ⟨0, 0, 0⟩) 0 ≤
      forwardDisplacement (updatePhysics exampleEnv emptyRegister onlyForward (1 / 60))
        (playerAt ⟨0, 0, 0⟩ ⟨0, 0, 0⟩) 1 ∧
    forwardDisplacement (updatePhysics exampleEnv emptyRegister onlyForward (1 / 60))
        (playerAt ⟨0, 0, 0⟩ ⟨0, 0, 0⟩) 0 ≤ 1 / 12 := by
  have hreg : NoSolid emptyRegister := by
    intro q c hc
    simp [emptyRegister, ColliderRegister.ofColliders] at hc
  have hd : summedDirection onlyForward (playerAt ⟨0, 0, 0⟩ ⟨0, 0, 0⟩).mCamera = ⟨0, 0, -1⟩ := by
    simp [summedDirection, onlyForward, playerAt, Vec3.add]
  have hlen : 0 < exampleEnv.length
      (summedDirection onlyForward (playerAt ⟨0, 0, 0⟩ ⟨0, 0, 0⟩).mCamera) := by
    rw [hd]
    norm_num [exampleEnv]
  have hnorm : exampleEnv.normalize
      (summedDirection onlyForward (playerAt ⟨0, 0, 0⟩ ⟨0, 0, 0⟩).mCamera) =
      (playerAt ⟨0, 0, 0⟩ ⟨0, 0, 0⟩).mCamera.directionWithoutPitch := by
    rw [hd]
    norm_num [exampleEnv, playerAt]
  have hdt : (0 : ℚ) < 1 / 60 := by norm_num
  have hexp : 0 < exampleEnv.exp
      (-(Env.PLAYER_WALKING_DECELERATE_RATIO exampleEnv) * (1 / 60)) := by
    norm_num [exampleEnv]
  have t := C15_forward_displacement_monotone_per_axis_bound exampleEnv emptyRegister (1 / 60)
    (playerAt ⟨0, 0, 0⟩ ⟨0, 0, 0⟩) hreg rfl hlen hnorm ⟨rfl, rfl⟩ hdt
    (by norm_num [exampleEnv]) (by norm_num [exampleEnv]) hexp 0
  refine ⟨hreg, rfl, hlen, hnorm, hdt, hexp, t.1, ?_⟩
  have h4 := t.2.2.2
  have e : (|(playerAt ⟨0, 0, 0⟩ ⟨0, 0, 0⟩).mCamera.directionWithoutPitch.x| +
      |(playerAt ⟨0, 0, 0⟩ ⟨0, 0, 0⟩).mCamera.directionWithoutPitch.z|) *
      (exampleEnv.PLAYER_MAX_HORIZONTAL_SPEED * (1 / 60)) = 1 / 12 := by
    norm_num [playerAt, exampleEnv]
  rw [e] at h4
  exact h4

end Walking

end AimGL
